import Mathlib

/-!
# NI PXIe-6674T routing driver: embedding of `ni6674t.c`

The definitions below follow `ni6674t.c`, `ni6674t.h` and `ni6674t_registers.h`.
C objects with an address (the terminal descriptors) are named by a tag type,
`desc_ptr`; a pointer into a descriptor's `available_inputs` array is a pair of
the descriptor and an index.  Unsigned 32-bit arithmetic is `Nat` arithmetic
reduced modulo `2 ^ 32`.  A function returns `none` where the C code would
dereference a null pointer or run off the end of an array.
-/

namespace NI6674T

/-! ## Register layout (`ni6674t_registers.h`) -/

/-- Truncation to a `u32`. -/
def u32 (x : Nat) : Nat := x % 2 ^ 32

/-- Bitwise complement of an `unsigned int`. -/
def not32 (x : Nat) : Nat := 0xFFFFFFFF ^^^ u32 x

def CLKIN_CTRL_ENABLE (x : Nat) : Nat := x <<< 1

def DSTARA_SRCA_MUX2 (x : Nat) : Nat := x <<< 4
def DSTARA_SRCA_MUX2_MASK : Nat := DSTARA_SRCA_MUX2 7
def DSTARA_SRCB_MUX2 (x : Nat) : Nat := x <<< 12
def DSTARA_SRCB_MUX2_MASK : Nat := DSTARA_SRCB_MUX2 7
def DSTARA_BANK_N (n x : Nat) : Nat := x <<< (16 + n * 4)
def DSTARA_BANK_N_MASK (n : Nat) : Nat := DSTARA_BANK_N n 3
def DSTARA_SRC_CLKIN : Nat := 7
def DSTARA_SRC_FLOATING : Nat := 0
def DSTARA_SRC_SRCA : Nat := 2
def DSTARA_SRC_SRCB : Nat := 3
def DSTARA_SRCA_USE_DIVIDER (x : Nat) : Nat := x <<< 20
def DSTARA_SRCB_USE_DIVIDER (x : Nat) : Nat := x <<< 21

def TRIG_CTRL_DEST (x : Nat) : Nat := x <<< 24
def TRIG_CTRL_DEST_PXITRIG (n : Nat) : Nat := n + 1
def TRIG_CTRL_DEST_PXISTAR (n : Nat) : Nat := n + 9
def TRIG_CTRL_DEST_PFI_SE (n : Nat) : Nat := n + 43
def TRIG_CTRL_SRC (x : Nat) : Nat := x <<< 16
def TRIG_CTRL_SRC_FLOATING : Nat := 0
def TRIG_CTRL_SRC_PXITRIG (n : Nat) : Nat := n + 1
def TRIG_CTRL_SRC_PXISTAR (n : Nat) : Nat := n + 9
def TRIG_CTRL_SRC_PFI_SE (n : Nat) : Nat := n + 43
def TRIG_CTRL_SRC_LOGIC_HIGH : Nat := 57
def TRIG_CTRL_SRC_LOGIC_LOW : Nat := 58
def TRIG_CTRL_SYNC_CLOCK (x : Nat) : Nat := x <<< 14
def TRIG_CTRL_EDGE_FALLING : Nat := 1 <<< 13
def TRIG_CTRL_ASYNCHRONOUS : Nat := 1 <<< 12
def TRIG_CTRL_INVERTED : Nat := 1 <<< 11
def TRIG_CTRL_ENABLED : Nat := 1 <<< 10

def TRIG_READ_PXI_STAR_LINE_STATE_BIT (n : Nat) : Nat := n
def TRIG_READ_PXI_TRIG_LINE_STATE_BIT (n : Nat) : Nat := n + 18
def TRIG_READ_PFI_LINE_STATE_BIT (n : Nat) : Nat := n + 26

/-- Registers of `struct ni_sync` that the driver writes with `iowrite32`. -/
inductive sync_reg
  | dacctrl
  | clkinctrl
  | dstaractrl1
  | dstaractrl2
  | triggerctrl
  deriving DecidableEq, Repr

/-- The `struct ni_sync` register block.  `iowrites` is the trace of every
`iowrite32` issued to the block, oldest first; the register fields hold the
value an `ioread32` returns. -/
structure ni_sync where
  dacctrl : Nat
  clkinctrl : Nat
  dstaractrl1 : Nat
  dstaractrl2 : Nat
  triggerctrl : Nat
  trigread : List Nat
  iowrites : List (sync_reg × Nat)
  deriving DecidableEq, Repr

/-- The call `iowrite32(val, &dev->sync-><reg>)`: the register takes the value
and the write is recorded. -/
def iowrite32 (val : Nat) (reg : sync_reg) (s : ni_sync) : ni_sync :=
  match reg with
  | .dacctrl => { s with dacctrl := val, iowrites := s.iowrites ++ [(reg, val)] }
  | .clkinctrl => { s with clkinctrl := val, iowrites := s.iowrites ++ [(reg, val)] }
  | .dstaractrl1 => { s with dstaractrl1 := val, iowrites := s.iowrites ++ [(reg, val)] }
  | .dstaractrl2 => { s with dstaractrl2 := val, iowrites := s.iowrites ++ [(reg, val)] }
  | .triggerctrl => { s with triggerctrl := val, iowrites := s.iowrites ++ [(reg, val)] }

/-- The call `ioread32(&dev->sync-><reg>)`. -/
def ioread32 (reg : sync_reg) (s : ni_sync) : Nat :=
  match reg with
  | .dacctrl => u32 s.dacctrl
  | .clkinctrl => u32 s.clkinctrl
  | .dstaractrl1 => u32 s.dstaractrl1
  | .dstaractrl2 => u32 s.dstaractrl2
  | .triggerctrl => u32 s.triggerctrl

/-! ## Descriptors (`ni6674t.h`, descriptor tables of `ni6674t.c`) -/

/-- Address of a `struct route_terminal_desc` object of the driver. -/
inductive desc_ptr
  | rt_floating
  | rt_logic_high
  | rt_logic_low
  | pxi_trig_rt_desc (n : Nat)
  | pfi_rt_desc (n : Nat)
  | pxi_star_rt_desc (n : Nat)
  | clkin_rt_desc
  | srca_rt_desc
  | srcb_rt_desc
  | srca_div_sel_rt_desc
  | srcb_div_sel_rt_desc
  | bank_rt_desc (n : Nat)
  | dstara_rt_desc (n : Nat)
  deriving DecidableEq, Repr

/-- The `struct route_terminal_input`; `desc = none` is the null pointer of
the entry that terminates an `available_inputs` array. -/
structure route_terminal_input where
  desc : Option desc_ptr
  data : Nat
  deriving DecidableEq, Repr

/-- The functions stored in `route_terminal_desc.set_input`. -/
inductive set_input_fn
  | triggerctrl_set_input
  | src_a_b_set_input
  | src_a_b_div_sel_set_input
  | bank_set_input
  deriving DecidableEq, Repr

/-- The `struct route_terminal_desc`.  `available_inputs` holds the whole C
array, terminating entry included (`[]` for a null pointer); `set_input = none`
is a null function pointer. -/
structure route_terminal_desc where
  name : String
  available_inputs : List route_terminal_input
  set_input : Option set_input_fn
  dest_data : Nat
  line_state_bit : Nat
  deriving DecidableEq, Repr

/-- The terminating entry `{ NULL, 0 }`. -/
def END_OF_INPUTS : route_terminal_input := ⟨none, 0⟩

/-- Preprocessor stringification `#n` of a decimal index. -/
def stringify (n : Nat) : String := Nat.repr n

def rt_floating : route_terminal_desc :=
  { name := "floating", available_inputs := [], set_input := none,
    dest_data := 0, line_state_bit := 0 }

def rt_logic_high : route_terminal_desc :=
  { name := "logic_high", available_inputs := [], set_input := none,
    dest_data := 0, line_state_bit := 0 }

def rt_logic_low : route_terminal_desc :=
  { name := "logic_low", available_inputs := [], set_input := none,
    dest_data := 0, line_state_bit := 0 }

def PFI_SE_INPUT (n : Nat) : route_terminal_input :=
  ⟨some (.pfi_rt_desc n), TRIG_CTRL_SRC_PFI_SE n⟩

def ALL_PFI_SE_INPUTS : List route_terminal_input :=
  [PFI_SE_INPUT 0, PFI_SE_INPUT 1, PFI_SE_INPUT 2, PFI_SE_INPUT 3, PFI_SE_INPUT 4,
   PFI_SE_INPUT 5]

def PXI_STAR_INPUT (n : Nat) : route_terminal_input :=
  ⟨some (.pxi_star_rt_desc n), TRIG_CTRL_SRC_PXISTAR n⟩

def ALL_PXI_STAR_INPUTS : List route_terminal_input :=
  [PXI_STAR_INPUT 0, PXI_STAR_INPUT 1, PXI_STAR_INPUT 2, PXI_STAR_INPUT 3,
   PXI_STAR_INPUT 4, PXI_STAR_INPUT 5, PXI_STAR_INPUT 6, PXI_STAR_INPUT 7,
   PXI_STAR_INPUT 8, PXI_STAR_INPUT 9, PXI_STAR_INPUT 10, PXI_STAR_INPUT 11,
   PXI_STAR_INPUT 12, PXI_STAR_INPUT 13, PXI_STAR_INPUT 14, PXI_STAR_INPUT 15,
   PXI_STAR_INPUT 16]

def PXI_TRIG_INPUT (n : Nat) : route_terminal_input :=
  ⟨some (.pxi_trig_rt_desc n), TRIG_CTRL_SRC_PXITRIG n⟩

def ALL_PXI_TRIG_INPUTS : List route_terminal_input :=
  [PXI_TRIG_INPUT 0, PXI_TRIG_INPUT 1, PXI_TRIG_INPUT 2, PXI_TRIG_INPUT 3,
   PXI_TRIG_INPUT 4, PXI_TRIG_INPUT 5, PXI_TRIG_INPUT 6, PXI_TRIG_INPUT 7]

/-- The three pseudo-sources that open every trigger-control input list. -/
def FLOATING_HIGH_LOW : List route_terminal_input :=
  [⟨some .rt_floating, TRIG_CTRL_SRC_FLOATING⟩,
   ⟨some .rt_logic_high, TRIG_CTRL_SRC_LOGIC_HIGH⟩,
   ⟨some .rt_logic_low, TRIG_CTRL_SRC_LOGIC_LOW⟩]

/-- The members set by `PXI_TRIG_RT_DESC_MEMBERS(n)`, with the input array of
entry `n` of `pxi_trig_rt_desc[]`. -/
def PXI_TRIG_RT_DESC_MEMBERS (n : Nat) (inputs : List route_terminal_input) :
    route_terminal_desc :=
  { name := "PXI_Trig" ++ stringify n,
    dest_data := TRIG_CTRL_DEST_PXITRIG n,
    line_state_bit := TRIG_READ_PXI_TRIG_LINE_STATE_BIT n,
    set_input := some .triggerctrl_set_input,
    available_inputs := inputs }

/-- The array `pxi_trig_rt_desc[]` (8 entries). -/
def pxi_trig_rt_desc : List route_terminal_desc :=
  [ PXI_TRIG_RT_DESC_MEMBERS 0 (FLOATING_HIGH_LOW ++ ALL_PFI_SE_INPUTS ++
      [PXI_TRIG_INPUT 1, PXI_TRIG_INPUT 2, PXI_TRIG_INPUT 3, PXI_TRIG_INPUT 4,
       PXI_TRIG_INPUT 5, PXI_TRIG_INPUT 6, PXI_TRIG_INPUT 7, END_OF_INPUTS]),
    PXI_TRIG_RT_DESC_MEMBERS 1 (FLOATING_HIGH_LOW ++ ALL_PFI_SE_INPUTS ++
      [PXI_TRIG_INPUT 0, PXI_TRIG_INPUT 2, PXI_TRIG_INPUT 3, PXI_TRIG_INPUT 4,
       PXI_TRIG_INPUT 5, PXI_TRIG_INPUT 6, PXI_TRIG_INPUT 7, END_OF_INPUTS]),
    PXI_TRIG_RT_DESC_MEMBERS 2 (FLOATING_HIGH_LOW ++ ALL_PFI_SE_INPUTS ++
      [PXI_TRIG_INPUT 0, PXI_TRIG_INPUT 1, PXI_TRIG_INPUT 3, PXI_TRIG_INPUT 4,
       PXI_TRIG_INPUT 5, PXI_TRIG_INPUT 6, PXI_TRIG_INPUT 7, END_OF_INPUTS]),
    PXI_TRIG_RT_DESC_MEMBERS 3 (FLOATING_HIGH_LOW ++ ALL_PFI_SE_INPUTS ++
      [PXI_TRIG_INPUT 0, PXI_TRIG_INPUT 1, PXI_TRIG_INPUT 2, PXI_TRIG_INPUT 4,
       PXI_TRIG_INPUT 5, PXI_TRIG_INPUT 6, PXI_TRIG_INPUT 7, END_OF_INPUTS]),
    PXI_TRIG_RT_DESC_MEMBERS 4 (FLOATING_HIGH_LOW ++ ALL_PFI_SE_INPUTS ++
      [PXI_TRIG_INPUT 0, PXI_TRIG_INPUT 1, PXI_TRIG_INPUT 2, PXI_TRIG_INPUT 3,
       PXI_TRIG_INPUT 5, PXI_TRIG_INPUT 6, PXI_TRIG_INPUT 7, END_OF_INPUTS]),
    PXI_TRIG_RT_DESC_MEMBERS 5 (FLOATING_HIGH_LOW ++ ALL_PFI_SE_INPUTS ++
      [PXI_TRIG_INPUT 0, PXI_TRIG_INPUT 1, PXI_TRIG_INPUT 2, PXI_TRIG_INPUT 3,
       PXI_TRIG_INPUT 4, PXI_TRIG_INPUT 6, PXI_TRIG_INPUT 7, END_OF_INPUTS]),
    PXI_TRIG_RT_DESC_MEMBERS 6 (FLOATING_HIGH_LOW ++ ALL_PFI_SE_INPUTS ++
      [PXI_TRIG_INPUT 0, PXI_TRIG_INPUT 1, PXI_TRIG_INPUT 2, PXI_TRIG_INPUT 3,
       PXI_TRIG_INPUT 4, PXI_TRIG_INPUT 5, PXI_TRIG_INPUT 7, END_OF_INPUTS]),
    PXI_TRIG_RT_DESC_MEMBERS 7 (FLOATING_HIGH_LOW ++ ALL_PFI_SE_INPUTS ++
      [PXI_TRIG_INPUT 0, PXI_TRIG_INPUT 1, PXI_TRIG_INPUT 2, PXI_TRIG_INPUT 3,
       PXI_TRIG_INPUT 4, PXI_TRIG_INPUT 5, PXI_TRIG_INPUT 6, END_OF_INPUTS]) ]

/-- The members set by `PFI_RT_DESC_MEMBERS(n)`, with the input array of entry
`n` of `pfi_rt_desc[]`. -/
def PFI_RT_DESC_MEMBERS (n : Nat) (inputs : List route_terminal_input) :
    route_terminal_desc :=
  { name := "PFI" ++ stringify n,
    dest_data := TRIG_CTRL_DEST_PFI_SE n,
    line_state_bit := TRIG_READ_PFI_LINE_STATE_BIT n,
    set_input := some .triggerctrl_set_input,
    available_inputs := inputs }

/-- The array `pfi_rt_desc[]` (6 entries). -/
def pfi_rt_desc : List route_terminal_desc :=
  [ PFI_RT_DESC_MEMBERS 0 (FLOATING_HIGH_LOW ++
      [PFI_SE_INPUT 1, PFI_SE_INPUT 2, PFI_SE_INPUT 3, PFI_SE_INPUT 4, PFI_SE_INPUT 5] ++
      ALL_PXI_TRIG_INPUTS ++ ALL_PXI_STAR_INPUTS ++ [END_OF_INPUTS]),
    PFI_RT_DESC_MEMBERS 1 (FLOATING_HIGH_LOW ++
      [PFI_SE_INPUT 0, PFI_SE_INPUT 2, PFI_SE_INPUT 3, PFI_SE_INPUT 4, PFI_SE_INPUT 5] ++
      ALL_PXI_TRIG_INPUTS ++ ALL_PXI_STAR_INPUTS ++ [END_OF_INPUTS]),
    PFI_RT_DESC_MEMBERS 2 (FLOATING_HIGH_LOW ++
      [PFI_SE_INPUT 0, PFI_SE_INPUT 1, PFI_SE_INPUT 3, PFI_SE_INPUT 4, PFI_SE_INPUT 5] ++
      ALL_PXI_TRIG_INPUTS ++ ALL_PXI_STAR_INPUTS ++ [END_OF_INPUTS]),
    PFI_RT_DESC_MEMBERS 3 (FLOATING_HIGH_LOW ++
      [PFI_SE_INPUT 0, PFI_SE_INPUT 1, PFI_SE_INPUT 2, PFI_SE_INPUT 4, PFI_SE_INPUT 5] ++
      ALL_PXI_TRIG_INPUTS ++ ALL_PXI_STAR_INPUTS ++ [END_OF_INPUTS]),
    PFI_RT_DESC_MEMBERS 4 (FLOATING_HIGH_LOW ++
      [PFI_SE_INPUT 0, PFI_SE_INPUT 1, PFI_SE_INPUT 2, PFI_SE_INPUT 3, PFI_SE_INPUT 5] ++
      ALL_PXI_TRIG_INPUTS ++ ALL_PXI_STAR_INPUTS ++ [END_OF_INPUTS]),
    PFI_RT_DESC_MEMBERS 5 (FLOATING_HIGH_LOW ++
      [PFI_SE_INPUT 0, PFI_SE_INPUT 1, PFI_SE_INPUT 2, PFI_SE_INPUT 3, PFI_SE_INPUT 4] ++
      ALL_PXI_TRIG_INPUTS ++ ALL_PXI_STAR_INPUTS ++ [END_OF_INPUTS]) ]

/-- The members set by `PXI_STAR_RT_DESC_MEMBERS(n)`. -/
def PXI_STAR_RT_DESC_MEMBERS (n : Nat) : route_terminal_desc :=
  { name := "PXI_Star" ++ stringify n,
    dest_data := TRIG_CTRL_DEST_PXISTAR n,
    line_state_bit := TRIG_READ_PXI_STAR_LINE_STATE_BIT n,
    available_inputs := FLOATING_HIGH_LOW ++ ALL_PFI_SE_INPUTS ++ [END_OF_INPUTS],
    set_input := some .triggerctrl_set_input }

/-- The array `pxi_star_rt_desc[]` (17 entries). -/
def pxi_star_rt_desc : List route_terminal_desc :=
  [ PXI_STAR_RT_DESC_MEMBERS 0, PXI_STAR_RT_DESC_MEMBERS 1, PXI_STAR_RT_DESC_MEMBERS 2,
    PXI_STAR_RT_DESC_MEMBERS 3, PXI_STAR_RT_DESC_MEMBERS 4, PXI_STAR_RT_DESC_MEMBERS 5,
    PXI_STAR_RT_DESC_MEMBERS 6, PXI_STAR_RT_DESC_MEMBERS 7, PXI_STAR_RT_DESC_MEMBERS 8,
    PXI_STAR_RT_DESC_MEMBERS 9, PXI_STAR_RT_DESC_MEMBERS 10, PXI_STAR_RT_DESC_MEMBERS 11,
    PXI_STAR_RT_DESC_MEMBERS 12, PXI_STAR_RT_DESC_MEMBERS 13, PXI_STAR_RT_DESC_MEMBERS 14,
    PXI_STAR_RT_DESC_MEMBERS 15, PXI_STAR_RT_DESC_MEMBERS 16 ]

def clkin_rt_desc : route_terminal_desc :=
  { name := "ClkIn", available_inputs := [], set_input := none,
    dest_data := 0, line_state_bit := 0 }

def srca_rt_desc : route_terminal_desc :=
  { name := "SourceA",
    set_input := some .src_a_b_set_input,
    dest_data := DSTARA_SRCA_MUX2_MASK,
    available_inputs :=
      [⟨some .clkin_rt_desc, DSTARA_SRCA_MUX2 DSTARA_SRC_CLKIN⟩, END_OF_INPUTS],
    line_state_bit := 0 }

def srcb_rt_desc : route_terminal_desc :=
  { name := "SourceB",
    set_input := some .src_a_b_set_input,
    dest_data := DSTARA_SRCB_MUX2_MASK,
    available_inputs :=
      [⟨some .clkin_rt_desc, DSTARA_SRCB_MUX2 DSTARA_SRC_CLKIN⟩, END_OF_INPUTS],
    line_state_bit := 0 }

def srca_div_sel_rt_desc : route_terminal_desc :=
  { name := "SourceADividerSelect",
    set_input := some .src_a_b_div_sel_set_input,
    dest_data := DSTARA_SRCA_USE_DIVIDER 1,
    available_inputs :=
      [⟨some .srca_rt_desc, DSTARA_SRCA_USE_DIVIDER 0⟩, END_OF_INPUTS],
    line_state_bit := 0 }

def srcb_div_sel_rt_desc : route_terminal_desc :=
  { name := "SourceBDividerSelect",
    set_input := some .src_a_b_div_sel_set_input,
    dest_data := DSTARA_SRCB_USE_DIVIDER 1,
    available_inputs :=
      [⟨some .srcb_rt_desc, DSTARA_SRCB_USE_DIVIDER 0⟩, END_OF_INPUTS],
    line_state_bit := 0 }

/-- The members set by `BANK_RT_DESC_MEMBERS(n)`. -/
def BANK_RT_DESC_MEMBERS (n : Nat) : route_terminal_desc :=
  { name := "Bank" ++ stringify n,
    set_input := some .bank_set_input,
    dest_data := DSTARA_BANK_N_MASK n,
    available_inputs :=
      [⟨some .rt_floating, DSTARA_BANK_N n DSTARA_SRC_FLOATING⟩,
       ⟨some .srca_div_sel_rt_desc, DSTARA_BANK_N n DSTARA_SRC_SRCA⟩,
       ⟨some .srcb_div_sel_rt_desc, DSTARA_BANK_N n DSTARA_SRC_SRCB⟩,
       END_OF_INPUTS],
    line_state_bit := 0 }

/-- The array `bank_rt_desc[]` (4 entries). -/
def bank_rt_desc : List route_terminal_desc :=
  [ BANK_RT_DESC_MEMBERS 0, BANK_RT_DESC_MEMBERS 1, BANK_RT_DESC_MEMBERS 2,
    BANK_RT_DESC_MEMBERS 3 ]

/-- The members set by `PXIE_DSTARA_RT_DESC_MEMBERS(n, banknum)`. -/
def PXIE_DSTARA_RT_DESC_MEMBERS (n banknum : Nat) : route_terminal_desc :=
  { name := "PXIe_DStarA" ++ stringify n,
    available_inputs := [⟨some (.bank_rt_desc banknum), 0⟩, END_OF_INPUTS],
    set_input := none,
    dest_data := 0,
    line_state_bit := 0 }

/-- The array `dstara_rt_desc[]` (17 entries). -/
def dstara_rt_desc : List route_terminal_desc :=
  [ PXIE_DSTARA_RT_DESC_MEMBERS 0 0, PXIE_DSTARA_RT_DESC_MEMBERS 1 0,
    PXIE_DSTARA_RT_DESC_MEMBERS 2 0, PXIE_DSTARA_RT_DESC_MEMBERS 3 0,
    PXIE_DSTARA_RT_DESC_MEMBERS 4 1, PXIE_DSTARA_RT_DESC_MEMBERS 5 1,
    PXIE_DSTARA_RT_DESC_MEMBERS 6 1, PXIE_DSTARA_RT_DESC_MEMBERS 7 1,
    PXIE_DSTARA_RT_DESC_MEMBERS 8 2, PXIE_DSTARA_RT_DESC_MEMBERS 9 2,
    PXIE_DSTARA_RT_DESC_MEMBERS 10 2, PXIE_DSTARA_RT_DESC_MEMBERS 11 2,
    PXIE_DSTARA_RT_DESC_MEMBERS 12 3, PXIE_DSTARA_RT_DESC_MEMBERS 13 3,
    PXIE_DSTARA_RT_DESC_MEMBERS 14 3, PXIE_DSTARA_RT_DESC_MEMBERS 15 3,
    PXIE_DSTARA_RT_DESC_MEMBERS 16 3 ]

/-- Dereference of a descriptor address; `none` for an address outside the
descriptor arrays. -/
def deref_desc : desc_ptr → Option route_terminal_desc
  | .rt_floating => some rt_floating
  | .rt_logic_high => some rt_logic_high
  | .rt_logic_low => some rt_logic_low
  | .pxi_trig_rt_desc n => pxi_trig_rt_desc[n]?
  | .pfi_rt_desc n => pfi_rt_desc[n]?
  | .pxi_star_rt_desc n => pxi_star_rt_desc[n]?
  | .clkin_rt_desc => some clkin_rt_desc
  | .srca_rt_desc => some srca_rt_desc
  | .srcb_rt_desc => some srcb_rt_desc
  | .srca_div_sel_rt_desc => some srca_div_sel_rt_desc
  | .srcb_div_sel_rt_desc => some srcb_div_sel_rt_desc
  | .bank_rt_desc n => bank_rt_desc[n]?
  | .dstara_rt_desc n => dstara_rt_desc[n]?

/-! ## C strings -/

def EINVAL : Int := 22
def ENOMEM : Int := 12
def PAGE_SIZE : Nat := 4096

/-- Largest `size_t`; the value of `len` after `--len` when `len` was 0. -/
def SIZE_MAX : Nat := 2 ^ 64 - 1

/-- The characters of the C string that starts at the beginning of a buffer
holding `s` followed by a NUL: those before the first NUL.  A character stands
for a byte of the buffer; the names compared against are ASCII, and only
whether two units are equal enters the result of a comparison. -/
def c_str (s : String) : List Char := s.data.takeWhile (fun c => c ≠ Char.ofNat 0)

def strlen (s : String) : Nat := (c_str s).length

/-- The library function `strncmp(s1, s2, n)` on the characters two C strings
have before their NUL: 0 when the first `n` characters agree (a string that
ends earlier must end in both), otherwise the difference of the first two
characters that differ. -/
def strncmp : List Char → List Char → Nat → Int
  | _, _, 0 => 0
  | [], [], _ + 1 => 0
  | [], b :: _, _ + 1 => 0 - (b.toNat : Int)
  | a :: _, [], _ + 1 => (a.toNat : Int)
  | a :: as, b :: bs, n + 1 =>
    if a = b then strncmp as bs n else (a.toNat : Int) - (b.toNat : Int)

/-- The call `snprintf(buf, size, "%s\n", s)`: the value returned (the length
of the untruncated text) and the text stored in the buffer. -/
def snprintf_line (size : Nat) (s : String) : Int × String :=
  let out := c_str s ++ ['\n']
  ((out.length : Int), String.mk (out.take (size - 1)))

/-! ## Terminal run-time state (`struct route_terminal`) -/

inductive terminal_polarity
  | POLARITY_NORMAL
  | POLARITY_INVERTED
  deriving DecidableEq, Repr

/-- The enumerator with value `i`. -/
def terminal_polarity.ofIndex : Nat → terminal_polarity
  | 0 => .POLARITY_NORMAL
  | _ => .POLARITY_INVERTED

/-- The value of an enumerator. -/
def terminal_polarity.toIndex : terminal_polarity → Nat
  | .POLARITY_NORMAL => 0
  | .POLARITY_INVERTED => 1

def terminal_polarity_strs : List String := ["normal", "inverted"]

/-- Address of the element `base->available_inputs[idx]`. -/
structure input_ptr where
  base : desc_ptr
  idx : Nat
  deriving DecidableEq, Repr

/-- Dereference of a pointer into an `available_inputs` array; `none` outside
the array. -/
def deref_input (p : input_ptr) : Option route_terminal_input :=
  match deref_desc p.base with
  | none => none
  | some d => d.available_inputs[p.idx]?

/-- The `struct route_terminal` (the kobject and the owner pointer apart: the
register block of the owning device is passed to each function). `none` is a
null pointer. -/
structure route_terminal where
  rt_desc : Option desc_ptr
  input : Option input_ptr
  polarity : terminal_polarity
  deriving DecidableEq, Repr

/-- Result of `kzalloc(sizeof(struct route_terminal))`: all fields zero. -/
def kzalloc_route_terminal : route_terminal :=
  { rt_desc := none, input := none, polarity := .POLARITY_NORMAL }

/-- The function `triggerctrl_flush_terminal_attrs`. -/
def triggerctrl_flush_terminal_attrs (rt : route_terminal) (sync : ni_sync) :
    Option ni_sync :=
  match rt.rt_desc.bind deref_desc, rt.input.bind deref_input with
  | some dst, some src =>
    let trigctrl := u32 (u32 (TRIG_CTRL_DEST dst.dest_data) ||| TRIG_CTRL_SRC src.data)
    let trigctrl :=
      if src.desc ≠ some .rt_floating then trigctrl ||| TRIG_CTRL_ENABLED else trigctrl
    let trigctrl := trigctrl ||| TRIG_CTRL_ASYNCHRONOUS
    let trigctrl :=
      if rt.polarity = .POLARITY_INVERTED then trigctrl ||| TRIG_CTRL_INVERTED
      else trigctrl
    some (iowrite32 trigctrl .triggerctrl sync)
  | _, _ => none

/-- The function `triggerctrl_set_input`. -/
def triggerctrl_set_input (rt : route_terminal) (_input : input_ptr) (sync : ni_sync) :
    Option ni_sync :=
  triggerctrl_flush_terminal_attrs rt sync

/-- The function `src_a_b_set_input`; the mutex calls have no effect on a
single thread. -/
def src_a_b_set_input (rt : route_terminal) (input : input_ptr) (sync : ni_sync) :
    Option ni_sync :=
  match rt.rt_desc.bind deref_desc, deref_input input with
  | some desc, some inp =>
    let regval := ioread32 .dstaractrl1 sync
    let regval := regval &&& not32 desc.dest_data
    let regval := u32 (regval ||| inp.data)
    some (iowrite32 regval .dstaractrl1 sync)
  | _, _ => none

/-- The function `src_a_b_div_sel_set_input`. -/
def src_a_b_div_sel_set_input (rt : route_terminal) (input : input_ptr) (sync : ni_sync) :
    Option ni_sync :=
  match rt.rt_desc.bind deref_desc, deref_input input with
  | some desc, some inp =>
    let regval := ioread32 .dstaractrl2 sync
    let regval := regval &&& not32 desc.dest_data
    let regval := u32 (regval ||| inp.data)
    some (iowrite32 regval .dstaractrl2 sync)
  | _, _ => none

/-- The function `bank_set_input`. -/
def bank_set_input (rt : route_terminal) (input : input_ptr) (sync : ni_sync) :
    Option ni_sync :=
  match rt.rt_desc.bind deref_desc, deref_input input with
  | some desc, some inp =>
    let regval := ioread32 .dstaractrl1 sync
    let regval := regval &&& not32 desc.dest_data
    let regval := u32 (regval ||| inp.data)
    some (iowrite32 regval .dstaractrl1 sync)
  | _, _ => none

/-- Call through a `set_input` function pointer. -/
def call_set_input (f : set_input_fn) (rt : route_terminal) (input : input_ptr)
    (sync : ni_sync) : Option ni_sync :=
  match f with
  | .triggerctrl_set_input => triggerctrl_set_input rt input sync
  | .src_a_b_set_input => src_a_b_set_input rt input sync
  | .src_a_b_div_sel_set_input => src_a_b_div_sel_set_input rt input sync
  | .bank_set_input => bank_set_input rt input sync

/-- The function `set_input_and_update_state`. -/
def set_input_and_update_state (rt : route_terminal) (input : input_ptr) (sync : ni_sync) :
    Option (route_terminal × ni_sync) :=
  match rt.rt_desc.bind deref_desc with
  | none => none
  | some desc =>
    let rt1 := { rt with input := some input }
    match desc.set_input with
    | none => some (rt1, sync)
    | some f =>
      match call_set_input f rt1 input sync with
      | none => none
      | some sync1 => some (rt1, sync1)

/-- The function `route_terminal_current_input_show`: the value returned and
the text left in the buffer. -/
def route_terminal_current_input_show (rt : route_terminal) : Option (Int × String) :=
  match ((rt.input.bind deref_input).bind route_terminal_input.desc).bind deref_desc with
  | none => none
  | some d => some (snprintf_line PAGE_SIZE d.name)

/-- The `while (in->desc)` loop of `route_terminal_current_input_store`, with
`in` at index `i` of the array and `ins` the entries from there on. -/
def current_input_store_loop (rt : route_terminal) (base : desc_ptr) (buf : List Char)
    (len count : Nat) (sync : ni_sync) :
    List route_terminal_input → Nat → Option (Int × route_terminal × ni_sync)
  | [], _ => none
  | inp :: ins, i =>
    match inp.desc with
    | none => some (-EINVAL, rt, sync)
    | some dp =>
      match deref_desc dp with
      | none => none
      | some d =>
        if strncmp buf (c_str d.name) len = 0 then
          match set_input_and_update_state rt ⟨base, i⟩ sync with
          | none => none
          | some (rt1, sync1) => some ((count : Int), rt1, sync1)
        else current_input_store_loop rt base buf len count sync ins (i + 1)

/-- The function `route_terminal_current_input_store`.  `before` is the byte
in front of the buffer, which `buf[len - 1]` reads when the string is empty.
`count` is at most `PAGE_SIZE` for a sysfs write, so its conversion to
`ssize_t` keeps its value. -/
def route_terminal_current_input_store (rt : route_terminal) (buf : String)
    (before : Char) (count : Nat) (sync : ni_sync) :
    Option (Int × route_terminal × ni_sync) :=
  match rt.rt_desc with
  | none => none
  | some base =>
    match deref_desc base with
    | none => none
    | some desc =>
      let len := strlen buf
      let last := if len = 0 then before else (c_str buf).getD (len - 1) before
      let len := if last = '\n' then (if len = 0 then SIZE_MAX else len - 1) else len
      current_input_store_loop rt base (c_str buf) len count sync desc.available_inputs 0

/-- The `for` loop of `route_terminal_polarity_store`, at index `i` of
`terminal_polarity_strs` with `names` the entries from there on. -/
def polarity_store_loop (rt : route_terminal) (buf : List Char) (count : Nat)
    (sync : ni_sync) : List String → Nat → Option (Int × route_terminal × ni_sync)
  | [], _ => some (-EINVAL, rt, sync)
  | name :: names, i =>
    if strncmp (c_str name) buf (strlen name) = 0 then
      let rt1 := { rt with polarity := terminal_polarity.ofIndex i }
      match triggerctrl_flush_terminal_attrs rt1 sync with
      | none => none
      | some sync1 => some ((count : Int), rt1, sync1)
    else polarity_store_loop rt buf count sync names (i + 1)

/-- The function `route_terminal_polarity_store`. -/
def route_terminal_polarity_store (rt : route_terminal) (buf : String) (count : Nat)
    (sync : ni_sync) : Option (Int × route_terminal × ni_sync) :=
  polarity_store_loop rt (c_str buf) count sync terminal_polarity_strs 0

/-- The function `route_terminal_polarity_show`. -/
def route_terminal_polarity_show (rt : route_terminal) : Option (Int × String) :=
  match terminal_polarity_strs[rt.polarity.toIndex]? with
  | none => none
  | some s => some (snprintf_line PAGE_SIZE s)

/-! ## Attribute dispatch -/

/-- The four `route_terminal_attr` objects. -/
inductive route_terminal_attr
  | current_input
  | polarity
  | available_inputs
  | line_state
  deriving DecidableEq, Repr

/-- The function `route_terminal_store`: a call of the attribute's `store`
member, `-EINVAL` where that member is null (the read-only attributes). -/
def route_terminal_store (rt : route_terminal) (attr : route_terminal_attr) (buf : String)
    (before : Char) (count : Nat) (sync : ni_sync) :
    Option (Int × route_terminal × ni_sync) :=
  match attr with
  | .current_input => route_terminal_current_input_store rt buf before count sync
  | .polarity => route_terminal_polarity_store rt buf count sync
  | .available_inputs => some (-EINVAL, rt, sync)
  | .line_state => some (-EINVAL, rt, sync)

/-! ## Terminal bring-up -/

/-- Outcome of the kernel services the bring-up code calls: whether
`kset_create_and_add` returns a set, whether the `kzalloc` for the terminal of
a descriptor returns memory, and the value `kobject_init_and_add` returns for
that terminal. -/
structure kernel_env where
  kset_create_and_add : Bool
  kzalloc : desc_ptr → Bool
  kobject_init_and_add : desc_ptr → Int

/-- The part of `struct ni6674t` used by the routing code: the terminals that
are registered, in the order of their creation, the register block, and the
trace of `release_route_terminal` calls (each names the released terminal by
its descriptor). -/
structure ni6674t where
  terminals : List route_terminal
  released : List desc_ptr
  sync : ni_sync
  deriving DecidableEq, Repr

/-- The function `release_route_terminal`, on the terminal of descriptor `d`. -/
def release_route_terminal (dev : ni6674t) (d : desc_ptr) : ni6674t :=
  { dev with
    terminals := dev.terminals.filter (fun rt => decide (rt.rt_desc ≠ some d)),
    released := dev.released ++ [d] }

/-- The loops `while (--i >= 0) release_route_terminal(rt[i])` and
`for (i = ARRAY_SIZE(..) - 1; i >= 0; --i) release_route_terminal(rt[i])`:
the terminals of `created` (in creation order) are released last first. -/
def release_created (dev : ni6674t) (created : List desc_ptr) : ni6674t :=
  created.reverse.foldl release_route_terminal dev

/-- The function `init_and_add_route_terminal`. -/
def init_and_add_route_terminal (env : kernel_env) (rt : route_terminal) (desc : desc_ptr)
    (sync : ni_sync) : Option (Int × route_terminal × ni_sync) :=
  let rt1 := { rt with rt_desc := some desc }
  let err := env.kobject_init_and_add desc
  if err = 0 then
    match set_input_and_update_state rt1 ⟨desc, 0⟩ sync with
    | none => none
    | some (rt2, sync1) => some (err, rt2, sync1)
  else some (err, rt1, sync)

/-- The `for` loop of `init_route_terminals` (and of
`init_pxi_trig_terminals`, which has the same body): `rtt` are the descriptors
from index `i` on, `created` those of the terminals created before. -/
def init_route_terminals_loop (env : kernel_env) :
    List desc_ptr → List desc_ptr → ni6674t → Option (Int × ni6674t)
  | [], _, dev => some (0, dev)
  | d :: rtt, created, dev =>
    if env.kzalloc d then
      match init_and_add_route_terminal env kzalloc_route_terminal d dev.sync with
      | none => none
      | some (err, rt, sync1) =>
        if err = 0 then
          init_route_terminals_loop env rtt (created ++ [d])
            { dev with terminals := dev.terminals ++ [rt], sync := sync1 }
        else some (err, release_created { dev with sync := sync1 } created)
    else some (-ENOMEM, release_created dev created)

/-- The function `init_route_terminals`. -/
def init_route_terminals (env : kernel_env) (dev : ni6674t) (rtt : List desc_ptr) :
    Option (Int × ni6674t) :=
  init_route_terminals_loop env rtt [] dev

/-- Addresses of the entries of `pxi_trig_rt_desc[]`, one per `dev->pxi_trig[i]`. -/
def pxi_trig_ptrs : List desc_ptr := (List.range 8).map desc_ptr.pxi_trig_rt_desc

/-- Addresses of the entries of `pfi_rt_desc[]`, one per `dev->pfi[i]`. -/
def pfi_ptrs : List desc_ptr := (List.range 6).map desc_ptr.pfi_rt_desc

/-- Addresses of the entries of `pxi_star_rt_desc[]`, one per `dev->pxi_star[i]`. -/
def pxi_star_ptrs : List desc_ptr := (List.range 17).map desc_ptr.pxi_star_rt_desc

/-- Addresses of the entries of `bank_rt_desc[]`, one per `dev->bank[i]`. -/
def bank_ptrs : List desc_ptr := (List.range 4).map desc_ptr.bank_rt_desc

/-- Addresses of the entries of `dstara_rt_desc[]`, one per `dev->pxie_dstara[i]`. -/
def dstara_ptrs : List desc_ptr := (List.range 17).map desc_ptr.dstara_rt_desc

def init_pxi_trig_terminals (env : kernel_env) (dev : ni6674t) : Option (Int × ni6674t) :=
  init_route_terminals_loop env pxi_trig_ptrs [] dev

def release_pxi_trig_terminals (dev : ni6674t) : ni6674t :=
  release_created dev pxi_trig_ptrs

def init_pfi_terminals (env : kernel_env) (dev : ni6674t) : Option (Int × ni6674t) :=
  init_route_terminals env dev pfi_ptrs

def release_pfi_terminals (dev : ni6674t) : ni6674t :=
  release_created dev pfi_ptrs

def init_pxi_star_terminals (env : kernel_env) (dev : ni6674t) : Option (Int × ni6674t) :=
  init_route_terminals env dev pxi_star_ptrs

def release_pxi_star_terminals (dev : ni6674t) : ni6674t :=
  release_created dev pxi_star_ptrs

/-- The function `init_basic_terminal`. -/
def init_basic_terminal (env : kernel_env) (dev : ni6674t) (desc : desc_ptr) :
    Option (Int × ni6674t) :=
  if env.kzalloc desc then
    match init_and_add_route_terminal env kzalloc_route_terminal desc dev.sync with
    | none => none
    | some (err, rt, sync1) =>
      if err = 0 then
        some (err, { dev with terminals := dev.terminals ++ [rt], sync := sync1 })
      else some (err, { dev with sync := sync1 })
  else some (-ENOMEM, dev)

/-- The two `for` loops of `init_other_terminals` over `init_basic_terminal`:
the error code, the device and the descriptors of the terminals the loop
created (all of them when the code is 0). -/
def init_basic_terminals_loop (env : kernel_env) :
    List desc_ptr → List desc_ptr → ni6674t → Option (Int × ni6674t × List desc_ptr)
  | [], created, dev => some (0, dev, created)
  | d :: rest, created, dev =>
    match init_basic_terminal env dev d with
    | none => none
    | some (err, dev1) =>
      if err = 0 then init_basic_terminals_loop env rest (created ++ [d]) dev1
      else some (err, dev1, created)

/-- The function `enable_clkin`. -/
def enable_clkin (dev : ni6674t) : ni6674t :=
  { dev with sync := iowrite32 (CLKIN_CTRL_ENABLE 1) .clkinctrl dev.sync }

/-- The function `init_other_terminals`. -/
def init_other_terminals (env : kernel_env) (dev : ni6674t) : Option (Int × ni6674t) :=
  match init_basic_terminal env dev .srca_rt_desc with
  | none => none
  | some (err, dev1) =>
  if err ≠ 0 then some (err, dev1) else
  match init_basic_terminal env dev1 .srcb_rt_desc with
  | none => none
  | some (err, dev2) =>
  if err ≠ 0 then some (err, release_route_terminal dev2 .srca_rt_desc) else
  match init_basic_terminal env dev2 .srca_div_sel_rt_desc with
  | none => none
  | some (err, dev3) =>
  if err ≠ 0 then
    some (err, release_created dev3 [.srca_rt_desc, .srcb_rt_desc]) else
  match init_basic_terminal env dev3 .srcb_div_sel_rt_desc with
  | none => none
  | some (err, dev4) =>
  if err ≠ 0 then
    some (err, release_created dev4 [.srca_rt_desc, .srcb_rt_desc, .srca_div_sel_rt_desc])
  else
  match init_basic_terminals_loop env bank_ptrs [] dev4 with
  | none => none
  | some (err, dev5, banks) =>
  if err ≠ 0 then
    some (err, release_created dev5
      ([.srca_rt_desc, .srcb_rt_desc, .srca_div_sel_rt_desc, .srcb_div_sel_rt_desc] ++ banks))
  else
  match init_basic_terminals_loop env dstara_ptrs [] dev5 with
  | none => none
  | some (err, dev6, dstaras) =>
  if err ≠ 0 then
    some (err, release_created dev6
      ([.srca_rt_desc, .srcb_rt_desc, .srca_div_sel_rt_desc, .srcb_div_sel_rt_desc] ++
        bank_ptrs ++ dstaras))
  else some (0, enable_clkin dev6)

/-- The function `ni6674t_init_sysfs`. -/
def ni6674t_init_sysfs (env : kernel_env) (dev : ni6674t) : Option (Int × ni6674t) :=
  if env.kset_create_and_add then
    match init_pxi_trig_terminals env dev with
    | none => none
    | some (err, dev1) =>
    if err ≠ 0 then some (err, dev1) else
    match init_pfi_terminals env dev1 with
    | none => none
    | some (err, dev2) =>
    if err ≠ 0 then some (err, release_pxi_trig_terminals dev2) else
    match init_pxi_star_terminals env dev2 with
    | none => none
    | some (err, dev3) =>
    if err ≠ 0 then
      some (err, release_pxi_trig_terminals (release_pfi_terminals dev3)) else
    match init_other_terminals env dev3 with
    | none => none
    | some (err, dev4) =>
    if err ≠ 0 then
      some (err, release_pxi_trig_terminals (release_pfi_terminals
        (release_pxi_star_terminals dev4)))
    else some (0, dev4)
  else some (-ENOMEM, dev)

/-- Descriptors of the terminals `ni6674t_init_sysfs` creates, in the order of
their creation. -/
def bringup_terminals : List desc_ptr :=
  pxi_trig_ptrs ++ pfi_ptrs ++ pxi_star_ptrs ++
    [.srca_rt_desc, .srcb_rt_desc, .srca_div_sel_rt_desc, .srcb_div_sel_rt_desc] ++
    bank_ptrs ++ dstara_ptrs

/-- The device before `ni6674t_init_sysfs`: no terminal, registers as found. -/
def fresh_device (sync : ni_sync) : ni6674t :=
  { terminals := [], released := [], sync := sync }

/-- Kernel services that all succeed. -/
def env_ok : kernel_env :=
  { kset_create_and_add := true, kzalloc := fun _ => true,
    kobject_init_and_add := fun _ => 0 }

/-! ## Notions used to state the properties -/

/-- The entries of an `available_inputs` array in front of its terminating
entry. -/
def listed_inputs (desc : route_terminal_desc) : List route_terminal_input :=
  desc.available_inputs.takeWhile (fun e => e.desc.isSome)

/-- Name of the terminal an input entry refers to. -/
def input_name (e : route_terminal_input) : Option String :=
  (e.desc.bind deref_desc).map route_terminal_desc.name

/-- Names in the input list of the terminal with descriptor `d`, in declared
order. -/
def input_names (d : desc_ptr) : List String :=
  match deref_desc d with
  | none => []
  | some desc => (listed_inputs desc).filterMap input_name

/-- The length `route_terminal_current_input_store` compares over: `strlen(buf)`,
decremented when `buf[len - 1]` is a newline. -/
def compared_len (buf : String) (before : Char) : Nat :=
  let len := strlen buf
  let last := if len = 0 then before else (c_str buf).getD (len - 1) before
  if last = '\n' then (if len = 0 then SIZE_MAX else len - 1) else len

/-- Where the loop of `route_terminal_current_input_store` stops: `none` when
it leaves the array, `some none` at the terminating entry, `some (some i)` at
the first entry, of index `i`, whose name compares equal. -/
def first_match (buf : List Char) (len : Nat) :
    List route_terminal_input → Nat → Option (Option Nat)
  | [], _ => none
  | inp :: ins, i =>
    match inp.desc with
    | none => some none
    | some dp =>
      match deref_desc dp with
      | none => none
      | some d =>
        if strncmp buf (c_str d.name) len = 0 then some (some i)
        else first_match buf len ins (i + 1)

/-- Check, for a non-empty request `buf` on the terminal of descriptor `d`,
that the loop stops at an entry whose terminal is shown as `name`. -/
def selects_name (d : desc_ptr) (name buf : String) : Bool :=
  match deref_desc d with
  | none => false
  | some desc =>
    decide (strlen buf ≠ 0) &&
    match first_match (c_str buf) (compared_len buf 'x') desc.available_inputs 0 with
    | some (some j) =>
      match (desc.available_inputs[j]?).bind input_name with
      | some shown =>
        decide (snprintf_line PAGE_SIZE shown = ((name.length : Int) + 1, name ++ "\n"))
      | none => false
    | _ => false

/-- A register block with every register zero and no write issued. -/
def sync_zero : ni_sync :=
  { dacctrl := 0, clkinctrl := 0, dstaractrl1 := 0, dstaractrl2 := 0, triggerctrl := 0,
    trigread := [0, 0, 0], iowrites := [] }

/-- The terminal of descriptor `d` whose current input is entry `j` of its
input array, with polarity `p`. -/
def terminal_at (d : desc_ptr) (j : Nat) (p : terminal_polarity) : route_terminal :=
  { rt_desc := some d, input := some ⟨d, j⟩, polarity := p }

/-- Whether the current input of a terminal is one of the entries of its own
descriptor's input array in front of the terminating entry. -/
def input_listed (rt : route_terminal) : Bool :=
  match rt.rt_desc, rt.input with
  | some d, some p =>
    decide (p.base = d) &&
    match deref_desc d with
    | some desc => decide (p.idx < (listed_inputs desc).length)
    | none => false
  | _, _ => false

/-- Whether an input array has a terminating entry with, in front of it, only
entries that refer to a descriptor of the driver. -/
def terminated : List route_terminal_input → Bool
  | [] => false
  | e :: es =>
    match e.desc with
    | none => true
    | some dp => (deref_desc dp).isSome && terminated es

/-- The device states reached from a successful `ni6674t_init_sysfs` by
`route_terminal_store` calls, each on one of the device's terminals, for any
attribute, request text and count.  The attribute files a terminal really has
depend on its `kobj_type`; allowing every attribute on every terminal only adds
states. -/
inductive reachable (env : kernel_env) (sync0 : ni_sync) : ni6674t → Prop
  | bringup (dev : ni6674t) :
      ni6674t_init_sysfs env (fresh_device sync0) = some (0, dev) → reachable env sync0 dev
  | store (dev : ni6674t) (i : Nat) (rt : route_terminal) (attr : route_terminal_attr)
      (buf : String) (before : Char) (count : Nat) (r : Int) (rt1 : route_terminal)
      (sync1 : ni_sync) :
      reachable env sync0 dev → dev.terminals[i]? = some rt →
      route_terminal_store rt attr buf before count dev.sync = some (r, rt1, sync1) →
      reachable env sync0 { dev with terminals := dev.terminals.set i rt1, sync := sync1 }

/-- The device `ni6674t_init_sysfs` leaves when every kernel service succeeds
and the registers were all zero. -/
def device_after_bringup : ni6674t :=
  match ni6674t_init_sysfs env_ok (fresh_device sync_zero) with
  | some (_, dev) => dev
  | none => fresh_device sync_zero

/-- Check that the terminal of descriptor `d`, with entry 0 as its current
input, is shown under the name of the first entry of the input array of `d`,
and that this entry is not the terminating one. -/
def shows_first_input (d : desc_ptr) : Bool :=
  match deref_desc d with
  | none => false
  | some desc =>
    match desc.available_inputs.head? with
    | none => false
    | some first =>
      first.desc.isSome &&
      match input_name first with
      | none => false
      | some name =>
        decide (route_terminal_current_input_show (terminal_at d 0 .POLARITY_NORMAL) =
          some ((name.length : Int) + 1, name ++ "\n"))

/-- Check that the descriptor `d` exists and that its input array is terminated. -/
def well_terminated (d : desc_ptr) : Bool :=
  match deref_desc d with
  | none => false
  | some desc => terminated desc.available_inputs

/-- The device after bring-up (`device_after_bringup`) and a write of
"PXI_Star1" to the current input of PFI0, the terminal at position 8. -/
def device_after_select : ni6674t :=
  { device_after_bringup with
    terminals :=
      device_after_bringup.terminals.set 8 (terminal_at (.pfi_rt_desc 0) 17 .POLARITY_NORMAL),
    sync := iowrite32 0x2B0A1400 .triggerctrl device_after_bringup.sync }

/-- Descriptors of the terminals programmed through the trigger-control
register: PXI_Trig0-7, PFI0-5 and PXI_Star0-16. -/
def trigger_terminals : List desc_ptr := pxi_trig_ptrs ++ pfi_ptrs ++ pxi_star_ptrs

/-- The trigger-control word in the words of the specification:
`DEST(destinationCode) | SRC(inputData) | ASYNCHRONOUS`, with `ENABLED` unless
the selected input is the floating pseudo-source and `INVERTED` iff the
polarity is inverted. -/
def trigger_word_spec (destinationCode inputData : Nat) (floating inverted : Bool) : Nat :=
  (destinationCode <<< 24) ||| (inputData <<< 16) ||| (1 <<< 12) |||
    (if floating then 0 else 1 <<< 10) ||| (if inverted then 1 <<< 11 else 0)

/-- The word `triggerctrl_flush_terminal_attrs` computes for a terminal. -/
def trigctrl_of (rt : route_terminal) : Option Nat :=
  match rt.rt_desc.bind deref_desc, rt.input.bind deref_input with
  | some dst, some src =>
    let trigctrl := u32 (u32 (TRIG_CTRL_DEST dst.dest_data) ||| TRIG_CTRL_SRC src.data)
    let trigctrl :=
      if src.desc ≠ some .rt_floating then trigctrl ||| TRIG_CTRL_ENABLED else trigctrl
    let trigctrl := trigctrl ||| TRIG_CTRL_ASYNCHRONOUS
    let trigctrl :=
      if rt.polarity = .POLARITY_INVERTED then trigctrl ||| TRIG_CTRL_INVERTED
      else trigctrl
    some trigctrl
  | _, _ => none

/-- Number of entries in the input list of the terminal of descriptor `d`. -/
def listed_count (d : desc_ptr) : Nat :=
  match deref_desc d with
  | none => 0
  | some desc => (listed_inputs desc).length

/-- Check, for entry `j` of the terminal of descriptor `d` and polarity `p`,
that the terminal commits through `triggerctrl_set_input` and that the word
computed for it is the word of the specification. -/
def trigger_entry_ok (d : desc_ptr) (j : Nat) (p : terminal_polarity) : Bool :=
  match deref_desc d with
  | none => false
  | some desc =>
    decide (desc.set_input = some .triggerctrl_set_input) &&
    match (listed_inputs desc)[j]? with
    | none => false
    | some e =>
      decide (desc.available_inputs[j]? = some e) &&
      decide (trigctrl_of (terminal_at d j p) =
        some (trigger_word_spec desc.dest_data e.data (decide (e.desc = some .rt_floating))
          (decide (p = .POLARITY_INVERTED))))

/-- Where the loop of `route_terminal_polarity_store` stops: the index of the
first polarity name that the request begins with, `none` when there is none. -/
def polarity_match (buf : List Char) : List String → Nat → Option Nat
  | [], _ => none
  | name :: names, i =>
    if strncmp (c_str name) buf (strlen name) = 0 then some i
    else polarity_match buf names (i + 1)

/-- The DEST field of a trigger-control word, bits 31..24. -/
def dest_field (w : Nat) : Nat := (w >>> 24) % 256

/-- The SRC field of a trigger-control word, bits 23..16. -/
def src_field (w : Nat) : Nat := (w >>> 16) % 256

/-- Check, for entry `j` of the terminal of descriptor `d`, that the words
computed with inverted and with normal polarity differ in the INVERTED bit
alone and agree on the DEST, SRC, ENABLED and ASYNCHRONOUS fields. -/
def toggle_ok (d : desc_ptr) (j : Nat) : Bool :=
  match trigctrl_of (terminal_at d j .POLARITY_INVERTED),
    trigctrl_of (terminal_at d j .POLARITY_NORMAL) with
  | some wi, some wn =>
    decide (wi ^^^ wn = TRIG_CTRL_INVERTED) &&
    decide (wi &&& TRIG_CTRL_INVERTED = TRIG_CTRL_INVERTED) &&
    decide (wn &&& TRIG_CTRL_INVERTED = 0) &&
    decide (dest_field wi = dest_field wn) &&
    decide (src_field wi = src_field wn) &&
    decide (wi &&& TRIG_CTRL_ENABLED = wn &&& TRIG_CTRL_ENABLED) &&
    decide (wi &&& TRIG_CTRL_ASYNCHRONOUS = wn &&& TRIG_CTRL_ASYNCHRONOUS)
  | _, _ => false

/-- Descriptors of the terminals whose field lies in a shared control word:
SourceA, SourceB, the two divider selects and Bank0-3. -/
def shared_terminals : List desc_ptr :=
  [.srca_rt_desc, .srcb_rt_desc, .srca_div_sel_rt_desc, .srcb_div_sel_rt_desc] ++ bank_ptrs

/-- The register a `set_input` function reads, modifies and writes back;
`none` for the trigger-control function, which overwrites its register. -/
def shared_word : set_input_fn → Option sync_reg
  | .triggerctrl_set_input => none
  | .src_a_b_set_input => some .dstaractrl1
  | .src_a_b_div_sel_set_input => some .dstaractrl2
  | .bank_set_input => some .dstaractrl1

/-- The shared control word that holds the field of the terminal of
descriptor `d`. -/
def control_word_of (d : desc_ptr) : Option sync_reg :=
  ((deref_desc d).bind route_terminal_desc.set_input).bind shared_word

/-- Check, for a non-empty request `buf` on the shared-register terminal of
descriptor `d`, that the loop stops at a listed entry named `name` whose
encoded value lies inside the terminal's 32-bit field mask. -/
def field_select_ok (d : desc_ptr) (name buf : String) : Bool :=
  match deref_desc d with
  | none => false
  | some desc =>
    decide (strlen buf ≠ 0) && decide (desc.dest_data < 2 ^ 32) &&
    (control_word_of d).isSome &&
    match first_match (c_str buf) (compared_len buf 'x') desc.available_inputs 0 with
    | some (some j) =>
      match desc.available_inputs[j]? with
      | some e =>
        decide (input_name e = some name) && decide (e.data &&& desc.dest_data = e.data)
      | none => false
    | _ => false

/-- The `dest_data` member of the descriptor at `d`: for a shared-register
terminal, its field mask. -/
def mask_of (d : desc_ptr) : Nat :=
  match deref_desc d with
  | none => 0
  | some desc => desc.dest_data

/-- A register block whose two shared control words read as all ones. -/
def sync_ones : ni_sync :=
  { dacctrl := 0, clkinctrl := 0, dstaractrl1 := 0xFFFFFFFF, dstaractrl2 := 0xFFFFFFFF,
    triggerctrl := 0, trigread := [0, 0, 0], iowrites := [] }

/-- Check, for a non-empty request `buf` on the terminal of descriptor `d`,
that the descriptor has no `set_input` function and that the loop stops at a
listed entry named `name`. -/
def plain_select_ok (d : desc_ptr) (name buf : String) : Bool :=
  match deref_desc d with
  | none => false
  | some desc =>
    decide (strlen buf ≠ 0) && decide (desc.set_input = none) &&
    match first_match (c_str buf) (compared_len buf 'x') desc.available_inputs 0 with
    | some (some j) =>
      match desc.available_inputs[j]? with
      | some e => decide (input_name e = some name)
      | none => false
    | _ => false

/-! ## Listing the inputs and reading the line state -/

/-- The `while (in->desc)` loop of `route_terminal_available_inputs_show`:
`text` is what the page holds between its start and `buf`, `total` the count
so far.  The result is `none` where the array has no terminating entry and
where the text of a `snprintf` call does not fit in the `PAGE_SIZE - total`
bytes it is given (the C code then moves `buf` past the end of what was
written). -/
def available_inputs_show_loop :
    List route_terminal_input → List Char → Nat → Option (List Char × Nat)
  | [], _, _ => none
  | inp :: ins, text, total =>
    match inp.desc with
    | none => some (text, total)
    | some dp =>
      match deref_desc dp with
      | none => none
      | some d =>
        let s := c_str d.name ++ [' ']
        let written := s.length
        if written < PAGE_SIZE - total then
          available_inputs_show_loop ins (text ++ s) (total + written)
        else none

/-- The function `route_terminal_available_inputs_show`: the value returned and
the text left in the page.  The store `*(buf - 1) = '\n'` replaces the last
character written; with nothing written it would fall in front of the page
(`none`). -/
def route_terminal_available_inputs_show (rt : route_terminal) : Option (Int × String) :=
  match rt.rt_desc.bind deref_desc with
  | none => none
  | some desc =>
    match available_inputs_show_loop desc.available_inputs [] 0 with
    | none => none
    | some (text, total) =>
      if total = 0 then none
      else some ((total : Int), String.mk (text.dropLast ++ ['\n']))

/-- Check that the listing of the terminal of descriptor `d` is the names of
its listed inputs, in order, separated by single spaces and ended by a
newline, that the value returned is the length of that text, and that every
listed entry contributes its name. -/
def listing_ok (d : desc_ptr) : Bool :=
  match deref_desc d with
  | none => false
  | some desc =>
    decide (route_terminal_available_inputs_show (terminal_at d 0 .POLARITY_NORMAL) =
      some ((((" ".intercalate (input_names d)) ++ "\n").length : Int),
        (" ".intercalate (input_names d)) ++ "\n")) &&
    decide ((listed_inputs desc).map input_name = (input_names d).map some)

/-- The call `ioread32(&dev->sync->trigread[i])`; `none` outside the array of
three status words. -/
def ioread32_trigread (i : Nat) (s : ni_sync) : Option Nat :=
  if i < 3 then (s.trigread[i]?).map u32 else none

/-- The function `route_terminal_line_state_show`: the value returned and the
text left in the page.  The `int` value `1 << (lsb % 32)` enters the `&` as
an unsigned 32-bit value. -/
def route_terminal_line_state_show (rt : route_terminal) (sync : ni_sync) :
    Option (Int × String) :=
  match rt.rt_desc.bind deref_desc with
  | none => none
  | some rt_desc =>
    let lsb := rt_desc.line_state_bit
    match ioread32_trigread (lsb / 32) sync with
    | none => none
    | some trigread =>
      let line_state : Nat := if trigread &&& u32 (1 <<< (lsb % 32)) ≠ 0 then 1 else 0
      some (snprintf_line PAGE_SIZE (Nat.repr line_state))

/-- The line-state bit the specification gives each category: star-bus
terminals from bit 0, trigger terminals from bit 18, general-purpose lines
from bit 26. -/
def line_state_bit_spec : desc_ptr → Option Nat
  | .pxi_star_rt_desc n => some n
  | .pxi_trig_rt_desc n => some (18 + n)
  | .pfi_rt_desc n => some (26 + n)
  | _ => none

/-- Check that the descriptor at `d` carries the line-state bit of the
specification and that this bit lies in the first status word. -/
def line_state_bit_ok (d : desc_ptr) : Bool :=
  match deref_desc d, line_state_bit_spec d with
  | some desc, some b => decide (desc.line_state_bit = b) && decide (b < 32)
  | _, _ => false

/-! ## Attribute files -/

/-- The three `struct kobj_type` objects of the driver. -/
inductive kobj_type
  | basic_route_terminal_ktype
  | route_terminal_ktype
  | pxi_trig_route_terminal_ktype
  deriving DecidableEq, Repr

def basic_route_terminal_default_attrs : List route_terminal_attr :=
  [.current_input, .available_inputs]

def route_terminal_default_attrs : List route_terminal_attr :=
  [.current_input, .polarity, .available_inputs, .line_state]

def pxi_trig_route_terminal_default_attrs : List route_terminal_attr :=
  [.current_input, .polarity, .available_inputs, .line_state]

/-- The `default_attrs` member of a `kobj_type`. -/
def default_attrs : kobj_type → List route_terminal_attr
  | .basic_route_terminal_ktype => basic_route_terminal_default_attrs
  | .route_terminal_ktype => route_terminal_default_attrs
  | .pxi_trig_route_terminal_ktype => pxi_trig_route_terminal_default_attrs

/-- The `kobj_type` the bring-up code hands to `init_and_add_route_terminal`
for the terminal of descriptor `d`: `init_pxi_trig_terminals` passes
`pxi_trig_route_terminal_ktype`, `init_route_terminals` (PFI, PXI_Star)
`route_terminal_ktype`, `init_basic_terminal` (all others)
`basic_route_terminal_ktype`. -/
def bringup_ktype (d : desc_ptr) : Option kobj_type :=
  if d ∈ pxi_trig_ptrs then some .pxi_trig_route_terminal_ktype
  else if d ∈ pfi_ptrs ++ pxi_star_ptrs then some .route_terminal_ktype
  else if d ∈ [desc_ptr.srca_rt_desc, .srcb_rt_desc, .srca_div_sel_rt_desc,
      .srcb_div_sel_rt_desc] ++ bank_ptrs ++ dstara_ptrs then
    some .basic_route_terminal_ktype
  else none

/-- The function `route_terminal_show`: a call of the attribute's `show`
member (each of the four attributes has one). -/
def route_terminal_show (rt : route_terminal) (attr : route_terminal_attr) (sync : ni_sync) :
    Option (Int × String) :=
  match attr with
  | .current_input => route_terminal_current_input_show rt
  | .polarity => route_terminal_polarity_show rt
  | .available_inputs => route_terminal_available_inputs_show rt
  | .line_state => route_terminal_line_state_show rt sync

/-- Outcome of an access to an attribute of a terminal through sysfs: there is
no file of that name and no driver function runs (terminal and registers are
as before), or the driver function ran and returned, or it faulted. -/
inductive sysfs_result (α : Type)
  | no_such_file (rt : route_terminal) (sync : ni_sync)
  | performed (ret : α) (rt : route_terminal) (sync : ni_sync)
  | fault

/-- A write to the attribute `attr` of a terminal registered with the
`kobj_type` `kt`.  The sysfs core (kernel code outside the driver) creates one
file per entry of `default_attrs` and calls `route_terminal_store`, the
`store` member of `route_terminal_sysfs_ops`, only for a file that exists. -/
def sysfs_write (kt : kobj_type) (rt : route_terminal) (attr : route_terminal_attr)
    (buf : String) (before : Char) (count : Nat) (sync : ni_sync) : sysfs_result Int :=
  if attr ∈ default_attrs kt then
    match route_terminal_store rt attr buf before count sync with
    | none => .fault
    | some (r, rt1, sync1) => .performed r rt1 sync1
  else .no_such_file rt sync

/-- A read of the attribute `attr` of a terminal registered with the
`kobj_type` `kt`: `route_terminal_show` for a file that exists. -/
def sysfs_read (kt : kobj_type) (rt : route_terminal) (attr : route_terminal_attr)
    (sync : ni_sync) : sysfs_result (Int × String) :=
  if attr ∈ default_attrs kt then
    match route_terminal_show rt attr sync with
    | none => .fault
    | some r => .performed r rt sync
  else .no_such_file rt sync

/-- Check on the attribute files of the terminal of descriptor `d`: polarity
and line state exist exactly for the dedicated-register terminals, current
input and input listing for every terminal. -/
def attrs_ok (d : desc_ptr) : Bool :=
  match bringup_ktype d with
  | none => false
  | some kt =>
    decide (route_terminal_attr.polarity ∈ default_attrs kt ↔ d ∈ trigger_terminals) &&
    decide (route_terminal_attr.line_state ∈ default_attrs kt ↔ d ∈ trigger_terminals) &&
    decide (route_terminal_attr.current_input ∈ default_attrs kt) &&
    decide (route_terminal_attr.available_inputs ∈ default_attrs kt)

/-! ## Configuration load (`ni6674t_load_fpga`) -/

def EIO : Int := 5

def MITE_IODWBSR_WENAB : Nat := 1 <<< 7
def MITE_IOWBSR1_WENAB : Nat := 1 <<< 7
def MITE_IOWBSR1_WSIZE4 : Nat := 1 <<< 4

def CE_COMMAND_RESET_FIFO : Nat := 1 <<< 24
def CE_COMMAND_START_FPGA : Nat := 1 <<< 2
def CE_PROG_PULSE_START_READY_IMMEDIATE : Nat := 1 <<< 18
def CE_PROG_PULSE_START_DRIVE_UNASSERT : Nat := 1 <<< 17
def CE_PROG_PULSE_START_LEN (n : Nat) : Nat := n
def CE_DATA_DATA_CLKS (n : Nat) : Nat := n <<< 8
def CE_DATA_ORDER_MSB2LSB : Nat := 1 <<< 3
def CE_DATA_ISPARALLEL : Nat := 1 <<< 1
def CE_START_CLKRDY_DELAY (n : Nat) : Nat := n
def CE_STOP_POSTCLKS (n : Nat) : Nat := n <<< 24
def CE_STOP_DONEHIGHTRUE : Nat := 1 <<< 18
def CE_STOP_NOERRHIGHTRUE : Nat := 1 <<< 17
def CE_STOP_DONERDY_IMMEDIATE : Nat := 1 <<< 16
def CE_STATUS_IN_RESET : Nat := 1 <<< 31
def CE_STATUS_IN_WAIT_START : Nat := 1 <<< 24
def CE_STATUS_IN_GEN_DATA : Nat := 1 <<< 12
def CE_STATUS_CONFIG_DONE : Nat := 1 <<< 6
def CE_STATUS_CONFIG_ERROR : Nat := 1 <<< 4
def CE_STATUS_STOP_DOWNLOAD : Nat := CE_STATUS_CONFIG_ERROR ||| CE_STATUS_CONFIG_DONE

/-- Registers of `struct mite` the load function accesses. -/
inductive mite_reg
  | iodwbsr
  | iowbsr1
  deriving DecidableEq, Repr

/-- Registers of `struct ce`. -/
inductive ce_reg
  | command
  | flash_info
  | prog_pulse_config
  | data_config
  | start_config
  | stop_config
  | flash_addr
  | status
  | fifo
  | self_config
  deriving DecidableEq, Repr

/-- One register access of the load function; a run is the list of its
accesses in program order. -/
inductive io_event
  | mite_write (reg : mite_reg) (val : Nat)
  | mite_read (reg : mite_reg) (val : Nat)
  | ce_write (reg : ce_reg) (val : Nat)
  | ce_read (reg : ce_reg) (val : Nat)
  deriving DecidableEq, Repr

/-- What surrounds a run of `ni6674t_load_fpga`: the value `request_firmware`
returns and the image it delivers (`fw->data`, one number per byte, with
`fw->size` the length), the bytes that follow the image in memory, whether
`ioremap` of the engine registers succeeds, the start of PCI region 1, the
value the n-th read of the engine's status register returns (n from 0), and
the value a read of the bridge register `iodwbsr` returns. -/
structure load_env where
  request_firmware : Int
  image : List Nat
  beyond : Nat → Nat
  ioremap_ok : Bool
  bar1 : Nat
  status : Nat → Nat
  iodwbsr : Nat

/-- The byte at `fw->data[k]`. -/
def byte_at (env : load_env) (k : Nat) : Nat :=
  if k < env.image.length then env.image.getD k 0 % 256
  else env.beyond (k - env.image.length) % 256

/-- The value `*(u32 *)(fw->data + off)` on a little-endian CPU. -/
def load_u32 (env : load_env) (off : Nat) : Nat :=
  byte_at env off ||| byte_at env (off + 1) <<< 8 ||| byte_at env (off + 2) <<< 16 |||
    byte_at env (off + 3) <<< 24

/-- The kernel's `cpu_to_be32` on a little-endian CPU: the byte swap
`swab32`. -/
def cpu_to_be32 (x : Nat) : Nat :=
  ((x &&& 0x000000ff) <<< 24) ||| ((x &&& 0x0000ff00) <<< 8) |||
    ((x &&& 0x00ff0000) >>> 8) ||| ((x &&& 0xff000000) >>> 24)

/-- The n-th `ioread32(&ce->status)`. -/
def read_status (env : load_env) (n : Nat) : Nat := u32 (env.status n)

/-- The accesses from the start of the function up to the write of
`CE_COMMAND_START_FPGA`, for a status `status` that passed the state check. -/
def config_trace (env : load_env) (status : Nat) : List io_event :=
  [ .mite_write .iodwbsr (u32 env.bar1 ||| MITE_IODWBSR_WENAB),
    .ce_read .status status,
    .ce_write .command CE_COMMAND_RESET_FIFO,
    .ce_write .flash_info 0,
    .ce_write .prog_pulse_config (CE_PROG_PULSE_START_READY_IMMEDIATE |||
      CE_PROG_PULSE_START_DRIVE_UNASSERT ||| CE_PROG_PULSE_START_LEN 0x13),
    .ce_write .data_config (CE_DATA_DATA_CLKS 1 ||| CE_DATA_ORDER_MSB2LSB |||
      CE_DATA_ISPARALLEL),
    .ce_write .start_config (CE_START_CLKRDY_DELAY 1),
    .ce_write .stop_config (CE_STOP_POSTCLKS 0x64 ||| CE_STOP_DONEHIGHTRUE |||
      CE_STOP_NOERRHIGHTRUE ||| CE_STOP_DONERDY_IMMEDIATE),
    .ce_write .flash_addr 0,
    .ce_write .command CE_COMMAND_START_FPGA ]

/-- The loop `while (!(ioread32(&ce->status) & CE_STATUS_IN_GEN_DATA) &&
--timeout) mdelay(10);` entered with `timeout = t + 1` and `n` status reads
done: the final `timeout`, the reads done and the trace. -/
def await_gen_data (env : load_env) :
    Nat → Nat → List io_event → Nat × Nat × List io_event
  | 0, n, tr =>
    let s := read_status env n
    if s &&& CE_STATUS_IN_GEN_DATA ≠ 0 then (1, n + 1, tr ++ [.ce_read .status s])
    else (0, n + 1, tr ++ [.ce_read .status s])
  | t + 1, n, tr =>
    let s := read_status env n
    if s &&& CE_STATUS_IN_GEN_DATA ≠ 0 then (t + 2, n + 1, tr ++ [.ce_read .status s])
    else await_gen_data env t (n + 1) (tr ++ [.ce_read .status s])

/-- The loop `for (i = 0; i < fw->size / 4; i++)` with `remaining` iterations
to go, `fwdata` at word `i` of the image, `n` status reads done: the word
index `fwdata` ends at, the final `tmp`, the reads done and the trace. -/
def stream_words (env : load_env) :
    Nat → Nat → Nat → Nat → List io_event → Nat × Nat × Nat × List io_event
  | 0, i, tmp, n, tr => (i, tmp, n, tr)
  | remaining + 1, i, _, n, tr =>
    let tr1 := tr ++ [.ce_write .fifo (cpu_to_be32 (load_u32 env (4 * i)))]
    let tmp := read_status env n
    let tr2 := tr1 ++ [.ce_read .status tmp]
    if tmp &&& CE_STATUS_STOP_DOWNLOAD ≠ 0 then (i + 1, tmp, n + 1, tr2)
    else stream_words env remaining (i + 1) tmp (n + 1) tr2

/-- The statement under the comment "zero pad last word", with `fwdata` at
word `i` of the image: the final `tmp`, the reads done and the trace. -/
def tail_pad (env : load_env) (i tmp n : Nat) (tr : List io_event) :
    Nat × Nat × List io_event :=
  let rem_bytes := env.image.length &&& 3
  if tmp &&& CE_STATUS_CONFIG_DONE = 0 ∧ rem_bytes ≠ 0 then
    let mask := u32 ((1 <<< (rem_bytes * 8)) - 1)
    let tr1 := tr ++ [.ce_write .fifo (cpu_to_be32 (load_u32 env (4 * i) &&& mask))]
    let tmp1 := read_status env n
    (tmp1, n + 1, tr1 ++ [.ce_read .status tmp1])
  else (tmp, n, tr)

/-- The loop `while (--timeout)` of dummy writes, at the point where
`--timeout` has just produced `t`: the final `timeout` and `tmp`, the reads
done and the trace. -/
def dummy_flush_loop (env : load_env) :
    Nat → Nat → Nat → List io_event → Nat × Nat × Nat × List io_event
  | 0, tmp, n, tr => (0, tmp, n, tr)
  | t + 1, _, n, tr =>
    let tr1 := tr ++ [.ce_write .fifo 0xFFFFFFFF]
    let tmp := read_status env n
    let tr2 := tr1 ++ [.ce_read .status tmp]
    if tmp &&& CE_STATUS_STOP_DOWNLOAD ≠ 0 then (t + 1, tmp, n + 1, tr2)
    else dummy_flush_loop env t tmp (n + 1) tr2

/-- The statement `if (!(tmp & CE_STATUS_CONFIG_DONE)) { timeout = 1100; ... }`. -/
def dummy_flush (env : load_env) (timeout tmp n : Nat) (tr : List io_event) :
    Nat × Nat × Nat × List io_event :=
  if tmp &&& CE_STATUS_CONFIG_DONE = 0 then dummy_flush_loop env 1099 tmp n tr
  else (timeout, tmp, n, tr)

/-- The part of `ni6674t_load_fpga` from `fwdata = (u32*) fw->data` to the end
of the dummy writes, entered with the `timeout` left by the wait for
generating-data and `n` status reads done: the final `timeout` and `tmp`, the
reads done and the trace. -/
def download (env : load_env) (timeout n : Nat) (tr : List io_event) :
    Nat × Nat × Nat × List io_event :=
  match stream_words env (env.image.length / 4) 0 0 n tr with
  | (i, tmp, n1, tr1) =>
    match tail_pad env i tmp n1 tr1 with
    | (tmp2, n2, tr2) => dummy_flush env timeout tmp2 n2 tr2

/-- The accesses that reprogram the bridge windows after a download. -/
def window_trace (env : load_env) : List io_event :=
  [ .mite_read .iodwbsr (u32 env.iodwbsr),
    .mite_write .iodwbsr (u32 env.iodwbsr &&& not32 MITE_IODWBSR_WENAB),
    .mite_write .iowbsr1 (u32 env.bar1 ||| MITE_IOWBSR1_WENAB ||| MITE_IOWBSR1_WSIZE4) ]

/-- The function `ni6674t_load_fpga`: the value returned and the register
accesses made.  Delays and write barriers leave no mark. -/
def ni6674t_load_fpga (env : load_env) : Int × List io_event :=
  if env.request_firmware ≠ 0 then (env.request_firmware, [])
  else if env.ioremap_ok = false then (- EIO, [])
  else
    let status := read_status env 0
    if status &&& (CE_STATUS_IN_RESET ||| CE_STATUS_IN_WAIT_START) ≠
        CE_STATUS_IN_WAIT_START then
      (- EIO, [.mite_write .iodwbsr (u32 env.bar1 ||| MITE_IODWBSR_WENAB),
        .ce_read .status status])
    else
      match await_gen_data env 99 1 (config_trace env status) with
      | (timeout, n, tr) =>
        if timeout = 0 then (- EIO, tr)
        else
          match download env timeout n tr with
          | (timeout2, tmp, _, tr2) =>
            if timeout2 = 0 ∨ tmp &&& CE_STATUS_CONFIG_ERROR ≠ 0 then (- EIO, tr2)
            else (0, tr2 ++ window_trace env)

/-- An environment in which the firmware is the six bytes 11 22 33 44 55 66
(hexadecimal) and the engine reports wait-start for ever: it passes the state
check and never generates data. -/
def env_never_gen : load_env :=
  { request_firmware := 0, image := [0x11, 0x22, 0x33, 0x44, 0x55, 0x66],
    beyond := fun _ => 0xAB, ioremap_ok := true, bar1 := 0xF0000000,
    status := fun _ => CE_STATUS_IN_WAIT_START, iodwbsr := 0xF0000080 }

/-- An environment in which the engine reports reset together with
wait-start at the state check. -/
def env_in_reset : load_env :=
  { env_never_gen with status := fun _ => CE_STATUS_IN_RESET ||| CE_STATUS_IN_WAIT_START }

/-- The word an access writes to the data FIFO, if it is such a write. -/
def fifo_value : io_event → Option Nat
  | .ce_write .fifo v => some v
  | _ => none

/-- The words a run writes to the data FIFO, in order. -/
def fifo_writes (tr : List io_event) : List Nat := tr.filterMap fifo_value

/-- The value an access reads from the engine's status register, if it is
such a read. -/
def status_value : io_event → Option Nat
  | .ce_read .status v => some v
  | _ => none

/-- The values a run reads from the engine's status register, in order. -/
def status_reads (tr : List io_event) : List Nat := tr.filterMap status_value

/-- An environment in which the engine passes the state check, reports
generating-data at the first poll and config-error at every read after it;
the firmware is the six bytes 11 22 33 44 55 66 (hexadecimal). -/
def env_error_six_bytes : load_env :=
  { env_never_gen with
    status := fun n =>
      if n = 0 then CE_STATUS_IN_WAIT_START
      else if n = 1 then CE_STATUS_IN_GEN_DATA
      else CE_STATUS_CONFIG_ERROR }

/-- The same engine with the nine-byte firmware 1 2 3 4 5 0 0 0 9: two full
words and one byte. -/
def env_error_nine_bytes : load_env :=
  { env_error_six_bytes with image := [1, 2, 3, 4, 5, 0, 0, 0, 9] }

/-- The same engine with the ten-byte firmware 11 22 33 44 55 66 77 88 99 AA
(hexadecimal): two full words and two bytes. -/
def env_error_ten_bytes : load_env :=
  { env_error_six_bytes with
    image := [0x11, 0x22, 0x33, 0x44, 0x55, 0x66, 0x77, 0x88, 0x99, 0xAA] }

/-- The 32-bit value whose bytes are `a b c d`, most significant first. -/
def be32 (a b c d : Nat) : Nat := a <<< 24 ||| b <<< 16 ||| c <<< 8 ||| d

/-- The big-endian value of image bytes `4k .. 4k+3`. -/
def image_word (image : List Nat) (k : Nat) : Nat :=
  be32 (image.getD (4 * k) 0) (image.getD (4 * k + 1) 0) (image.getD (4 * k + 2) 0)
    (image.getD (4 * k + 3) 0)

/-- The tail word of an image whose length is not a multiple of four: its
last `length % 4` bytes followed by zero bytes up to four, read big-endian. -/
def tail_word (image : List Nat) : Nat :=
  let r := image.length % 4
  let bs := image.drop (image.length - r) ++ List.replicate (4 - r) 0
  be32 (bs.getD 0 0) (bs.getD 1 0) (bs.getD 2 0) (bs.getD 3 0)

/-- The accesses of a run up to and including the poll that first shows
generating-data, when that is poll `m` (counted from 0) after the state
check. -/
def gen_data_trace (env : load_env) (m : Nat) : List io_event :=
  config_trace env (read_status env 0) ++
    (List.range (m + 1)).map (fun k => io_event.ce_read .status (read_status env (1 + k)))

/-- An environment in which the engine passes the state check, reports
generating-data at the first poll, nothing after the only full word of the
six-byte firmware and config-done from the read after the tail word on. -/
def env_done_after_tail : load_env :=
  { env_never_gen with
    status := fun n =>
      if n = 0 then CE_STATUS_IN_WAIT_START
      else if n = 1 then CE_STATUS_IN_GEN_DATA
      else if n = 2 then 0
      else CE_STATUS_CONFIG_DONE }

/-- The value of `timeout` at the final check `if (!timeout || ...)` of a run
in which generating-data was seen at poll `m`: zero iff the loop of dummy
writes used up its counter. -/
def final_timeout (env : load_env) (m : Nat) : Nat :=
  (download env (100 - m) (m + 2) (gen_data_trace env m)).1

/-- An environment in which the engine passes the state check, reports
generating-data at the first poll, config-error at the read after the only
full word of the six-byte firmware, and config-done alone from the next read
on. -/
def env_error_then_done : load_env :=
  { env_never_gen with
    status := fun n =>
      if n = 0 then CE_STATUS_IN_WAIT_START
      else if n = 1 then CE_STATUS_IN_GEN_DATA
      else if n = 2 then CE_STATUS_CONFIG_ERROR
      else CE_STATUS_CONFIG_DONE }

/-- Whether an access is one of the two writes that reprogram the bridge
windows: a write of the bootstrap window register `iodwbsr` with the
window-enable bit (7) clear, or a write of the second window register
`iowbsr1`. -/
def is_window_write : io_event → Bool
  | .mite_write .iodwbsr v => !v.testBit 7
  | .mite_write .iowbsr1 _ => true
  | _ => false

/-- The window-reprogramming writes of a run, in order. -/
def window_writes (tr : List io_event) : List io_event := tr.filter is_window_write

/-- The accesses of `k` polls of the status register, the first being read
number `n`. -/
def poll_events (env : load_env) : Nat → Nat → List io_event
  | 0, _ => []
  | k + 1, n => .ce_read .status (read_status env n) :: poll_events env k (n + 1)

/-- The accesses of `k` rounds of the streaming loop from image word `i` on,
the first status read being read number `n`: each round writes one image word
to the FIFO and reads the status. -/
def word_events (env : load_env) : Nat → Nat → Nat → List io_event
  | 0, _, _ => []
  | k + 1, i, n =>
    .ce_write .fifo (cpu_to_be32 (load_u32 env (4 * i))) ::
      .ce_read .status (read_status env n) :: word_events env k (i + 1) (n + 1)

/-- The accesses of the tail-pad statement when it runs (`k = 1`) with
`fwdata` at word `i`, and none when it does not (`k = 0`). -/
def tail_events (env : load_env) (i n : Nat) : Nat → List io_event
  | 0 => []
  | _ + 1 =>
    [.ce_write .fifo (cpu_to_be32 (load_u32 env (4 * i) &&&
        u32 ((1 <<< ((env.image.length &&& 3) * 8)) - 1))),
      .ce_read .status (read_status env n)]

/-- The accesses of `k` rounds of the loop of dummy writes, the first status
read being read number `n`: each round writes `0xFFFFFFFF` to the FIFO and
reads the status. -/
def filler_events (env : load_env) : Nat → Nat → List io_event
  | 0, _ => []
  | k + 1, n =>
    .ce_write .fifo 0xFFFFFFFF ::
      .ce_read .status (read_status env n) :: filler_events env k (n + 1)

/-- The shape of a run of the load that returned `r` after the accesses `tr`:
after a prefix that touches neither the FIFO nor (more than once) the status,
the run polls the status `k1` times (at most 100) for generating-data, runs
`k2` rounds (at most `size / 4`) of the streaming loop, the tail-pad statement
`k3` times (at most once) and `k4` rounds (at most 1099) of the loop of dummy
writes, and ends with accesses that touch neither the FIFO nor the status.  No
dummy round but the last is followed by a status showing config-done or
config-error; dummy rounds happen only if no status read since streaming began
showed config-done; and a run whose 100 polls never show generating-data, or
whose 1099 dummy rounds never show config-done or config-error, returns an
error. -/
def bounded_run (env : load_env) (r : Int) (tr : List io_event) : Prop :=
  ∃ pre post k1 k2 k3 k4,
    tr = pre ++ poll_events env k1 1 ++ word_events env k2 0 (1 + k1) ++
      tail_events env k2 (1 + k1 + k2) k3 ++
      filler_events env k4 (1 + k1 + k2 + k3) ++ post ∧
    k1 ≤ 100 ∧ k2 ≤ env.image.length / 4 ∧ k3 ≤ 1 ∧ k4 ≤ 1099 ∧
    fifo_writes pre = [] ∧ (status_reads pre).length ≤ 1 ∧
    fifo_writes post = [] ∧ status_reads post = [] ∧
    (∀ j, j + 1 < k4 →
      read_status env (1 + k1 + k2 + k3 + j) &&& CE_STATUS_STOP_DOWNLOAD = 0) ∧
    (0 < k4 → ∀ j, j < k2 + k3 →
      read_status env (1 + k1 + j) &&& CE_STATUS_CONFIG_DONE = 0) ∧
    ((∀ j, j < 100 → read_status env (1 + j) &&& CE_STATUS_IN_GEN_DATA = 0) → r ≠ 0) ∧
    (k4 = 1099 →
      read_status env (1 + k1 + k2 + k3 + 1098) &&& CE_STATUS_STOP_DOWNLOAD = 0 → r ≠ 0)

/-- The field of a shared-register terminal in the words of the
specification: the control word that holds it, its offset and its width in
bits. -/
def field_spec : desc_ptr → Option (sync_reg × Nat × Nat)
  | .srca_rt_desc => some (.dstaractrl1, 4, 3)
  | .srcb_rt_desc => some (.dstaractrl1, 12, 3)
  | .bank_rt_desc n => some (.dstaractrl1, 16 + 4 * n, 2)
  | .srca_div_sel_rt_desc => some (.dstaractrl2, 20, 1)
  | .srcb_div_sel_rt_desc => some (.dstaractrl2, 21, 1)
  | _ => none

/-- The source code of an input of a shared-register terminal, from the
register header: ClkIn is 7 for SourceA and SourceB; for a bank, floating is
0, SourceA (through its divider select) 2 and SourceB 3; a divider select
lists its source with the value 0 of the use-divider bit. -/
def source_code_spec : desc_ptr → desc_ptr → Option Nat
  | .srca_rt_desc, .clkin_rt_desc => some 7
  | .srcb_rt_desc, .clkin_rt_desc => some 7
  | .srca_div_sel_rt_desc, .srca_rt_desc => some 0
  | .srcb_div_sel_rt_desc, .srcb_rt_desc => some 0
  | .bank_rt_desc _, .rt_floating => some 0
  | .bank_rt_desc _, .srca_div_sel_rt_desc => some 2
  | .bank_rt_desc _, .srcb_div_sel_rt_desc => some 3
  | _, _ => none

/-- Check, for the shared-register terminal of descriptor `d`, that its mask
is the field of the specification, that its `set_input` function works on the
control word of the specification, and that the encoded value of every listed
input is its source code shifted to the field's offset and fits the field. -/
def field_definition_ok (d : desc_ptr) : Bool :=
  match deref_desc d, field_spec d with
  | some desc, some (word, off, width) =>
    decide (desc.dest_data = (2 ^ width - 1) <<< off) &&
    decide (control_word_of d = some word) &&
    (listed_inputs desc).all (fun e =>
      match e.desc.bind (source_code_spec d) with
      | some code => decide (e.data = code <<< off) && decide (code < 2 ^ width)
      | none => false)
  | _, _ => false

/-- The fields of the trigger-control word as masks, in the order DEST,
SRC, SYNC_CLOCK, EDGE_FALLING, ASYNCHRONOUS, INVERTED, ENABLED. -/
def trig_ctrl_fields : List Nat :=
  [TRIG_CTRL_DEST 0xFF, TRIG_CTRL_SRC 0xFF, TRIG_CTRL_SYNC_CLOCK 3, TRIG_CTRL_EDGE_FALLING,
    TRIG_CTRL_ASYNCHRONOUS, TRIG_CTRL_INVERTED, TRIG_CTRL_ENABLED]

/-- Check, for entry `j` of the terminal of descriptor `d` and polarity `p`,
that the destination code and the source code are below 256 and that the word
computed for the terminal carries them in bits 31..24 and 23..16, with the
SYNC_CLOCK and EDGE_FALLING fields and bits 9..0 zero. -/
def trigger_fields_ok (d : desc_ptr) (j : Nat) (p : terminal_polarity) : Bool :=
  match deref_desc d with
  | none => false
  | some desc =>
    match (listed_inputs desc)[j]?, trigctrl_of (terminal_at d j p) with
    | some e, some w =>
      decide (desc.available_inputs[j]? = some e) &&
      decide (desc.dest_data < 256) && decide (e.data < 256) &&
      decide (dest_field w = desc.dest_data) && decide (src_field w = e.data) &&
      decide (w &&& TRIG_CTRL_SYNC_CLOCK 3 = 0) && decide (w &&& TRIG_CTRL_EDGE_FALLING = 0) &&
      decide (w % 2 ^ 10 = 0) && decide (w < 2 ^ 32)
    | _, _ => false

/-- The name of a polarity: the entry of `terminal_polarity_strs` at its
value. -/
def polarity_name (p : terminal_polarity) : String :=
  terminal_polarity_strs.getD p.toIndex ""

/-- Whether the text of a request (its characters before the first NUL)
begins with `name`. -/
def begins_with (buf name : String) : Prop := c_str name <+: c_str buf

/-- The function `release_other_terminals`. -/
def release_other_terminals (dev : ni6674t) : ni6674t :=
  let dev := release_created dev dstara_ptrs
  let dev := release_created dev bank_ptrs
  let dev := release_route_terminal dev .srcb_div_sel_rt_desc
  let dev := release_route_terminal dev .srca_div_sel_rt_desc
  let dev := release_route_terminal dev .srcb_rt_desc
  release_route_terminal dev .srca_rt_desc

/-- The function `ni6674t_remove`, on the part of the device the routing code
uses.  The calls that follow the four release functions (`kset_put`, the two
`iounmap`, `pci_disable_device`, `pci_release_regions`, `pci_set_drvdata`,
`kfree`) access no register of the device. -/
def ni6674t_remove (dev : ni6674t) : ni6674t :=
  release_pxi_trig_terminals
    (release_pfi_terminals (release_pxi_star_terminals (release_other_terminals dev)))

/-- Creation of the terminal of descriptor `d` succeeds: its `kzalloc` returns
memory and its `kobject_init_and_add` returns 0. -/
@[reducible] def creation_succeeds (env : kernel_env) (d : desc_ptr) : Prop :=
  env.kzalloc d = true ∧ env.kobject_init_and_add d = 0

/-- Creation of the terminal of descriptor `d` fails: its `kzalloc` returns
no memory, or its `kobject_init_and_add` returns an error. -/
@[reducible] def creation_fails (env : kernel_env) (d : desc_ptr) : Prop :=
  env.kzalloc d = false ∨ env.kobject_init_and_add d ≠ 0

/-- A part `f` of the bring-up that creates the terminals of the descriptors
`l` unwinds: when every creation succeeds it returns 0 and has released
nothing; when the creation of `d` fails after those of `pre` succeeded it
returns an error and has released the terminals of `pre`, last created
first. -/
def phase_unwinds (env : kernel_env) (f : ni6674t → Option (Int × ni6674t))
    (l : List desc_ptr) : Prop :=
  (∀ dev, (∀ x ∈ l, creation_succeeds env x) →
    ∃ dev1, f dev = some (0, dev1) ∧ dev1.released = dev.released) ∧
  (∀ dev pre d post, l = pre ++ d :: post → (∀ x ∈ pre, creation_succeeds env x) →
    creation_fails env d →
    ∃ err dev1, f dev = some (err, dev1) ∧ err ≠ 0 ∧
      dev1.released = dev.released ++ pre.reverse)

/-- Kernel services that succeed except for the `kzalloc` of the terminal of
PFI1, the tenth terminal bring-up creates. -/
def env_no_memory_for_pfi1 : kernel_env :=
  { kset_create_and_add := true, kzalloc := fun d => decide (d ≠ .pfi_rt_desc 1),
    kobject_init_and_add := fun _ => 0 }

/-- A point of `init_and_add_route_terminal` that code outside the function
can observe: `kobject_init_and_add` has returned 0, so the terminal and its
attribute files are visible, with the terminal and the registers in the state
given; or `set_input_and_update_state` has returned, leaving the state given. -/
inductive bringup_step
  | registered (rt : route_terminal) (sync : ni_sync)
  | input_set (rt : route_terminal) (sync : ni_sync)
  deriving DecidableEq, Repr

/-- The observable points of a call of `init_and_add_route_terminal`, in
program order. -/
def init_and_add_route_terminal_steps (env : kernel_env) (rt : route_terminal)
    (desc : desc_ptr) (sync : ni_sync) : List bringup_step :=
  let rt1 := { rt with rt_desc := some desc }
  if env.kobject_init_and_add desc = 0 then
    .registered rt1 sync ::
      (match set_input_and_update_state rt1 ⟨desc, 0⟩ sync with
        | none => []
        | some (rt2, sync1) => [.input_set rt2 sync1])
  else []

/-- Check, for the terminal of descriptor `d` created with all kernel services
succeeding and the registers zero, that the terminal is registered first, with
no current input, a show of the current input that faults and no register
written, and that its input is set (and for a terminal with a `set_input`
function, written to hardware) only afterwards. -/
def registered_unset (d : desc_ptr) : Bool :=
  match init_and_add_route_terminal_steps env_ok kzalloc_route_terminal d sync_zero with
  | [.registered rt sync, .input_set rt2 sync2] =>
    decide (rt.input = none) && decide (route_terminal_current_input_show rt = none) &&
    decide (sync.iowrites = []) && decide (rt2 = terminal_at d 0 .POLARITY_NORMAL) &&
    decide (init_and_add_route_terminal env_ok kzalloc_route_terminal d sync_zero =
      some (0, rt2, sync2))
  | _ => false

/-! ## Device attach (`ni6674t_probe`) -/

def DAC_CTRL_SERIAL_PORT_BUSY : Nat := 1 <<< 31

/-- What surrounds a run of `ni6674t_probe`: whether the `kzalloc` of the
device object returns memory, the values `pci_request_regions` and
`pci_enable_device` return, whether the `ioremap` of the bridge registers
succeeds, the surroundings of the configuration load, whether the `ioremap` of
the routing register block succeeds, the value the n-th read of `dacctrl`
returns (n from 0), the routing register block as found, and the kernel
services of the terminal bring-up. -/
structure probe_env where
  kzalloc_dev : Bool
  pci_request_regions : Int
  pci_enable_device : Int
  ioremap_mite : Bool
  load : load_env
  ioremap_sync : Bool
  dacctrl : Nat → Nat
  sync : ni_sync
  sysfs : kernel_env

/-- The loop `while ((ioread32(&dev->sync->dacctrl) & DAC_CTRL_SERIAL_PORT_BUSY)
&& --timeout) udelay(10);` entered with `timeout = t + 1` and `n` reads of
`dacctrl` done: the final `timeout` and the reads done. -/
def dac_wait (env : probe_env) : Nat → Nat → Nat × Nat
  | 0, n =>
    if u32 (env.dacctrl n) &&& DAC_CTRL_SERIAL_PORT_BUSY ≠ 0 then (0, n + 1) else (1, n + 1)
  | t + 1, n =>
    if u32 (env.dacctrl n) &&& DAC_CTRL_SERIAL_PORT_BUSY ≠ 0 then dac_wait env t (n + 1)
    else (t + 2, n + 1)

/-- The function `ni6674t_dac_write`, with `n` reads of `dacctrl` done before
it: the value returned, the reads done and the register block. -/
def ni6674t_dac_write (env : probe_env) (n val : Nat) (sync : ni_sync) :
    Int × Nat × ni_sync :=
  match dac_wait env 99 n with
  | (timeout, n1) =>
    if timeout = 0 then (- EIO, n1, sync) else (0, n1, iowrite32 (u32 val) .dacctrl sync)

/-- A run of `ni6674t_dac_write` calls, each followed by
`if (err) return err;`. -/
def dac_write_all (env : probe_env) : List Nat → Nat → ni_sync → Int × Nat × ni_sync
  | [], n, sync => (0, n, sync)
  | val :: vals, n, sync =>
    match ni6674t_dac_write env n val sync with
    | (err, n1, sync1) =>
      if err ≠ 0 then (err, n1, sync1) else dac_write_all env vals n1 sync1

/-- The function `ni6674t_init_dac`. -/
def ni6674t_init_dac (env : probe_env) (sync : ni_sync) : Int × Nat × ni_sync :=
  dac_write_all env
    ([0x800c, 0xa000, 0xc000] ++
      (List.range 6).map (fun pfinum => (pfinum <<< 12) ||| (60 <<< 4))) 0 sync

/-- The calls of the error path of `ni6674t_probe`. -/
inductive probe_cleanup
  | iounmap_sync
  | iounmap_mite
  | pci_disable_device
  | pci_release_regions
  | pci_set_drvdata_null
  | kfree_dev
  deriving DecidableEq, Repr

/-- The function `ni6674t_probe`: the value returned and the calls made on the
error path, in order.  Where the `ioremap` of the routing register block
fails, `err` still holds the 0 that `ni6674t_load_fpga` returned. -/
def ni6674t_probe (env : probe_env) : Option (Int × List probe_cleanup) :=
  if env.kzalloc_dev = false then some (-ENOMEM, [])
  else if env.pci_request_regions ≠ 0 then
    some (env.pci_request_regions, [.pci_set_drvdata_null, .kfree_dev])
  else if env.pci_enable_device ≠ 0 then
    some (env.pci_enable_device, [.pci_release_regions, .pci_set_drvdata_null, .kfree_dev])
  else if env.ioremap_mite = false then
    some (- EIO, [.pci_disable_device, .pci_release_regions, .pci_set_drvdata_null,
      .kfree_dev])
  else
    let err := (ni6674t_load_fpga env.load).1
    if err ≠ 0 then
      some (err, [.iounmap_mite, .pci_disable_device, .pci_release_regions,
        .pci_set_drvdata_null, .kfree_dev])
    else if env.ioremap_sync = false then
      some (err, [.iounmap_mite, .pci_disable_device, .pci_release_regions,
        .pci_set_drvdata_null, .kfree_dev])
    else
      match ni6674t_init_dac env env.sync with
      | (err, _, sync1) =>
        if err ≠ 0 then
          some (err, [.iounmap_sync, .iounmap_mite, .pci_disable_device,
            .pci_release_regions, .pci_set_drvdata_null, .kfree_dev])
        else
          match ni6674t_init_sysfs env.sysfs (fresh_device sync1) with
          | none => none
          | some (err, _) =>
            if err ≠ 0 then
              some (err, [.iounmap_sync, .iounmap_mite, .pci_disable_device,
                .pci_release_regions, .pci_set_drvdata_null, .kfree_dev])
            else some (0, [])

/-- An attach in which every step succeeds. -/
def env_attach_ok : probe_env :=
  { kzalloc_dev := true, pci_request_regions := 0, pci_enable_device := 0,
    ioremap_mite := true, load := env_done_after_tail, ioremap_sync := true,
    dacctrl := fun _ => 0, sync := sync_zero, sysfs := env_ok }

/-- An attach in which every step succeeds up to the `ioremap` of the routing
register block, which returns a null pointer. -/
def env_sync_map_fails : probe_env := { env_attach_ok with ioremap_sync := false }

/-- An attach in which the DAC serial port stays busy. -/
def env_dac_busy : probe_env :=
  { env_attach_ok with dacctrl := fun _ => DAC_CTRL_SERIAL_PORT_BUSY }

/-! ## Static routing tables -/

/-- The destination code the specification gives each dedicated-register
terminal: `n + 1` for PXI_Trig n, `n + 9` for PXI_Star n, `n + 43` for PFI n. -/
def dest_code_spec : desc_ptr → Option Nat
  | .pxi_trig_rt_desc n => some (n + 1)
  | .pxi_star_rt_desc n => some (n + 9)
  | .pfi_rt_desc n => some (n + 43)
  | _ => none

/-- Check of one input entry: an entry that refers to a dedicated-register
terminal carries the `dest_data` of that terminal's descriptor, and an entry
that refers to `rt_floating` carries 0. -/
def input_code_ok (e : route_terminal_input) : Bool :=
  match e.desc with
  | none => false
  | some x =>
    (if x ∈ trigger_terminals then
      match deref_desc x with
      | some xd => decide (e.data = xd.dest_data)
      | none => false
    else true) &&
    (if x = .rt_floating then decide (e.data = 0) else true)

/-- Check of the descriptor at `d`: its `dest_data` is the destination code of
the specification and every listed input entry passes `input_code_ok`. -/
def routing_codes_ok (d : desc_ptr) : Bool :=
  match deref_desc d with
  | some desc =>
    decide (dest_code_spec d = some desc.dest_data) && (listed_inputs desc).all input_code_ok
  | none => false

/-- Check that every entry referring to `rt_floating` in the input list of the
descriptor at `d` carries 0. -/
def floating_code_ok (d : desc_ptr) : Bool :=
  match deref_desc d with
  | some desc =>
    (listed_inputs desc).all
      (fun e => if e.desc = some .rt_floating then decide (e.data = 0) else true)
  | none => false

/-- Check that the descriptors at two different addresses carry different
`dest_data` members. -/
def dest_codes_differ (d1 d2 : desc_ptr) : Bool :=
  match deref_desc d1, deref_desc d2 with
  | some desc1, some desc2 => decide (d1 = d2) || decide (desc1.dest_data ≠ desc2.dest_data)
  | _, _ => false

/-- Whether the terminal of descriptor `d` gets a `line_state` file: the
attribute is in the `default_attrs` of the `kobj_type` it is registered with. -/
def exposes_line_state (d : desc_ptr) : Bool :=
  match bringup_ktype d with
  | some kt => decide (route_terminal_attr.line_state ∈ default_attrs kt)
  | none => false

/-- Check that the descriptors at two different addresses carry different
`line_state_bit` members. -/
def line_state_bits_differ (d1 d2 : desc_ptr) : Bool :=
  match deref_desc d1, deref_desc d2 with
  | some desc1, some desc2 =>
    decide (d1 = d2) || decide (desc1.line_state_bit ≠ desc2.line_state_bit)
  | _, _ => false

/-- Descriptor addresses the listed input entries of the descriptor at `d`
refer to, in declared order. -/
def input_ptrs (d : desc_ptr) : List desc_ptr :=
  match deref_desc d with
  | none => []
  | some desc => (listed_inputs desc).filterMap route_terminal_input.desc

/-- The three pseudo-sources: floating, logic high, logic low. -/
def pseudo_sources : List desc_ptr := [.rt_floating, .rt_logic_high, .rt_logic_low]

/-- The input list the specification gives a PXI_Trig or a PFI terminal:
the 3 pseudo-sources, then for PXI_Trig n the 6 PFI lines and the other
PXI_Trig lines, for PFI n the other PFI lines, the 8 PXI_Trig lines and the
17 PXI_Star lines. -/
def input_list_spec : desc_ptr → Option (List desc_ptr)
  | .pxi_trig_rt_desc n =>
    some (pseudo_sources ++ pfi_ptrs ++
      pxi_trig_ptrs.filter (fun x => decide (x ≠ .pxi_trig_rt_desc n)))
  | .pfi_rt_desc n =>
    some (pseudo_sources ++ pfi_ptrs.filter (fun x => decide (x ≠ .pfi_rt_desc n)) ++
      pxi_trig_ptrs ++ pxi_star_ptrs)
  | _ => none

/-- The number of inputs the specification gives a PXI_Trig or a PFI terminal. -/
def input_count_spec : desc_ptr → Option Nat
  | .pxi_trig_rt_desc _ => some (3 + 6 + 7)
  | .pfi_rt_desc _ => some (3 + 5 + 8 + 17)
  | _ => none

/-- Check of the input list of the descriptor at `d`: it has an entry, no
entry refers to `d` itself or bears the name of `d`, every entry has a name,
the names are pairwise distinct, and the list is the one of the
specification where the specification gives one. -/
def input_list_ok (d : desc_ptr) : Bool :=
  match deref_desc d with
  | none => false
  | some desc =>
    !(listed_inputs desc).isEmpty &&
    (listed_inputs desc).all (fun e => decide (e.desc ≠ some d)) &&
    decide (desc.name ∉ input_names d) &&
    decide ((input_names d).length = (listed_inputs desc).length) &&
    decide (input_names d).Nodup &&
    (match input_list_spec d with
      | some l => decide (input_ptrs d = l)
      | none => true) &&
    (match input_count_spec d with
      | some k => decide ((listed_inputs desc).length = k)
      | none => true)

/-! # Properties -/

/-! ## Selecting an input -/

theorem compared_len_of_ne_zero (buf : String) (b1 b2 : Char) (h : strlen buf ≠ 0) :
    compared_len buf b1 = compared_len buf b2 := by
  have hlt : strlen buf - 1 < (c_str buf).length := by
    unfold strlen at h ⊢; omega
  simp only [compared_len, h, if_false, List.getD_eq_getElem _ _ hlt]

theorem current_input_store_eq (rt : route_terminal) (buf : String) (before : Char)
    (count : Nat) (sync : ni_sync) (base : desc_ptr) (desc : route_terminal_desc)
    (hrt : rt.rt_desc = some base) (hdesc : deref_desc base = some desc) :
    route_terminal_current_input_store rt buf before count sync =
      current_input_store_loop rt base (c_str buf) (compared_len buf before) count sync
        desc.available_inputs 0 := by
  simp only [route_terminal_current_input_store, hrt, hdesc, compared_len]

theorem current_input_store_loop_eq (rt : route_terminal) (base : desc_ptr)
    (buf : List Char) (len count : Nat) (sync : ni_sync) (ins : List route_terminal_input)
    (i : Nat) :
    current_input_store_loop rt base buf len count sync ins i =
      match first_match buf len ins i with
      | none => none
      | some none => some (-EINVAL, rt, sync)
      | some (some j) =>
        match set_input_and_update_state rt ⟨base, j⟩ sync with
        | none => none
        | some (rt1, sync1) => some ((count : Int), rt1, sync1) := by
  induction ins generalizing i with
  | nil => simp [current_input_store_loop, first_match]
  | cons inp ins ih =>
    simp only [current_input_store_loop, first_match]
    cases hd : inp.desc with
    | none => simp
    | some dp =>
      simp only []
      cases hdd : deref_desc dp with
      | none => simp
      | some d =>
        simp only []
        by_cases hcmp : strncmp buf (c_str d.name) len = 0
        · simp [hcmp]
        · simp [hcmp, ih]

theorem set_input_and_update_state_ok (rt : route_terminal) (base : desc_ptr)
    (desc : route_terminal_desc) (j : Nat) (e : route_terminal_input) (sync : ni_sync)
    (hrt : rt.rt_desc = some base) (hdesc : deref_desc base = some desc)
    (he : desc.available_inputs[j]? = some e) :
    ∃ sync1, set_input_and_update_state rt ⟨base, j⟩ sync =
      some ({ rt with input := some ⟨base, j⟩ }, sync1) := by
  have hin : deref_input ⟨base, j⟩ = some e := by
    simp [deref_input, hdesc, he]
  unfold set_input_and_update_state
  simp only [hrt, Option.bind, hdesc]
  cases hs : desc.set_input with
  | none => exact ⟨sync, rfl⟩
  | some f =>
    cases f <;>
      simp [call_set_input, triggerctrl_set_input, triggerctrl_flush_terminal_attrs,
        src_a_b_set_input, src_a_b_div_sel_set_input, bank_set_input, hrt, hdesc, hin]

set_option maxRecDepth 100000 in
theorem selects_name_all : ∀ d ∈ bringup_terminals, ∀ name ∈ input_names d,
    selects_name d name name = true ∧ selects_name d name (name ++ "\n") = true := by
  decide!

theorem selects_name_sound (d : desc_ptr) (name buf : String)
    (h : selects_name d name buf = true) (rt : route_terminal) (hrt : rt.rt_desc = some d)
    (before : Char) (count : Nat) (sync : ni_sync) :
    ∃ rt1 sync1,
      route_terminal_current_input_store rt buf before count sync =
        some ((count : Int), rt1, sync1) ∧
      route_terminal_current_input_show rt1 =
        some ((name.length : Int) + 1, name ++ "\n") := by
  unfold selects_name at h
  cases hdesc : deref_desc d with
  | none => simp [hdesc] at h
  | some desc =>
    simp only [hdesc, Bool.and_eq_true, decide_eq_true_eq] at h
    obtain ⟨hne, h⟩ := h
    cases hfm : first_match (c_str buf) (compared_len buf 'x') desc.available_inputs 0 with
    | none => simp [hfm] at h
    | some r =>
      cases r with
      | none => simp [hfm] at h
      | some j =>
        simp only [hfm] at h
        cases he : desc.available_inputs[j]? with
        | none => simp [he] at h
        | some e =>
          cases hn : input_name e with
          | none => simp [he, hn] at h
          | some shown =>
            simp only [he, Option.bind, hn, decide_eq_true_eq] at h
            obtain ⟨sync1, hs⟩ := set_input_and_update_state_ok rt d desc j e sync hrt hdesc he
            refine ⟨{ rt with input := some ⟨d, j⟩ }, sync1, ?_, ?_⟩
            · rw [current_input_store_eq rt buf before count sync d desc hrt hdesc,
                current_input_store_loop_eq, compared_len_of_ne_zero buf before 'x' hne, hfm]
              simp only [hs]
            · unfold input_name at hn
              cases hd2 : e.desc.bind deref_desc with
              | none => simp [hd2] at hn
              | some srcd =>
                simp only [hd2, Option.map_some', Option.some.injEq] at hn
                have hin : deref_input ⟨d, j⟩ = some e := by
                  simp [deref_input, hdesc, he]
                have : route_terminal_current_input_show
                    { rt with input := some ⟨d, j⟩ } = some (snprintf_line PAGE_SIZE srcd.name) := by
                  unfold route_terminal_current_input_show
                  simp only [Option.bind, hin]
                  simp only [Option.bind] at hd2
                  simp [hd2]
                rw [this, hn, h]

/-- C1: on every terminal created at bring-up, a request that is the name of
a listed input, bare or followed by one newline, is accepted (the call returns
`count`), and the current input then reads back as exactly that name. -/
theorem set_current_input_then_show (d : desc_ptr) (hd : d ∈ bringup_terminals)
    (name : String) (hname : name ∈ input_names d)
    (buf : String) (hbuf : buf = name ∨ buf = name ++ "\n")
    (rt : route_terminal) (hrt : rt.rt_desc = some d)
    (before : Char) (count : Nat) (sync : ni_sync) :
    ∃ rt1 sync1,
      route_terminal_current_input_store rt buf before count sync =
        some ((count : Int), rt1, sync1) ∧
      route_terminal_current_input_show rt1 =
        some ((name.length : Int) + 1, name ++ "\n") := by
  have hall := selects_name_all d hd name hname
  rcases hbuf with h | h
  · subst h
    exact selects_name_sound d buf buf hall.1 rt hrt before count sync
  · subst h
    exact selects_name_sound d name _ hall.2 rt hrt before count sync

theorem set_current_input_then_show_witness :
    (desc_ptr.pfi_rt_desc 0 ∈ bringup_terminals ∧
      "PXI_Star1" ∈ input_names (.pfi_rt_desc 0)) ∧
    ∃ rt1 sync1,
      route_terminal_current_input_store
          { rt_desc := some (.pfi_rt_desc 0), input := none, polarity := .POLARITY_NORMAL }
          "PXI_Star1\n" 'x' 10 sync_zero = some (((10 : Nat) : Int), rt1, sync1) ∧
      route_terminal_current_input_show rt1 =
        some (("PXI_Star1".length : Int) + 1, "PXI_Star1" ++ "\n") :=
  ⟨⟨by decide, by decide⟩,
    set_current_input_then_show (.pfi_rt_desc 0) (by decide) "PXI_Star1" (by decide)
      "PXI_Star1\n" (Or.inr rfl) _ rfl 'x' 10 sync_zero⟩

/-- C2: evaluation of `route_terminal_current_input_store` on requests that are
not the name of any listed input.  On PXI_Trig0 the request "PFI" (a proper
beginning of "PFI0") is accepted and selects PFI0, and the empty request (with a
byte other than a newline in front of the buffer) is accepted and selects the
first input, "floating"; in both cases the trigger-control register is written. -/
theorem current_input_store_accepts_partial_name :
    "PFI" ∉ input_names (.pxi_trig_rt_desc 0) ∧ "" ∉ input_names (.pxi_trig_rt_desc 0) ∧
    route_terminal_current_input_store
        (terminal_at (.pxi_trig_rt_desc 0) 1 .POLARITY_NORMAL) "PFI" 'x' 3 sync_zero =
      some (3, terminal_at (.pxi_trig_rt_desc 0) 3 .POLARITY_NORMAL,
        iowrite32 0x012B1400 .triggerctrl sync_zero) ∧
    route_terminal_current_input_show (terminal_at (.pxi_trig_rt_desc 0) 3 .POLARITY_NORMAL) =
      some (5, "PFI0\n") ∧
    route_terminal_current_input_store
        (terminal_at (.pxi_trig_rt_desc 0) 1 .POLARITY_NORMAL) "" 'x' 1 sync_zero =
      some (1, terminal_at (.pxi_trig_rt_desc 0) 0 .POLARITY_NORMAL,
        iowrite32 0x01001000 .triggerctrl sync_zero) ∧
    route_terminal_current_input_show (terminal_at (.pxi_trig_rt_desc 0) 0 .POLARITY_NORMAL) =
      some (9, "floating\n") := by
  refine ⟨by decide!, by decide!, by decide!, by decide!, by decide!, by decide!⟩

/-- C3: a call of `route_terminal_current_input_store` that returns `-EINVAL`
leaves the terminal (current input, polarity) and the register block (every
register and the trace of writes) as they were. -/
theorem current_input_store_einval_no_effect (rt : route_terminal) (buf : String)
    (before : Char) (count : Nat) (sync : ni_sync) (r : Int) (rt1 : route_terminal)
    (sync1 : ni_sync)
    (h : route_terminal_current_input_store rt buf before count sync = some (r, rt1, sync1))
    (hr : r = -EINVAL) : rt1 = rt ∧ sync1 = sync := by
  cases hrt : rt.rt_desc with
  | none => simp [route_terminal_current_input_store, hrt] at h
  | some base =>
    cases hdesc : deref_desc base with
    | none => simp [route_terminal_current_input_store, hrt, hdesc] at h
    | some desc =>
      rw [current_input_store_eq rt buf before count sync base desc hrt hdesc,
        current_input_store_loop_eq] at h
      cases hfm : first_match (c_str buf) (compared_len buf before) desc.available_inputs 0 with
      | none => simp [hfm] at h
      | some m =>
        cases m with
        | none =>
          simp only [hfm, Option.some.injEq, Prod.mk.injEq] at h
          exact ⟨h.2.1.symm, h.2.2.symm⟩
        | some j =>
          simp only [hfm] at h
          cases hs : set_input_and_update_state rt ⟨base, j⟩ sync with
          | none => simp [hs] at h
          | some p =>
            simp only [hs, Option.some.injEq, Prod.mk.injEq] at h
            have h1 : (count : Int) = -EINVAL := by rw [h.1, hr]
            simp only [EINVAL] at h1
            omega

theorem current_input_store_einval_no_effect_witness :
    route_terminal_current_input_store (terminal_at (.pfi_rt_desc 0) 2 .POLARITY_INVERTED)
        "not-a-real-input" 'x' 16 sync_zero =
      some (-EINVAL, terminal_at (.pfi_rt_desc 0) 2 .POLARITY_INVERTED, sync_zero) ∧
    (terminal_at (.pfi_rt_desc 0) 2 .POLARITY_INVERTED =
        terminal_at (.pfi_rt_desc 0) 2 .POLARITY_INVERTED ∧
      sync_zero = sync_zero) :=
  ⟨by decide!,
    current_input_store_einval_no_effect _ "not-a-real-input" 'x' 16 sync_zero (-EINVAL) _ _
      (by decide!) rfl⟩

/-! ## Bring-up -/

theorem set_input_and_update_state_rt (rt : route_terminal) (p : input_ptr) (sync : ni_sync)
    (rt1 : route_terminal) (sync1 : ni_sync)
    (h : set_input_and_update_state rt p sync = some (rt1, sync1)) :
    rt1 = { rt with input := some p } := by
  unfold set_input_and_update_state at h
  cases hd : rt.rt_desc.bind deref_desc with
  | none => simp [hd] at h
  | some desc =>
    simp only [hd] at h
    cases hs : desc.set_input with
    | none =>
      simp only [hs, Option.some.injEq, Prod.mk.injEq] at h
      exact h.1.symm
    | some f =>
      simp only [hs] at h
      cases hc : call_set_input f { rt with input := some p } p sync with
      | none => simp [hc] at h
      | some s =>
        simp only [hc, Option.some.injEq, Prod.mk.injEq] at h
        exact h.1.symm

theorem init_and_add_route_terminal_ok (env : kernel_env) (d : desc_ptr) (sync : ni_sync)
    (rt : route_terminal) (sync1 : ni_sync)
    (h : init_and_add_route_terminal env kzalloc_route_terminal d sync = some (0, rt, sync1)) :
    rt = terminal_at d 0 .POLARITY_NORMAL := by
  unfold init_and_add_route_terminal at h
  by_cases he : env.kobject_init_and_add d = 0
  · simp only [he, if_true] at h
    cases hs : set_input_and_update_state
        { kzalloc_route_terminal with rt_desc := some d } ⟨d, 0⟩ sync with
    | none => simp [hs] at h
    | some p =>
      obtain ⟨rt2, s2⟩ := p
      simp only [hs, Option.some.injEq, Prod.mk.injEq, true_and] at h
      have := set_input_and_update_state_rt _ _ _ _ _ hs
      rw [← h.1, this]
      rfl
  · simp only [he, if_false, Option.some.injEq, Prod.mk.injEq] at h
    exact h.1.elim

theorem init_route_terminals_loop_ok (env : kernel_env) (rtt created : List desc_ptr)
    (dev dev1 : ni6674t)
    (h : init_route_terminals_loop env rtt created dev = some (0, dev1)) :
    dev1.terminals = dev.terminals ++ rtt.map (fun d => terminal_at d 0 .POLARITY_NORMAL) ∧
      dev1.released = dev.released := by
  induction rtt generalizing created dev with
  | nil =>
    simp only [init_route_terminals_loop, Option.some.injEq, Prod.mk.injEq, true_and] at h
    subst h
    simp
  | cons d rtt ih =>
    simp only [init_route_terminals_loop] at h
    by_cases hk : env.kzalloc d = true
    · simp only [hk, if_true] at h
      cases hi : init_and_add_route_terminal env kzalloc_route_terminal d dev.sync with
      | none => simp [hi] at h
      | some p =>
        obtain ⟨err, rt, s1⟩ := p
        simp only [hi] at h
        by_cases herr : err = 0
        · subst herr
          simp only [if_true] at h
          have hrt := init_and_add_route_terminal_ok env d dev.sync rt s1 hi
          obtain ⟨h1, h2⟩ := ih _ _ h
          simp only [h1, h2, hrt, List.map_cons, List.append_assoc, List.singleton_append,
            and_self]
        · simp only [herr, if_false, Option.some.injEq, Prod.mk.injEq] at h
          exact h.1.elim
    · simp only [hk, Bool.false_eq_true, if_false, Option.some.injEq, Prod.mk.injEq, ENOMEM] at h
      omega

theorem init_basic_terminal_ok (env : kernel_env) (d : desc_ptr) (dev dev1 : ni6674t)
    (h : init_basic_terminal env dev d = some (0, dev1)) :
    dev1.terminals = dev.terminals ++ [terminal_at d 0 .POLARITY_NORMAL] ∧
      dev1.released = dev.released := by
  unfold init_basic_terminal at h
  by_cases hk : env.kzalloc d = true
  · simp only [hk, if_true] at h
    cases hi : init_and_add_route_terminal env kzalloc_route_terminal d dev.sync with
    | none => simp [hi] at h
    | some p =>
      obtain ⟨err, rt, s1⟩ := p
      simp only [hi] at h
      by_cases herr : err = 0
      · subst herr
        simp only [if_true, Option.some.injEq, Prod.mk.injEq, true_and] at h
        have hrt := init_and_add_route_terminal_ok env d dev.sync rt s1 hi
        subst h
        simp [hrt]
      · simp only [herr, if_false, Option.some.injEq, Prod.mk.injEq] at h
        exact h.1.elim
  · simp only [hk, Bool.false_eq_true, if_false, Option.some.injEq, Prod.mk.injEq, ENOMEM] at h
    omega

theorem init_basic_terminals_loop_ok (env : kernel_env) (ds created created1 : List desc_ptr)
    (dev dev1 : ni6674t)
    (h : init_basic_terminals_loop env ds created dev = some (0, dev1, created1)) :
    dev1.terminals = dev.terminals ++ ds.map (fun d => terminal_at d 0 .POLARITY_NORMAL) ∧
      dev1.released = dev.released := by
  induction ds generalizing created dev with
  | nil =>
    simp only [init_basic_terminals_loop, Option.some.injEq, Prod.mk.injEq, true_and] at h
    rw [← h.1]
    simp
  | cons d ds ih =>
    simp only [init_basic_terminals_loop] at h
    cases hi : init_basic_terminal env dev d with
    | none => simp [hi] at h
    | some p =>
      obtain ⟨err, dev2⟩ := p
      simp only [hi] at h
      by_cases herr : err = 0
      · subst herr
        simp only [if_true] at h
        obtain ⟨h1, h2⟩ := init_basic_terminal_ok env d dev dev2 hi
        obtain ⟨h3, h4⟩ := ih _ _ h
        simp only [h3, h4, h1, h2, List.map_cons, List.append_assoc, List.singleton_append,
          and_self]
      · simp only [herr, if_false, Option.some.injEq, Prod.mk.injEq] at h
        exact h.1.elim

theorem init_other_terminals_ok (env : kernel_env) (dev dev1 : ni6674t)
    (h : init_other_terminals env dev = some (0, dev1)) :
    dev1.terminals = dev.terminals ++
        ([desc_ptr.srca_rt_desc, .srcb_rt_desc, .srca_div_sel_rt_desc,
          .srcb_div_sel_rt_desc] ++ bank_ptrs ++ dstara_ptrs).map
          (fun d => terminal_at d 0 .POLARITY_NORMAL) ∧
      dev1.released = dev.released := by
  unfold init_other_terminals at h
  cases h1 : init_basic_terminal env dev .srca_rt_desc with
  | none => simp [h1] at h
  | some p1 =>
  obtain ⟨e1, d1⟩ := p1
  simp only [h1] at h
  by_cases he1 : e1 = 0
  swap
  · simp only [ne_eq, he1, not_false_eq_true, if_true, Option.some.injEq, Prod.mk.injEq] at h
    exact h.1.elim
  subst he1
  simp only [ne_eq, not_true_eq_false, if_false] at h
  cases h2 : init_basic_terminal env d1 .srcb_rt_desc with
  | none => simp [h2] at h
  | some p2 =>
  obtain ⟨e2, d2⟩ := p2
  simp only [h2] at h
  by_cases he2 : e2 = 0
  swap
  · simp only [he2, not_false_eq_true, if_true, Option.some.injEq, Prod.mk.injEq] at h
    exact h.1.elim
  subst he2
  simp only [not_true_eq_false, if_false] at h
  cases h3 : init_basic_terminal env d2 .srca_div_sel_rt_desc with
  | none => simp [h3] at h
  | some p3 =>
  obtain ⟨e3, d3⟩ := p3
  simp only [h3] at h
  by_cases he3 : e3 = 0
  swap
  · simp only [he3, not_false_eq_true, if_true, Option.some.injEq, Prod.mk.injEq] at h
    exact h.1.elim
  subst he3
  simp only [not_true_eq_false, if_false] at h
  cases h4 : init_basic_terminal env d3 .srcb_div_sel_rt_desc with
  | none => simp [h4] at h
  | some p4 =>
  obtain ⟨e4, d4⟩ := p4
  simp only [h4] at h
  by_cases he4 : e4 = 0
  swap
  · simp only [he4, not_false_eq_true, if_true, Option.some.injEq, Prod.mk.injEq] at h
    exact h.1.elim
  subst he4
  simp only [not_true_eq_false, if_false] at h
  cases h5 : init_basic_terminals_loop env bank_ptrs [] d4 with
  | none => simp [h5] at h
  | some p5 =>
  obtain ⟨e5, d5, c5⟩ := p5
  simp only [h5] at h
  by_cases he5 : e5 = 0
  swap
  · simp only [he5, not_false_eq_true, if_true, Option.some.injEq, Prod.mk.injEq] at h
    exact h.1.elim
  subst he5
  simp only [not_true_eq_false, if_false] at h
  cases h6 : init_basic_terminals_loop env dstara_ptrs [] d5 with
  | none => simp [h6] at h
  | some p6 =>
  obtain ⟨e6, d6, c6⟩ := p6
  simp only [h6] at h
  by_cases he6 : e6 = 0
  swap
  · simp only [he6, not_false_eq_true, if_true, Option.some.injEq, Prod.mk.injEq] at h
    exact h.1.elim
  subst he6
  simp only [not_true_eq_false, if_false, Option.some.injEq, Prod.mk.injEq, true_and] at h
  obtain ⟨a1, b1⟩ := init_basic_terminal_ok env _ _ _ h1
  obtain ⟨a2, b2⟩ := init_basic_terminal_ok env _ _ _ h2
  obtain ⟨a3, b3⟩ := init_basic_terminal_ok env _ _ _ h3
  obtain ⟨a4, b4⟩ := init_basic_terminal_ok env _ _ _ h4
  obtain ⟨a5, b5⟩ := init_basic_terminals_loop_ok env _ _ _ _ _ h5
  obtain ⟨a6, b6⟩ := init_basic_terminals_loop_ok env _ _ _ _ _ h6
  subst h
  simp only [enable_clkin, a6, a5, a4, a3, a2, a1, b6, b5, b4, b3, b2, b1, List.map_append,
    List.map_cons, List.map_nil, List.append_assoc, List.singleton_append, List.cons_append,
    List.nil_append, and_self]

theorem ni6674t_init_sysfs_ok (env : kernel_env) (dev dev1 : ni6674t)
    (h : ni6674t_init_sysfs env dev = some (0, dev1)) :
    dev1.terminals = dev.terminals ++
        bringup_terminals.map (fun d => terminal_at d 0 .POLARITY_NORMAL) ∧
      dev1.released = dev.released := by
  unfold ni6674t_init_sysfs at h
  by_cases hk : env.kset_create_and_add = true
  swap
  · simp only [hk, Bool.false_eq_true, if_false, Option.some.injEq, Prod.mk.injEq, ENOMEM] at h
    omega
  simp only [hk, if_true] at h
  cases h1 : init_pxi_trig_terminals env dev with
  | none => simp [h1] at h
  | some p1 =>
  obtain ⟨e1, d1⟩ := p1
  simp only [h1] at h
  by_cases he1 : e1 = 0
  swap
  · simp only [ne_eq, he1, not_false_eq_true, if_true, Option.some.injEq, Prod.mk.injEq] at h
    exact h.1.elim
  subst he1
  simp only [ne_eq, not_true_eq_false, if_false] at h
  cases h2 : init_pfi_terminals env d1 with
  | none => simp [h2] at h
  | some p2 =>
  obtain ⟨e2, d2⟩ := p2
  simp only [h2] at h
  by_cases he2 : e2 = 0
  swap
  · simp only [he2, not_false_eq_true, if_true, Option.some.injEq, Prod.mk.injEq] at h
    exact h.1.elim
  subst he2
  simp only [not_true_eq_false, if_false] at h
  cases h3 : init_pxi_star_terminals env d2 with
  | none => simp [h3] at h
  | some p3 =>
  obtain ⟨e3, d3⟩ := p3
  simp only [h3] at h
  by_cases he3 : e3 = 0
  swap
  · simp only [he3, not_false_eq_true, if_true, Option.some.injEq, Prod.mk.injEq] at h
    exact h.1.elim
  subst he3
  simp only [not_true_eq_false, if_false] at h
  cases h4 : init_other_terminals env d3 with
  | none => simp [h4] at h
  | some p4 =>
  obtain ⟨e4, d4⟩ := p4
  simp only [h4] at h
  by_cases he4 : e4 = 0
  swap
  · simp only [he4, not_false_eq_true, if_true, Option.some.injEq, Prod.mk.injEq] at h
    exact h.1.elim
  subst he4
  simp only [not_true_eq_false, if_false, Option.some.injEq, Prod.mk.injEq, true_and] at h
  obtain ⟨a1, b1⟩ := init_route_terminals_loop_ok env _ _ _ _ h1
  obtain ⟨a2, b2⟩ := init_route_terminals_loop_ok env _ _ _ _ h2
  obtain ⟨a3, b3⟩ := init_route_terminals_loop_ok env _ _ _ _ h3
  obtain ⟨a4, b4⟩ := init_other_terminals_ok env _ _ h4
  subst h
  simp only [bringup_terminals, a4, a3, a2, a1, b4, b3, b2, b1, List.map_append,
    List.append_assoc, and_self]

set_option maxRecDepth 100000 in
theorem shows_first_input_all : ∀ d ∈ bringup_terminals, shows_first_input d = true := by
  decide!

theorem shows_first_input_sound (d : desc_ptr) (h : shows_first_input d = true) :
    ∃ desc first name, deref_desc d = some desc ∧
      desc.available_inputs.head? = some first ∧ first ∈ listed_inputs desc ∧
      input_name first = some name ∧
      route_terminal_current_input_show (terminal_at d 0 .POLARITY_NORMAL) =
        some ((name.length : Int) + 1, name ++ "\n") := by
  unfold shows_first_input at h
  cases hdesc : deref_desc d with
  | none => simp [hdesc] at h
  | some desc =>
    simp only [hdesc] at h
    cases hf : desc.available_inputs.head? with
    | none => simp [hf] at h
    | some first =>
      simp only [hf, Bool.and_eq_true] at h
      obtain ⟨hsome, h⟩ := h
      cases hn : input_name first with
      | none => simp [hn] at h
      | some name =>
        simp only [hn, decide_eq_true_eq] at h
        refine ⟨desc, first, name, rfl, hf, ?_, hn, h⟩
        cases hl : desc.available_inputs with
        | nil => simp [hl] at hf
        | cons a as =>
          simp only [hl, List.head?_cons, Option.some.injEq] at hf
          subst hf
          simp [listed_inputs, hl, List.takeWhile_cons, hsome]

/-- C4: after a successful `ni6674t_init_sysfs` the device has the 56 terminals
PXI_Trig0-7, PFI0-5, PXI_Star0-16, SourceA, SourceB, the two divider selects,
Bank0-3 and PXIe_DStarA0-16; each is the terminal `init_and_add_route_terminal`
constructs for its descriptor, and its current input is shown as the name of
the first entry of the descriptor's input list. -/
theorem current_input_after_construction (env : kernel_env) (sync : ni_sync) (dev1 : ni6674t)
    (h : ni6674t_init_sysfs env (fresh_device sync) = some (0, dev1)) :
    dev1.terminals.map route_terminal.rt_desc = bringup_terminals.map some ∧
    bringup_terminals.length = 56 ∧
    ∀ rt ∈ dev1.terminals, ∃ d desc first name,
      d ∈ bringup_terminals ∧ rt.rt_desc = some d ∧ deref_desc d = some desc ∧
      desc.available_inputs.head? = some first ∧ first ∈ listed_inputs desc ∧
      input_name first = some name ∧
      route_terminal_current_input_show rt = some ((name.length : Int) + 1, name ++ "\n") ∧
      ∀ (sync2 sync3 : ni_sync) (rt2 : route_terminal),
        init_and_add_route_terminal env kzalloc_route_terminal d sync2 = some (0, rt2, sync3) →
        rt2 = rt := by
  obtain ⟨hterm, _⟩ := ni6674t_init_sysfs_ok env _ _ h
  simp only [fresh_device, List.nil_append] at hterm
  refine ⟨?_, by decide, ?_⟩
  · rw [hterm, List.map_map]
    rfl
  · intro rt hrt
    rw [hterm, List.mem_map] at hrt
    obtain ⟨d, hd, rfl⟩ := hrt
    obtain ⟨desc, first, name, h1, h2, h3, h4, h5⟩ :=
      shows_first_input_sound d (shows_first_input_all d hd)
    refine ⟨d, desc, first, name, hd, rfl, h1, h2, h3, h4, h5, ?_⟩
    intro sync2 sync3 rt2 hinit
    exact init_and_add_route_terminal_ok env d sync2 rt2 sync3 hinit

theorem current_input_after_construction_witness :
    ni6674t_init_sysfs env_ok (fresh_device sync_zero) = some (0, device_after_bringup) ∧
    device_after_bringup.terminals.map route_terminal.rt_desc = bringup_terminals.map some ∧
    bringup_terminals.length = 56 ∧
    ∀ rt ∈ device_after_bringup.terminals, ∃ d desc first name,
      d ∈ bringup_terminals ∧ rt.rt_desc = some d ∧ deref_desc d = some desc ∧
      desc.available_inputs.head? = some first ∧ first ∈ listed_inputs desc ∧
      input_name first = some name ∧
      route_terminal_current_input_show rt = some ((name.length : Int) + 1, name ++ "\n") ∧
      ∀ (sync2 sync3 : ni_sync) (rt2 : route_terminal),
        init_and_add_route_terminal env_ok kzalloc_route_terminal d sync2 =
          some (0, rt2, sync3) →
        rt2 = rt :=
  ⟨by decide!, current_input_after_construction env_ok sync_zero device_after_bringup
    (by decide!)⟩

/-! ## The current input stays in the terminal's own list -/

theorem first_match_bound (buf : List Char) (len : Nat) (ins : List route_terminal_input)
    (i j : Nat) (h : first_match buf len ins i = some (some j)) :
    i ≤ j ∧ j - i < (ins.takeWhile (fun e => e.desc.isSome)).length := by
  induction ins generalizing i with
  | nil => simp [first_match] at h
  | cons inp ins ih =>
    simp only [first_match] at h
    cases hd : inp.desc with
    | none => simp [hd] at h
    | some dp =>
      simp only [hd] at h
      cases hdd : deref_desc dp with
      | none => simp [hdd] at h
      | some d =>
        simp only [hdd] at h
        have hsome : inp.desc.isSome = true := by simp [hd]
        simp only [List.takeWhile_cons, hsome, if_true, List.length_cons]
        by_cases hcmp : strncmp buf (c_str d.name) len = 0
        · simp only [hcmp, if_true, Option.some.injEq] at h
          omega
        · simp only [hcmp, if_false] at h
          have := ih (i + 1) h
          omega

theorem first_match_terminated (buf : List Char) (len : Nat) (ins : List route_terminal_input)
    (i : Nat) (h : terminated ins = true) : first_match buf len ins i ≠ none := by
  induction ins generalizing i with
  | nil => simp [terminated] at h
  | cons inp ins ih =>
    simp only [terminated] at h
    simp only [first_match]
    cases hd : inp.desc with
    | none => simp
    | some dp =>
      simp only [hd, Bool.and_eq_true] at h
      cases hdd : deref_desc dp with
      | none => simp [hdd] at h
      | some d =>
        simp only [hdd]
        by_cases hcmp : strncmp buf (c_str d.name) len = 0
        · simp [hcmp]
        · simp only [hcmp, if_false]
          exact ih (i + 1) h.2

theorem well_terminated_all : ∀ d ∈ bringup_terminals, well_terminated d = true := by
  decide!

theorem listed_inputs_length_le (desc : route_terminal_desc) :
    (listed_inputs desc).length ≤ desc.available_inputs.length := by
  unfold listed_inputs
  exact (List.takeWhile_sublist _).length_le

theorem input_listed_iff (rt : route_terminal) :
    input_listed rt = true ↔
      ∃ d j desc, rt.rt_desc = some d ∧ rt.input = some ⟨d, j⟩ ∧ deref_desc d = some desc ∧
        j < (listed_inputs desc).length := by
  unfold input_listed
  constructor
  · intro h
    cases hd : rt.rt_desc with
    | none => simp [hd] at h
    | some d =>
      cases hi : rt.input with
      | none => simp [hd, hi] at h
      | some p =>
        simp only [hd, hi, Bool.and_eq_true, decide_eq_true_eq] at h
        obtain ⟨hb, h⟩ := h
        cases hdesc : deref_desc d with
        | none => simp [hdesc] at h
        | some desc =>
          simp only [hdesc, decide_eq_true_eq] at h
          obtain ⟨b, j⟩ := p
          simp only at hb h
          subst hb
          exact ⟨b, j, desc, rfl, rfl, hdesc, h⟩
  · rintro ⟨d, j, desc, h1, h2, h3, h4⟩
    simp [h1, h2, h3, h4]

theorem triggerctrl_flush_some (rt : route_terminal) (sync : ni_sync) (d : desc_ptr)
    (desc : route_terminal_desc) (p : input_ptr) (e : route_terminal_input)
    (hrt : rt.rt_desc = some d) (hdesc : deref_desc d = some desc)
    (hin : rt.input = some p) (he : deref_input p = some e) :
    ∃ w, triggerctrl_flush_terminal_attrs rt sync = some (iowrite32 w .triggerctrl sync) := by
  unfold triggerctrl_flush_terminal_attrs
  simp only [hrt, hin, Option.bind, hdesc, he]
  exact ⟨_, rfl⟩

theorem polarity_store_loop_frame (rt : route_terminal) (buf : List Char) (count : Nat)
    (sync : ni_sync) (names : List String) (i : Nat) (r : Int) (rt1 : route_terminal)
    (sync1 : ni_sync)
    (h : polarity_store_loop rt buf count sync names i = some (r, rt1, sync1)) :
    rt1.rt_desc = rt.rt_desc ∧ rt1.input = rt.input := by
  induction names generalizing i with
  | nil =>
    simp only [polarity_store_loop, Option.some.injEq, Prod.mk.injEq] at h
    rw [← h.2.1]
    exact ⟨rfl, rfl⟩
  | cons name names ih =>
    simp only [polarity_store_loop] at h
    by_cases hcmp : strncmp (c_str name) buf (strlen name) = 0
    · simp only [hcmp, if_true] at h
      cases hf : triggerctrl_flush_terminal_attrs
          { rt with polarity := terminal_polarity.ofIndex i } sync with
      | none => simp [hf] at h
      | some s =>
        simp only [hf, Option.some.injEq, Prod.mk.injEq] at h
        rw [← h.2.1]
        exact ⟨rfl, rfl⟩
    · simp only [hcmp, if_false] at h
      exact ih (i + 1) h

theorem polarity_store_loop_some (rt : route_terminal) (buf : List Char) (count : Nat)
    (sync : ni_sync) (names : List String) (i : Nat) (d : desc_ptr)
    (desc : route_terminal_desc) (p : input_ptr) (e : route_terminal_input)
    (hrt : rt.rt_desc = some d) (hdesc : deref_desc d = some desc)
    (hin : rt.input = some p) (he : deref_input p = some e) :
    polarity_store_loop rt buf count sync names i ≠ none := by
  induction names generalizing i with
  | nil => simp [polarity_store_loop]
  | cons name names ih =>
    simp only [polarity_store_loop]
    by_cases hcmp : strncmp (c_str name) buf (strlen name) = 0
    · simp only [hcmp, if_true]
      obtain ⟨w, hw⟩ := triggerctrl_flush_some
        { rt with polarity := terminal_polarity.ofIndex i } sync d desc p e hrt hdesc hin he
      simp [hw]
    · simp only [hcmp, if_false]
      exact ih (i + 1)

theorem route_terminal_store_keeps_listed (rt : route_terminal) (attr : route_terminal_attr)
    (buf : String) (before : Char) (count : Nat) (sync : ni_sync) (r : Int)
    (rt1 : route_terminal) (sync1 : ni_sync) (hl : input_listed rt = true)
    (h : route_terminal_store rt attr buf before count sync = some (r, rt1, sync1)) :
    input_listed rt1 = true ∧ rt1.rt_desc = rt.rt_desc := by
  obtain ⟨d, j0, desc, hrt, hin, hdesc, hj0⟩ := (input_listed_iff rt).1 hl
  cases attr with
  | current_input =>
    simp only [route_terminal_store] at h
    rw [current_input_store_eq rt buf before count sync d desc hrt hdesc,
      current_input_store_loop_eq] at h
    cases hfm : first_match (c_str buf) (compared_len buf before) desc.available_inputs 0 with
    | none => simp [hfm] at h
    | some m =>
      cases m with
      | none =>
        simp only [hfm, Option.some.injEq, Prod.mk.injEq] at h
        rw [← h.2.1]
        exact ⟨hl, rfl⟩
      | some j =>
        simp only [hfm] at h
        cases hs : set_input_and_update_state rt ⟨d, j⟩ sync with
        | none => simp [hs] at h
        | some p =>
          obtain ⟨rt2, s2⟩ := p
          simp only [hs, Option.some.injEq, Prod.mk.injEq] at h
          have hrt2 := set_input_and_update_state_rt rt _ sync rt2 s2 hs
          have hb := first_match_bound _ _ _ _ _ hfm
          rw [← h.2.1, hrt2]
          refine ⟨(input_listed_iff _).2 ⟨d, j, desc, hrt, rfl, hdesc, ?_⟩, rfl⟩
          unfold listed_inputs
          omega
  | polarity =>
    simp only [route_terminal_store, route_terminal_polarity_store] at h
    obtain ⟨h1, h2⟩ := polarity_store_loop_frame _ _ _ _ _ _ _ _ _ h
    exact ⟨(input_listed_iff _).2 ⟨d, j0, desc, h1.trans hrt, h2.trans hin, hdesc, hj0⟩, h1⟩
  | available_inputs =>
    simp only [route_terminal_store, Option.some.injEq, Prod.mk.injEq] at h
    rw [← h.2.1]
    exact ⟨hl, rfl⟩
  | line_state =>
    simp only [route_terminal_store, Option.some.injEq, Prod.mk.injEq] at h
    rw [← h.2.1]
    exact ⟨hl, rfl⟩

theorem route_terminal_store_returns (rt : route_terminal) (attr : route_terminal_attr)
    (buf : String) (before : Char) (count : Nat) (sync : ni_sync) (d : desc_ptr)
    (hl : input_listed rt = true) (hrt : rt.rt_desc = some d)
    (hd : well_terminated d = true) :
    ∃ r rt1 sync1, route_terminal_store rt attr buf before count sync = some (r, rt1, sync1) := by
  obtain ⟨d1, j0, desc, hrt1, hin, hdesc, hj0⟩ := (input_listed_iff rt).1 hl
  have hdd : d1 = d := by
    rw [hrt] at hrt1
    exact (Option.some.inj hrt1).symm
  subst hdd
  have hterm : terminated desc.available_inputs = true := by
    simpa [well_terminated, hdesc] using hd
  have hlen := listed_inputs_length_le desc
  cases attr with
  | current_input =>
    simp only [route_terminal_store]
    rw [current_input_store_eq rt buf before count sync d1 desc hrt hdesc,
      current_input_store_loop_eq]
    cases hfm : first_match (c_str buf) (compared_len buf before) desc.available_inputs 0 with
    | none => exact absurd hfm (first_match_terminated _ _ _ _ hterm)
    | some m =>
      cases m with
      | none => exact ⟨_, _, _, rfl⟩
      | some j =>
        have hb := first_match_bound _ _ _ _ _ hfm
        have hj : j < desc.available_inputs.length := by
          unfold listed_inputs at hlen
          omega
        obtain ⟨s1, hs⟩ := set_input_and_update_state_ok rt d1 desc j _ sync hrt hdesc
          (List.getElem?_eq_getElem hj)
        simp only [hs]
        exact ⟨_, _, _, rfl⟩
  | polarity =>
    simp only [route_terminal_store, route_terminal_polarity_store]
    have hj : j0 < desc.available_inputs.length := by omega
    have he : deref_input ⟨d1, j0⟩ = some (desc.available_inputs[j0]) := by
      simp [deref_input, hdesc, List.getElem?_eq_getElem hj]
    have hne := polarity_store_loop_some rt (c_str buf) count sync terminal_polarity_strs 0
      d1 desc _ _ hrt hdesc hin he
    cases hp : polarity_store_loop rt (c_str buf) count sync terminal_polarity_strs 0 with
    | none => exact absurd hp hne
    | some p =>
      obtain ⟨r, rt1, s1⟩ := p
      exact ⟨r, rt1, s1, rfl⟩
  | available_inputs => exact ⟨_, _, _, rfl⟩
  | line_state => exact ⟨_, _, _, rfl⟩

theorem input_listed_terminal_at_zero : ∀ d ∈ bringup_terminals,
    input_listed (terminal_at d 0 .POLARITY_NORMAL) = true := by
  decide!

/-- C5: in every device state reached from a successful bring-up by store
calls (current input or polarity, any request text, any terminal of the
device) the current input of each terminal is an entry of that terminal's own
input array in front of the terminating entry; each terminal keeps a
bring-up descriptor, and every further store call returns. -/
theorem current_input_always_listed (env : kernel_env) (sync0 : ni_sync) (dev : ni6674t)
    (h : reachable env sync0 dev) :
    ∀ rt ∈ dev.terminals,
      input_listed rt = true ∧ (∃ d ∈ bringup_terminals, rt.rt_desc = some d) ∧
      ∀ (attr : route_terminal_attr) (buf : String) (before : Char) (count : Nat),
        ∃ r rt1 sync1,
          route_terminal_store rt attr buf before count dev.sync = some (r, rt1, sync1) := by
  have key : ∀ rt ∈ dev.terminals,
      input_listed rt = true ∧ ∃ d ∈ bringup_terminals, rt.rt_desc = some d := by
    induction h with
    | bringup dev hb =>
      obtain ⟨hterm, _⟩ := ni6674t_init_sysfs_ok env _ _ hb
      simp only [fresh_device, List.nil_append] at hterm
      intro rt hrt
      rw [hterm, List.mem_map] at hrt
      obtain ⟨d, hd, rfl⟩ := hrt
      exact ⟨input_listed_terminal_at_zero d hd, d, hd, rfl⟩
    | store dev i rt attr buf before count r rt1 sync1 _ hget hstore ih =>
      intro rt2 hrt2
      have hmem : rt ∈ dev.terminals := List.getElem?_mem hget
      obtain ⟨hl, d, hd, hdesc⟩ := ih rt hmem
      obtain ⟨hl1, hd1⟩ := route_terminal_store_keeps_listed _ _ _ _ _ _ _ _ _ hl hstore
      rcases List.mem_or_eq_of_mem_set hrt2 with hm | heq
      · exact ih rt2 hm
      · subst heq
        exact ⟨hl1, d, hd, hd1.trans hdesc⟩
  intro rt hrt
  obtain ⟨hl, d, hd, hdesc⟩ := key rt hrt
  refine ⟨hl, ⟨d, hd, hdesc⟩, ?_⟩
  intro attr buf before count
  exact route_terminal_store_returns rt attr buf before count dev.sync d hl hdesc
    (well_terminated_all d hd)

theorem current_input_always_listed_witness :
    reachable env_ok sync_zero device_after_select ∧
    ∀ rt ∈ device_after_select.terminals,
      input_listed rt = true ∧ (∃ d ∈ bringup_terminals, rt.rt_desc = some d) ∧
      ∀ (attr : route_terminal_attr) (buf : String) (before : Char) (count : Nat),
        ∃ r rt1 sync1,
          route_terminal_store rt attr buf before count device_after_select.sync =
            some (r, rt1, sync1) :=
  have hr : reachable env_ok sync_zero device_after_select :=
    reachable.store device_after_bringup 8 (terminal_at (.pfi_rt_desc 0) 0 .POLARITY_NORMAL)
      .current_input "PXI_Star1\n" 'x' 10 10
      (terminal_at (.pfi_rt_desc 0) 17 .POLARITY_NORMAL)
      (iowrite32 0x2B0A1400 .triggerctrl device_after_bringup.sync)
      (reachable.bringup device_after_bringup (by decide!)) (by decide!) (by decide!)
  ⟨hr, current_input_always_listed env_ok sync_zero device_after_select hr⟩

/-! ## The trigger-control word -/

theorem triggerctrl_flush_eq (rt : route_terminal) (sync : ni_sync) :
    triggerctrl_flush_terminal_attrs rt sync =
      (trigctrl_of rt).map (fun w => iowrite32 w .triggerctrl sync) := by
  unfold triggerctrl_flush_terminal_attrs trigctrl_of
  cases rt.rt_desc.bind deref_desc <;> cases rt.input.bind deref_input <;> rfl

set_option maxRecDepth 100000 in
theorem trigger_entry_ok_all : ∀ d ∈ trigger_terminals, ∀ j ∈ List.range (listed_count d),
    ∀ p ∈ [terminal_polarity.POLARITY_NORMAL, .POLARITY_INVERTED],
      trigger_entry_ok d j p = true := by
  decide!

theorem terminal_polarity_mem (p : terminal_polarity) :
    p ∈ [terminal_polarity.POLARITY_NORMAL, .POLARITY_INVERTED] := by
  cases p <;> simp

theorem triggerctrl_flush_spec (d : desc_ptr) (hd : d ∈ trigger_terminals)
    (rt : route_terminal) (hrt : rt.rt_desc = some d) (hl : input_listed rt = true)
    (sync : ni_sync) :
    ∃ desc e, deref_desc d = some desc ∧ desc.set_input = some .triggerctrl_set_input ∧
      rt.input.bind deref_input = some e ∧ e ∈ listed_inputs desc ∧
      triggerctrl_flush_terminal_attrs rt sync =
        some (iowrite32 (trigger_word_spec desc.dest_data e.data
          (decide (e.desc = some .rt_floating)) (decide (rt.polarity = .POLARITY_INVERTED)))
          .triggerctrl sync) := by
  obtain ⟨d1, j, desc, hrt1, hin, hdesc, hj⟩ := (input_listed_iff rt).1 hl
  have hdd : d1 = d := by
    rw [hrt] at hrt1
    exact (Option.some.inj hrt1).symm
  subst hdd
  have hjr : j ∈ List.range (listed_count d1) := by
    simp [listed_count, hdesc, hj]
  have hok := trigger_entry_ok_all d1 hd j hjr rt.polarity (terminal_polarity_mem _)
  unfold trigger_entry_ok at hok
  simp only [hdesc, Bool.and_eq_true, decide_eq_true_eq] at hok
  obtain ⟨hset, hok⟩ := hok
  cases he : (listed_inputs desc)[j]? with
  | none => simp [he] at hok
  | some e =>
    simp only [he, Bool.and_eq_true, decide_eq_true_eq] at hok
    obtain ⟨hav, hw⟩ := hok
    have hrteq : rt = terminal_at d1 j rt.polarity := by
      cases rt
      simp only [terminal_at] at hrt hin ⊢
      simp [hrt, hin]
    refine ⟨desc, e, hdesc, hset, ?_, List.getElem?_mem he, ?_⟩
    · simp [hin, deref_input, hdesc, hav]
    · rw [triggerctrl_flush_eq]
      rw [hrteq, hw]
      rfl

theorem current_input_store_success (rt : route_terminal) (buf : String) (before : Char)
    (count : Nat) (sync : ni_sync) (d : desc_ptr) (desc : route_terminal_desc) (r : Int)
    (rt1 : route_terminal) (sync1 : ni_sync)
    (hrt : rt.rt_desc = some d) (hdesc : deref_desc d = some desc)
    (h : route_terminal_current_input_store rt buf before count sync = some (r, rt1, sync1))
    (hr : r ≠ -EINVAL) :
    ∃ j, j < (listed_inputs desc).length ∧ rt1 = { rt with input := some ⟨d, j⟩ } ∧
      set_input_and_update_state rt ⟨d, j⟩ sync = some (rt1, sync1) ∧ r = (count : Int) := by
  rw [current_input_store_eq rt buf before count sync d desc hrt hdesc,
    current_input_store_loop_eq] at h
  cases hfm : first_match (c_str buf) (compared_len buf before) desc.available_inputs 0 with
  | none => simp [hfm] at h
  | some m =>
    cases m with
    | none =>
      simp only [hfm, Option.some.injEq, Prod.mk.injEq] at h
      exact absurd h.1.symm hr
    | some j =>
      simp only [hfm] at h
      cases hs : set_input_and_update_state rt ⟨d, j⟩ sync with
      | none => simp [hs] at h
      | some p =>
        obtain ⟨rt2, s2⟩ := p
        simp only [hs, Option.some.injEq, Prod.mk.injEq] at h
        obtain ⟨h1, h2, h3⟩ := h
        subst h2 h3
        have hb := first_match_bound _ _ _ _ _ hfm
        refine ⟨j, ?_, set_input_and_update_state_rt rt _ sync rt2 s2 hs, hs, h1.symm⟩
        unfold listed_inputs
        omega

theorem set_input_and_update_state_trigger (rt : route_terminal) (p : input_ptr)
    (sync : ni_sync) (d : desc_ptr) (desc : route_terminal_desc) (rt1 : route_terminal)
    (sync1 : ni_sync) (hrt : rt.rt_desc = some d) (hdesc : deref_desc d = some desc)
    (hset : desc.set_input = some .triggerctrl_set_input)
    (h : set_input_and_update_state rt p sync = some (rt1, sync1)) :
    triggerctrl_flush_terminal_attrs rt1 sync = some sync1 := by
  have hrt1 := set_input_and_update_state_rt rt p sync rt1 sync1 h
  unfold set_input_and_update_state at h
  simp only [hrt, Option.bind, hdesc, hset, call_set_input, triggerctrl_set_input] at h
  rw [hrt1, hrt]
  cases hf : triggerctrl_flush_terminal_attrs
      { rt_desc := some d, input := some p, polarity := rt.polarity } sync with
  | none => simp [hf] at h
  | some s =>
    simp only [hf, Option.some.injEq, Prod.mk.injEq] at h
    rw [h.2]

theorem polarity_store_loop_success (rt : route_terminal) (buf : List Char) (count : Nat)
    (sync : ni_sync) (names : List String) (i : Nat) (r : Int) (rt1 : route_terminal)
    (sync1 : ni_sync)
    (h : polarity_store_loop rt buf count sync names i = some (r, rt1, sync1))
    (hr : r ≠ -EINVAL) :
    triggerctrl_flush_terminal_attrs rt1 sync = some sync1 ∧ r = (count : Int) := by
  induction names generalizing i with
  | nil =>
    simp only [polarity_store_loop, Option.some.injEq, Prod.mk.injEq] at h
    exact absurd h.1.symm hr
  | cons name names ih =>
    simp only [polarity_store_loop] at h
    by_cases hcmp : strncmp (c_str name) buf (strlen name) = 0
    · simp only [hcmp, if_true] at h
      cases hf : triggerctrl_flush_terminal_attrs
          { rt with polarity := terminal_polarity.ofIndex i } sync with
      | none => simp [hf] at h
      | some s =>
        simp only [hf, Option.some.injEq, Prod.mk.injEq] at h
        obtain ⟨h1, h2, h3⟩ := h
        subst h2 h3
        exact ⟨hf, h1.symm⟩
    · simp only [hcmp, if_false] at h
      exact ih (i + 1) h

/-- C6: when a store to the current input or to the polarity of a
dedicated-register terminal (PXI_Trig0-7, PFI0-5, PXI_Star0-16) succeeds, the
only register write it issues is one write of the trigger-control register,
with the word `(destinationCode << 24) | (inputData << 16) | (1 << 12)`,
`| (1 << 10)` iff the selected input is not the floating pseudo-source and
`| (1 << 11)` iff the polarity is inverted, all taken from the terminal's state
after the update and none from the register's previous value. -/
theorem trigger_word_written (d : desc_ptr) (hd : d ∈ trigger_terminals)
    (rt : route_terminal) (hrt : rt.rt_desc = some d)
    (attr : route_terminal_attr) (hl : attr = .polarity → input_listed rt = true)
    (buf : String) (before : Char) (count : Nat) (sync : ni_sync) (r : Int)
    (rt1 : route_terminal) (sync1 : ni_sync)
    (h : route_terminal_store rt attr buf before count sync = some (r, rt1, sync1))
    (hr : r ≠ -EINVAL) :
    ∃ desc e, deref_desc d = some desc ∧ rt1.input.bind deref_input = some e ∧
      e ∈ listed_inputs desc ∧
      sync1 = iowrite32 (trigger_word_spec desc.dest_data e.data
          (decide (e.desc = some .rt_floating)) (decide (rt1.polarity = .POLARITY_INVERTED)))
        .triggerctrl sync ∧
      sync1.triggerctrl = trigger_word_spec desc.dest_data e.data
          (decide (e.desc = some .rt_floating)) (decide (rt1.polarity = .POLARITY_INVERTED)) ∧
      sync1.iowrites = sync.iowrites ++ [(sync_reg.triggerctrl, sync1.triggerctrl)] := by
  have main : input_listed rt1 = true ∧ rt1.rt_desc = some d ∧
      triggerctrl_flush_terminal_attrs rt1 sync = some sync1 := by
    cases attr with
    | current_input =>
      simp only [route_terminal_store] at h
      have hdin : d ∈ bringup_terminals := by
        simp only [trigger_terminals, bringup_terminals, List.mem_append] at hd ⊢
        tauto
      have hwt := well_terminated_all d hdin
      unfold well_terminated at hwt
      cases hdesc : deref_desc d with
      | none => simp [hdesc] at hwt
      | some desc =>
        obtain ⟨j, hj, hrt1, hs, _⟩ :=
          current_input_store_success rt buf before count sync d desc r rt1 sync1 hrt hdesc h hr
        have hl1 : input_listed rt1 = true :=
          (input_listed_iff rt1).2 ⟨d, j, desc, by rw [hrt1]; exact hrt, by rw [hrt1], hdesc, hj⟩
        obtain ⟨desc2, e, hdesc2, hset, _, _, _⟩ :=
          triggerctrl_flush_spec d hd rt1 (by rw [hrt1]; exact hrt) hl1 sync
        rw [hdesc] at hdesc2
        have hde : desc2 = desc := (Option.some.inj hdesc2).symm
        subst hde
        exact ⟨hl1, by rw [hrt1]; exact hrt,
          set_input_and_update_state_trigger rt _ sync d desc2 rt1 sync1 hrt hdesc hset hs⟩
    | polarity =>
      simp only [route_terminal_store, route_terminal_polarity_store] at h
      obtain ⟨h1, h2⟩ := polarity_store_loop_frame _ _ _ _ _ _ _ _ _ h
      obtain ⟨h3, _⟩ := polarity_store_loop_success _ _ _ _ _ _ _ _ _ h hr
      obtain ⟨d1, j, desc, hrtd, hin, hdesc, hj⟩ := (input_listed_iff rt).1 (hl rfl)
      exact ⟨(input_listed_iff rt1).2 ⟨d1, j, desc, h1.trans hrtd, h2.trans hin, hdesc, hj⟩,
        h1.trans hrt, h3⟩
    | available_inputs =>
      simp only [route_terminal_store, Option.some.injEq, Prod.mk.injEq] at h
      exact absurd h.1.symm hr
    | line_state =>
      simp only [route_terminal_store, Option.some.injEq, Prod.mk.injEq] at h
      exact absurd h.1.symm hr
  obtain ⟨hl1, hrt1, hflush⟩ := main
  obtain ⟨desc, e, hdesc, _, hin, hmem, hw⟩ := triggerctrl_flush_spec d hd rt1 hrt1 hl1 sync
  rw [hflush] at hw
  have hs := Option.some.inj hw
  refine ⟨desc, e, hdesc, hin, hmem, hs, ?_, ?_⟩
  · rw [hs]; rfl
  · rw [hs]; rfl

theorem trigger_word_written_witness :
    (desc_ptr.pfi_rt_desc 0 ∈ trigger_terminals ∧
      route_terminal_store (terminal_at (.pfi_rt_desc 0) 4 .POLARITY_NORMAL) .polarity
          "inverted\n" 'x' 9 sync_zero =
        some (9, terminal_at (.pfi_rt_desc 0) 4 .POLARITY_INVERTED,
          iowrite32 0x2B2D1C00 .triggerctrl sync_zero)) ∧
    ∃ desc e, deref_desc (.pfi_rt_desc 0) = some desc ∧
      (terminal_at (.pfi_rt_desc 0) 4 .POLARITY_INVERTED).input.bind deref_input = some e ∧
      e ∈ listed_inputs desc ∧
      iowrite32 0x2B2D1C00 .triggerctrl sync_zero =
        iowrite32 (trigger_word_spec desc.dest_data e.data
          (decide (e.desc = some .rt_floating))
          (decide ((terminal_at (.pfi_rt_desc 0) 4 .POLARITY_INVERTED).polarity =
            .POLARITY_INVERTED))) .triggerctrl sync_zero ∧
      (iowrite32 0x2B2D1C00 .triggerctrl sync_zero).triggerctrl =
        trigger_word_spec desc.dest_data e.data (decide (e.desc = some .rt_floating))
          (decide ((terminal_at (.pfi_rt_desc 0) 4 .POLARITY_INVERTED).polarity =
            .POLARITY_INVERTED)) ∧
      (iowrite32 0x2B2D1C00 .triggerctrl sync_zero).iowrites =
        sync_zero.iowrites ++
          [(sync_reg.triggerctrl, (iowrite32 0x2B2D1C00 .triggerctrl sync_zero).triggerctrl)] :=
  ⟨⟨by decide, by decide!⟩,
    trigger_word_written (.pfi_rt_desc 0) (by decide)
      (terminal_at (.pfi_rt_desc 0) 4 .POLARITY_NORMAL) rfl .polarity (fun _ => by decide!)
      "inverted\n" 'x' 9 sync_zero 9 (terminal_at (.pfi_rt_desc 0) 4 .POLARITY_INVERTED)
      (iowrite32 0x2B2D1C00 .triggerctrl sync_zero) (by decide!) (by decide)⟩

/-! ## Polarity -/

theorem polarity_store_loop_eq (rt : route_terminal) (buf : List Char) (count : Nat)
    (sync : ni_sync) (names : List String) (i : Nat) :
    polarity_store_loop rt buf count sync names i =
      match polarity_match buf names i with
      | none => some (-EINVAL, rt, sync)
      | some k =>
        match triggerctrl_flush_terminal_attrs
            { rt with polarity := terminal_polarity.ofIndex k } sync with
        | none => none
        | some sync1 =>
          some ((count : Int), { rt with polarity := terminal_polarity.ofIndex k }, sync1) := by
  induction names generalizing i with
  | nil => simp [polarity_store_loop, polarity_match]
  | cons name names ih =>
    simp only [polarity_store_loop, polarity_match]
    by_cases hcmp : strncmp (c_str name) buf (strlen name) = 0
    · simp [hcmp]
    · simp [hcmp, ih]

theorem polarity_match_names :
    polarity_match (c_str "normal") terminal_polarity_strs 0 = some 0 ∧
    polarity_match (c_str "normal\n") terminal_polarity_strs 0 = some 0 ∧
    polarity_match (c_str "inverted") terminal_polarity_strs 0 = some 1 ∧
    polarity_match (c_str "inverted\n") terminal_polarity_strs 0 = some 1 := by
  decide

set_option maxRecDepth 100000 in
theorem toggle_ok_all : ∀ d ∈ trigger_terminals, ∀ j ∈ List.range (listed_count d),
    toggle_ok d j = true := by
  decide!

theorem polarity_store_named (rt : route_terminal) (d : desc_ptr) (j k : Nat) (buf : String)
    (count : Nat) (sync : ni_sync) (w : Nat) (hrt : rt.rt_desc = some d)
    (hin : rt.input = some ⟨d, j⟩)
    (hm : polarity_match (c_str buf) terminal_polarity_strs 0 = some k)
    (hw : trigctrl_of (terminal_at d j (terminal_polarity.ofIndex k)) = some w) :
    route_terminal_polarity_store rt buf count sync =
      some ((count : Int), { rt with polarity := terminal_polarity.ofIndex k },
        iowrite32 w .triggerctrl sync) := by
  have hrteq : ({ rt with polarity := terminal_polarity.ofIndex k } : route_terminal) =
      terminal_at d j (terminal_polarity.ofIndex k) := by
    cases rt
    simp only [terminal_at] at hrt hin ⊢
    simp [hrt, hin]
  unfold route_terminal_polarity_store
  rw [polarity_store_loop_eq, hm]
  simp only [triggerctrl_flush_eq, hrteq, hw, Option.map_some']

/-- C7: on a dedicated-register terminal with any listed current input, the
word written by setting the polarity to inverted and the word written by
setting it to normal differ in bit 11 (INVERTED) and in no other bit; their
DEST, SRC, ENABLED and ASYNCHRONOUS fields are equal, and both calls leave the
current input as it was. -/
theorem polarity_toggle_only_inverted_bit (d : desc_ptr) (hd : d ∈ trigger_terminals)
    (rt : route_terminal) (hrt : rt.rt_desc = some d) (hl : input_listed rt = true)
    (bufi bufn : String) (hbi : bufi = "inverted" ∨ bufi = "inverted\n")
    (hbn : bufn = "normal" ∨ bufn = "normal\n") (p1 p2 : terminal_polarity)
    (ci cn : Nat) (si sn : ni_sync) :
    ∃ wi wn,
      route_terminal_polarity_store { rt with polarity := p1 } bufi ci si =
        some ((ci : Int), { rt with polarity := .POLARITY_INVERTED },
          iowrite32 wi .triggerctrl si) ∧
      route_terminal_polarity_store { rt with polarity := p2 } bufn cn sn =
        some ((cn : Int), { rt with polarity := .POLARITY_NORMAL },
          iowrite32 wn .triggerctrl sn) ∧
      wi ^^^ wn = 1 <<< 11 ∧
      wi.testBit 11 = true ∧ wn.testBit 11 = false ∧
      (∀ i, i ≠ 11 → wi.testBit i = wn.testBit i) ∧
      dest_field wi = dest_field wn ∧ src_field wi = src_field wn ∧
      wi &&& TRIG_CTRL_ENABLED = wn &&& TRIG_CTRL_ENABLED ∧
      wi &&& TRIG_CTRL_ASYNCHRONOUS = wn &&& TRIG_CTRL_ASYNCHRONOUS := by
  obtain ⟨d1, j, desc, hrt1, hin, hdesc, hj⟩ := (input_listed_iff rt).1 hl
  have hdd : d1 = d := by
    rw [hrt] at hrt1
    exact (Option.some.inj hrt1).symm
  subst hdd
  have hjr : j ∈ List.range (listed_count d1) := by
    simp [listed_count, hdesc, hj]
  have hok := toggle_ok_all d1 hd j hjr
  unfold toggle_ok at hok
  cases hwi : trigctrl_of (terminal_at d1 j .POLARITY_INVERTED) with
  | none => simp [hwi] at hok
  | some wi =>
    cases hwn : trigctrl_of (terminal_at d1 j .POLARITY_NORMAL) with
    | none => simp [hwi, hwn] at hok
    | some wn =>
      simp only [hwi, hwn, Bool.and_eq_true, decide_eq_true_eq] at hok
      obtain ⟨⟨⟨⟨⟨⟨hx, hi1⟩, hn0⟩, hdest⟩, hsrc⟩, hen⟩, has⟩ := hok
      have hmi : polarity_match (c_str bufi) terminal_polarity_strs 0 = some 1 := by
        rcases hbi with h | h <;> subst h
        · exact polarity_match_names.2.2.1
        · exact polarity_match_names.2.2.2
      have hmn : polarity_match (c_str bufn) terminal_polarity_strs 0 = some 0 := by
        rcases hbn with h | h <;> subst h
        · exact polarity_match_names.1
        · exact polarity_match_names.2.1
      have hxor : wi ^^^ wn = 2 ^ 11 := by
        rw [hx]; rfl
      refine ⟨wi, wn, ?_, ?_, ?_, ?_, ?_, ?_, hdest, hsrc, hen, has⟩
      · exact polarity_store_named { rt with polarity := p1 } d1 j 1 bufi ci si wi hrt hin hmi hwi
      · exact polarity_store_named { rt with polarity := p2 } d1 j 0 bufn cn sn wn hrt hin hmn hwn
      · rw [hxor]; rfl
      · have := congrArg (fun x => Nat.testBit x 11) hi1
        simp only [Nat.testBit_and] at this
        have h2 : Nat.testBit TRIG_CTRL_INVERTED 11 = true := by decide
        rw [h2] at this
        simpa using this
      · have := congrArg (fun x => Nat.testBit x 11) hn0
        simp only [Nat.testBit_and] at this
        have h2 : Nat.testBit TRIG_CTRL_INVERTED 11 = true := by decide
        rw [h2] at this
        simpa using this
      · intro i hi
        have := congrArg (fun x => Nat.testBit x i) hxor
        simp only [Nat.testBit_xor, Nat.testBit_two_pow] at this
        have hne : (11 = i) = False := by
          simp only [eq_iff_iff, iff_false]; omega
        simp only [hne, decide_False] at this
        cases h1 : wi.testBit i <;> cases h2 : wn.testBit i <;> simp_all

theorem polarity_toggle_only_inverted_bit_witness :
    (desc_ptr.pxi_trig_rt_desc 0 ∈ trigger_terminals ∧
      input_listed (terminal_at (.pxi_trig_rt_desc 0) 5 .POLARITY_NORMAL) = true) ∧
    ∃ wi wn,
      route_terminal_polarity_store
          { terminal_at (.pxi_trig_rt_desc 0) 5 .POLARITY_NORMAL with
            polarity := .POLARITY_NORMAL } "inverted\n" 9 sync_zero =
        some (((9 : Nat) : Int),
          { terminal_at (.pxi_trig_rt_desc 0) 5 .POLARITY_NORMAL with
            polarity := .POLARITY_INVERTED },
          iowrite32 wi .triggerctrl sync_zero) ∧
      route_terminal_polarity_store
          { terminal_at (.pxi_trig_rt_desc 0) 5 .POLARITY_NORMAL with
            polarity := .POLARITY_INVERTED } "normal\n" 7 sync_zero =
        some (((7 : Nat) : Int),
          { terminal_at (.pxi_trig_rt_desc 0) 5 .POLARITY_NORMAL with
            polarity := .POLARITY_NORMAL },
          iowrite32 wn .triggerctrl sync_zero) ∧
      wi ^^^ wn = 1 <<< 11 ∧
      wi.testBit 11 = true ∧ wn.testBit 11 = false ∧
      (∀ i, i ≠ 11 → wi.testBit i = wn.testBit i) ∧
      dest_field wi = dest_field wn ∧ src_field wi = src_field wn ∧
      wi &&& TRIG_CTRL_ENABLED = wn &&& TRIG_CTRL_ENABLED ∧
      wi &&& TRIG_CTRL_ASYNCHRONOUS = wn &&& TRIG_CTRL_ASYNCHRONOUS :=
  ⟨⟨by decide, by decide!⟩,
    polarity_toggle_only_inverted_bit (.pxi_trig_rt_desc 0) (by decide)
      (terminal_at (.pxi_trig_rt_desc 0) 5 .POLARITY_NORMAL) rfl (by decide!)
      "inverted\n" "normal\n" (Or.inr rfl) (Or.inr rfl) .POLARITY_NORMAL .POLARITY_INVERTED
      9 7 sync_zero sync_zero⟩

/-! ## Shared control words -/

theorem testBit_of_lt_two_pow_32 (v i : Nat) (hv : v < 2 ^ 32) (hi : 32 ≤ i) :
    v.testBit i = false := by
  apply Nat.testBit_lt_two_pow
  calc v < 2 ^ 32 := hv
    _ ≤ 2 ^ i := Nat.pow_le_pow_right (by decide) hi

theorem testBit_inside_mask (dd m i : Nat) (hd : dd &&& m = dd) (hm : m.testBit i = false) :
    dd.testBit i = false := by
  have := congrArg (fun x => Nat.testBit x i) hd
  simp only [Nat.testBit_and, hm, Bool.and_false] at this
  exact this.symm

theorem not32_testBit (m i : Nat) (hm : m < 2 ^ 32) :
    (not32 m).testBit i = (decide (i < 32) && !m.testBit i) := by
  have h1 : (0xFFFFFFFF : Nat) = 2 ^ 32 - 1 := by decide
  unfold not32 u32
  rw [Nat.mod_eq_of_lt hm, Nat.testBit_xor, h1, Nat.testBit_two_pow_sub_one]
  by_cases hi : i < 32
  · simp [hi]
  · have := testBit_of_lt_two_pow_32 m i hm (by omega)
    simp [hi, this]

/-- The read-modify-write of the shared-register `set_input` functions, bit by
bit: inside the mask the new field value, outside it the value read. -/
theorem rmw_testBit (v m dd : Nat) (hm : m < 2 ^ 32) (hv : v < 2 ^ 32) (hd : dd &&& m = dd)
    (i : Nat) :
    (u32 ((v &&& not32 m) ||| dd)).testBit i =
      if m.testBit i then dd.testBit i else v.testBit i := by
  unfold u32
  rw [Nat.testBit_mod_two_pow, Nat.testBit_or, Nat.testBit_and, not32_testBit m i hm]
  by_cases hi : i < 32
  · cases hmi : m.testBit i
    · have := testBit_inside_mask dd m i hd hmi
      simp [hi, this]
    · simp [hi]
  · have h1 := testBit_of_lt_two_pow_32 m i hm (by omega)
    have h2 := testBit_of_lt_two_pow_32 v i hv (by omega)
    simp [hi, h1, h2]

theorem rmw_lt (v m dd : Nat) : u32 ((v &&& not32 m) ||| dd) < 2 ^ 32 := by
  unfold u32
  exact Nat.mod_lt _ (by decide)

theorem rmw_inside (v m dd : Nat) (hm : m < 2 ^ 32) (hv : v < 2 ^ 32) (hd : dd &&& m = dd) :
    u32 ((v &&& not32 m) ||| dd) &&& m = dd := by
  apply Nat.eq_of_testBit_eq
  intro i
  rw [Nat.testBit_and, rmw_testBit v m dd hm hv hd]
  cases hmi : m.testBit i
  · simp [testBit_inside_mask dd m i hd hmi]
  · simp

theorem rmw_outside (v m dd : Nat) (hm : m < 2 ^ 32) (hv : v < 2 ^ 32) (hd : dd &&& m = dd) :
    u32 ((v &&& not32 m) ||| dd) &&& not32 m = v &&& not32 m := by
  apply Nat.eq_of_testBit_eq
  intro i
  rw [Nat.testBit_and, Nat.testBit_and, rmw_testBit v m dd hm hv hd, not32_testBit m i hm]
  cases hmi : m.testBit i <;> simp

theorem ioread32_lt (reg : sync_reg) (sync : ni_sync) : ioread32 reg sync < 2 ^ 32 := by
  cases reg <;> exact Nat.mod_lt _ (by decide)

theorem set_input_and_update_state_shared (rt : route_terminal) (d : desc_ptr)
    (desc : route_terminal_desc) (j : Nat) (e : route_terminal_input) (reg : sync_reg)
    (sync : ni_sync) (hrt : rt.rt_desc = some d) (hdesc : deref_desc d = some desc)
    (hreg : control_word_of d = some reg) (he : desc.available_inputs[j]? = some e) :
    set_input_and_update_state rt ⟨d, j⟩ sync =
      some ({ rt with input := some ⟨d, j⟩ },
        iowrite32 (u32 ((ioread32 reg sync &&& not32 desc.dest_data) ||| e.data)) reg sync) := by
  have hin : deref_input ⟨d, j⟩ = some e := by
    simp [deref_input, hdesc, he]
  unfold control_word_of at hreg
  simp only [hdesc, Option.bind] at hreg
  unfold set_input_and_update_state
  simp only [hrt, Option.bind, hdesc]
  cases hs : desc.set_input with
  | none => simp [hs] at hreg
  | some f =>
    simp only [hs] at hreg
    cases f <;> simp only [shared_word, Option.some.injEq] at hreg
    · exact (Option.noConfusion hreg)
    · subst hreg
      simp [call_set_input, src_a_b_set_input, hrt, hdesc, hin]
    · subst hreg
      simp [call_set_input, src_a_b_div_sel_set_input, hrt, hdesc, hin]
    · subst hreg
      simp [call_set_input, bank_set_input, hrt, hdesc, hin]

theorem takeWhile_getElem? {α : Type} (p : α → Bool) (l : List α) (j : Nat)
    (h : j < (l.takeWhile p).length) : (l.takeWhile p)[j]? = l[j]? := by
  induction l generalizing j with
  | nil => simp at h
  | cons a as ih =>
    by_cases hp : p a = true
    · simp only [List.takeWhile_cons, hp, if_true, List.length_cons] at h ⊢
      cases j with
      | zero => simp
      | succ k =>
        simp only [List.getElem?_cons_succ]
        exact ih k (by omega)
    · simp [List.takeWhile_cons, hp] at h

theorem field_select_ok_all : ∀ d ∈ shared_terminals, ∀ name ∈ input_names d,
    field_select_ok d name name = true ∧ field_select_ok d name (name ++ "\n") = true := by
  decide!

theorem field_select_ok_sound (d : desc_ptr) (name buf : String)
    (h : field_select_ok d name buf = true) :
    ∃ desc e reg j, deref_desc d = some desc ∧ desc.available_inputs[j]? = some e ∧
      e ∈ listed_inputs desc ∧ input_name e = some name ∧ control_word_of d = some reg ∧
      desc.dest_data < 2 ^ 32 ∧ e.data &&& desc.dest_data = e.data ∧
      ∀ (rt : route_terminal) (before : Char) (count : Nat) (sync : ni_sync),
        rt.rt_desc = some d →
        route_terminal_current_input_store rt buf before count sync =
          some ((count : Int), { rt with input := some ⟨d, j⟩ },
            iowrite32 (u32 ((ioread32 reg sync &&& not32 desc.dest_data) ||| e.data))
              reg sync) := by
  unfold field_select_ok at h
  cases hdesc : deref_desc d with
  | none => simp [hdesc] at h
  | some desc =>
    simp only [hdesc, Bool.and_eq_true, decide_eq_true_eq] at h
    obtain ⟨⟨⟨hne, hm⟩, hreg⟩, h⟩ := h
    cases hr : control_word_of d with
    | none => simp [hr] at hreg
    | some reg =>
      cases hfm : first_match (c_str buf) (compared_len buf 'x') desc.available_inputs 0 with
      | none => simp [hfm] at h
      | some r =>
        cases r with
        | none => simp [hfm] at h
        | some j =>
          simp only [hfm] at h
          cases he : desc.available_inputs[j]? with
          | none => simp [he] at h
          | some e =>
            simp only [he, Bool.and_eq_true, decide_eq_true_eq] at h
            obtain ⟨hn, hd⟩ := h
            have hb := first_match_bound _ _ _ _ _ hfm
            have hjl : j < (listed_inputs desc).length := by
              unfold listed_inputs; omega
            have hmem : e ∈ listed_inputs desc := by
              have h1 := takeWhile_getElem? (fun e : route_terminal_input => e.desc.isSome)
                desc.available_inputs j hjl
              rw [he] at h1
              exact List.getElem?_mem h1
            refine ⟨desc, e, reg, j, rfl, he, hmem, hn, rfl, hm, hd, ?_⟩
            intro rt before count sync hrt
            rw [current_input_store_eq rt buf before count sync d desc hrt hdesc,
              current_input_store_loop_eq, compared_len_of_ne_zero buf before 'x' hne, hfm]
            simp only [set_input_and_update_state_shared rt d desc j e reg sync hrt hdesc hr he]

theorem control_word_of_cases (d : desc_ptr) (reg : sync_reg)
    (h : control_word_of d = some reg) : reg = .dstaractrl1 ∨ reg = .dstaractrl2 := by
  unfold control_word_of at h
  cases hf : (deref_desc d).bind route_terminal_desc.set_input with
  | none => rw [hf] at h; exact Option.noConfusion h
  | some f =>
    rw [hf] at h
    cases f
    · exact Option.noConfusion h
    · exact Or.inl (Option.some.inj h).symm
    · exact Or.inr (Option.some.inj h).symm
    · exact Or.inl (Option.some.inj h).symm

/-- C8: on a shared-register terminal (SourceA, SourceB, the divider selects,
Bank0-3) a request naming a listed input succeeds and issues one write, to the
terminal's own control word; in the word written every bit inside the
terminal's field mask is the bit of the selected input's encoded value (which
lies inside the mask) and every bit outside the mask is the bit read from the
register before; the other shared word and the trigger-control register are
not written. -/
theorem shared_field_update (d : desc_ptr) (hd : d ∈ shared_terminals)
    (name : String) (hname : name ∈ input_names d)
    (buf : String) (hbuf : buf = name ∨ buf = name ++ "\n")
    (rt : route_terminal) (hrt : rt.rt_desc = some d)
    (before : Char) (count : Nat) (sync : ni_sync) :
    ∃ desc e reg w rt1 sync1,
      deref_desc d = some desc ∧ e ∈ listed_inputs desc ∧ input_name e = some name ∧
      control_word_of d = some reg ∧
      route_terminal_current_input_store rt buf before count sync =
        some ((count : Int), rt1, sync1) ∧
      rt1.input.bind deref_input = some e ∧
      sync1 = iowrite32 w reg sync ∧
      (∀ i, w.testBit i =
        if desc.dest_data.testBit i then e.data.testBit i
        else (ioread32 reg sync).testBit i) ∧
      w &&& desc.dest_data = e.data ∧
      w &&& not32 desc.dest_data = ioread32 reg sync &&& not32 desc.dest_data ∧
      e.data &&& desc.dest_data = e.data ∧
      sync1.triggerctrl = sync.triggerctrl ∧
      (reg = .dstaractrl1 ∧ sync1.dstaractrl1 = w ∧ sync1.dstaractrl2 = sync.dstaractrl2 ∨
        reg = .dstaractrl2 ∧ sync1.dstaractrl2 = w ∧ sync1.dstaractrl1 = sync.dstaractrl1) ∧
      sync1.iowrites = sync.iowrites ++ [(reg, w)] := by
  have hall := field_select_ok_all d hd name hname
  have hok : field_select_ok d name buf = true := by
    rcases hbuf with h | h <;> subst h
    · exact hall.1
    · exact hall.2
  obtain ⟨desc, e, reg, j, hdesc, he, hmem, hn, hreg, hm, hdm, hst⟩ :=
    field_select_ok_sound d name buf hok
  have hstore := hst rt before count sync hrt
  have hv := ioread32_lt reg sync
  refine ⟨desc, e, reg, _, _, _, hdesc, hmem, hn, hreg, hstore, ?_,
    rfl, rmw_testBit _ _ _ hm hv hdm, rmw_inside _ _ _ hm hv hdm,
    rmw_outside _ _ _ hm hv hdm, hdm, ?_, ?_, ?_⟩
  · simp [deref_input, hdesc, he]
  · rcases control_word_of_cases d reg hreg with h | h <;> subst h <;> rfl
  · rcases control_word_of_cases d reg hreg with h | h <;> subst h
    · exact Or.inl ⟨rfl, rfl, rfl⟩
    · exact Or.inr ⟨rfl, rfl, rfl⟩
  · cases reg <;> rfl

theorem shared_field_update_witness :
    (desc_ptr.bank_rt_desc 2 ∈ shared_terminals ∧
      "SourceBDividerSelect" ∈ input_names (.bank_rt_desc 2)) ∧
    ∃ desc e reg w rt1 sync1,
      deref_desc (.bank_rt_desc 2) = some desc ∧ e ∈ listed_inputs desc ∧
      input_name e = some "SourceBDividerSelect" ∧
      control_word_of (.bank_rt_desc 2) = some reg ∧
      route_terminal_current_input_store (terminal_at (.bank_rt_desc 2) 0 .POLARITY_NORMAL)
          "SourceBDividerSelect\n" 'x' 21 device_after_bringup.sync =
        some (((21 : Nat) : Int), rt1, sync1) ∧
      rt1.input.bind deref_input = some e ∧
      sync1 = iowrite32 w reg device_after_bringup.sync ∧
      (∀ i, w.testBit i =
        if desc.dest_data.testBit i then e.data.testBit i
        else (ioread32 reg device_after_bringup.sync).testBit i) ∧
      w &&& desc.dest_data = e.data ∧
      w &&& not32 desc.dest_data =
        ioread32 reg device_after_bringup.sync &&& not32 desc.dest_data ∧
      e.data &&& desc.dest_data = e.data ∧
      sync1.triggerctrl = device_after_bringup.sync.triggerctrl ∧
      (reg = .dstaractrl1 ∧ sync1.dstaractrl1 = w ∧
          sync1.dstaractrl2 = device_after_bringup.sync.dstaractrl2 ∨
        reg = .dstaractrl2 ∧ sync1.dstaractrl2 = w ∧
          sync1.dstaractrl1 = device_after_bringup.sync.dstaractrl1) ∧
      sync1.iowrites = device_after_bringup.sync.iowrites ++ [(reg, w)] :=
  ⟨⟨by decide, by decide⟩,
    shared_field_update (.bank_rt_desc 2) (by decide) "SourceBDividerSelect" (by decide)
      "SourceBDividerSelect\n" (Or.inr rfl) (terminal_at (.bank_rt_desc 2) 0 .POLARITY_NORMAL)
      rfl 'x' 21 device_after_bringup.sync⟩

theorem masks_disjoint : ∀ d1 ∈ shared_terminals, ∀ d2 ∈ shared_terminals, d1 ≠ d2 →
    control_word_of d1 = control_word_of d2 → mask_of d1 &&& mask_of d2 = 0 := by
  decide!

theorem testBit_disjoint (m1 m2 i : Nat) (h : m1 &&& m2 = 0) (h1 : m1.testBit i = true) :
    m2.testBit i = false := by
  have := congrArg (fun x => Nat.testBit x i) h
  simp only [Nat.testBit_and, h1, Bool.true_and, Nat.zero_testBit] at this
  exact this

/-- Two read-modify-writes on disjoint masks commute. -/
theorem rmw_comm (v m1 dd1 m2 dd2 : Nat) (hm1 : m1 < 2 ^ 32) (hm2 : m2 < 2 ^ 32)
    (hv : v < 2 ^ 32) (hd1 : dd1 &&& m1 = dd1) (hd2 : dd2 &&& m2 = dd2)
    (hdis : m1 &&& m2 = 0) :
    u32 ((u32 ((v &&& not32 m1) ||| dd1) &&& not32 m2) ||| dd2) =
      u32 ((u32 ((v &&& not32 m2) ||| dd2) &&& not32 m1) ||| dd1) := by
  apply Nat.eq_of_testBit_eq
  intro i
  rw [rmw_testBit _ m2 dd2 hm2 (rmw_lt v m1 dd1) hd2, rmw_testBit v m1 dd1 hm1 hv hd1,
    rmw_testBit _ m1 dd1 hm1 (rmw_lt v m2 dd2) hd1, rmw_testBit v m2 dd2 hm2 hv hd2]
  cases h1 : m1.testBit i
  · simp
  · have h2 := testBit_disjoint m1 m2 i hdis h1
    simp [h2]

/-- After two read-modify-writes on disjoint masks the field written first
still holds its value. -/
theorem rmw_keeps (v m1 dd1 m2 dd2 : Nat) (hm1 : m1 < 2 ^ 32) (hm2 : m2 < 2 ^ 32)
    (hv : v < 2 ^ 32) (hd1 : dd1 &&& m1 = dd1) (hd2 : dd2 &&& m2 = dd2)
    (hdis : m1 &&& m2 = 0) :
    u32 ((u32 ((v &&& not32 m1) ||| dd1) &&& not32 m2) ||| dd2) &&& m1 = dd1 := by
  rw [rmw_comm v m1 dd1 m2 dd2 hm1 hm2 hv hd1 hd2 hdis]
  exact rmw_inside _ m1 dd1 hm1 (rmw_lt v m2 dd2) hd1

theorem ioread32_iowrite32 (w : Nat) (reg : sync_reg) (sync : ni_sync) :
    ioread32 reg (iowrite32 w reg sync) = u32 w := by
  cases reg <;> rfl

theorem u32_of_lt (w : Nat) (h : w < 2 ^ 32) : u32 w = w := Nat.mod_eq_of_lt h

/-- C9: for two distinct shared-register terminals on the same control word,
requests naming a listed input of each one, issued one after the other, leave
the same control word (and the same other registers) in either order; in that
word the field of each terminal holds the encoded value of its own selected
input, and the two field masks are disjoint. -/
theorem shared_updates_commute (d1 d2 : desc_ptr) (hd1 : d1 ∈ shared_terminals)
    (hd2 : d2 ∈ shared_terminals) (hne : d1 ≠ d2)
    (hsame : control_word_of d1 = control_word_of d2)
    (n1 n2 : String) (hn1 : n1 ∈ input_names d1) (hn2 : n2 ∈ input_names d2)
    (b1 b2 : String) (hb1 : b1 = n1 ∨ b1 = n1 ++ "\n") (hb2 : b2 = n2 ∨ b2 = n2 ++ "\n")
    (rta rtb : route_terminal) (hra : rta.rt_desc = some d1) (hrb : rtb.rt_desc = some d2)
    (before1 before2 : Char) (c1 c2 : Nat) (sync : ni_sync) :
    ∃ desc1 desc2 e1 e2 reg ra rb s1 s12 s2 s21,
      deref_desc d1 = some desc1 ∧ deref_desc d2 = some desc2 ∧
      e1 ∈ listed_inputs desc1 ∧ input_name e1 = some n1 ∧
      e2 ∈ listed_inputs desc2 ∧ input_name e2 = some n2 ∧
      control_word_of d1 = some reg ∧
      route_terminal_current_input_store rta b1 before1 c1 sync = some ((c1 : Int), ra, s1) ∧
      route_terminal_current_input_store rtb b2 before2 c2 s1 = some ((c2 : Int), rb, s12) ∧
      route_terminal_current_input_store rtb b2 before2 c2 sync = some ((c2 : Int), rb, s2) ∧
      route_terminal_current_input_store rta b1 before1 c1 s2 = some ((c1 : Int), ra, s21) ∧
      ra.input.bind deref_input = some e1 ∧ rb.input.bind deref_input = some e2 ∧
      ioread32 reg s12 = ioread32 reg s21 ∧
      s12.dstaractrl1 = s21.dstaractrl1 ∧ s12.dstaractrl2 = s21.dstaractrl2 ∧
      s12.triggerctrl = s21.triggerctrl ∧
      ioread32 reg s12 &&& desc1.dest_data = e1.data ∧
      ioread32 reg s12 &&& desc2.dest_data = e2.data ∧
      desc1.dest_data &&& desc2.dest_data = 0 := by
  have hall1 := field_select_ok_all d1 hd1 n1 hn1
  have hall2 := field_select_ok_all d2 hd2 n2 hn2
  have hok1 : field_select_ok d1 n1 b1 = true := by
    rcases hb1 with h | h <;> subst h
    · exact hall1.1
    · exact hall1.2
  have hok2 : field_select_ok d2 n2 b2 = true := by
    rcases hb2 with h | h <;> subst h
    · exact hall2.1
    · exact hall2.2
  obtain ⟨desc1, e1, reg, j1, hdesc1, he1, hmem1, hnm1, hreg1, hm1, hdm1, hst1⟩ :=
    field_select_ok_sound d1 n1 b1 hok1
  obtain ⟨desc2, e2, reg2, j2, hdesc2, he2, hmem2, hnm2, hreg2, hm2, hdm2, hst2⟩ :=
    field_select_ok_sound d2 n2 b2 hok2
  have hregeq : reg2 = reg := by
    rw [hreg1, hreg2] at hsame
    exact (Option.some.inj hsame).symm
  subst hregeq
  have hdis : desc1.dest_data &&& desc2.dest_data = 0 := by
    have := masks_disjoint d1 hd1 d2 hd2 hne hsame
    simpa [mask_of, hdesc1, hdesc2] using this
  have hdis2 : desc2.dest_data &&& desc1.dest_data = 0 := by
    rw [Nat.and_comm]; exact hdis
  have hv := ioread32_lt reg2 sync
  have hw1 := rmw_lt (ioread32 reg2 sync) desc1.dest_data e1.data
  have hw2 := rmw_lt (ioread32 reg2 sync) desc2.dest_data e2.data
  have hcomm := rmw_comm (ioread32 reg2 sync) desc1.dest_data e1.data desc2.dest_data e2.data
    hm1 hm2 hv hdm1 hdm2 hdis
  have hA := hst1 rta before1 c1 sync hra
  have hB := hst2 rtb before2 c2
    (iowrite32 (u32 ((ioread32 reg2 sync &&& not32 desc1.dest_data) ||| e1.data)) reg2 sync) hrb
  have hC := hst2 rtb before2 c2 sync hrb
  have hD := hst1 rta before1 c1
    (iowrite32 (u32 ((ioread32 reg2 sync &&& not32 desc2.dest_data) ||| e2.data)) reg2 sync) hra
  rw [ioread32_iowrite32, u32_of_lt _ hw1] at hB
  rw [ioread32_iowrite32, u32_of_lt _ hw2, ← hcomm] at hD
  refine ⟨desc1, desc2, e1, e2, reg2, _, _, _, _, _, _, hdesc1, hdesc2, hmem1, hnm1, hmem2, hnm2,
    hreg1, hA, hB, hC, hD, ?_, ?_, ?_, ?_, ?_, ?_, ?_, ?_, hdis⟩
  · simp [deref_input, hdesc1, he1]
  · simp [deref_input, hdesc2, he2]
  · rw [ioread32_iowrite32, ioread32_iowrite32]
  · rcases control_word_of_cases d1 reg2 hreg1 with h | h <;> subst h <;> rfl
  · rcases control_word_of_cases d1 reg2 hreg1 with h | h <;> subst h <;> rfl
  · rcases control_word_of_cases d1 reg2 hreg1 with h | h <;> subst h <;> rfl
  · rw [ioread32_iowrite32, u32_of_lt _ (rmw_lt _ _ _)]
    exact rmw_keeps _ _ _ _ _ hm1 hm2 hv hdm1 hdm2 hdis
  · rw [ioread32_iowrite32, u32_of_lt _ (rmw_lt _ _ _)]
    exact rmw_inside _ _ _ hm2 hw1 hdm2

theorem shared_updates_commute_witness :
    (desc_ptr.srca_rt_desc ∈ shared_terminals ∧ desc_ptr.bank_rt_desc 0 ∈ shared_terminals ∧
      desc_ptr.srca_rt_desc ≠ desc_ptr.bank_rt_desc 0 ∧
      control_word_of .srca_rt_desc = control_word_of (.bank_rt_desc 0) ∧
      "ClkIn" ∈ input_names .srca_rt_desc ∧
      "SourceADividerSelect" ∈ input_names (.bank_rt_desc 0)) ∧
    ∃ desc1 desc2 e1 e2 reg ra rb s1 s12 s2 s21,
      deref_desc .srca_rt_desc = some desc1 ∧ deref_desc (.bank_rt_desc 0) = some desc2 ∧
      e1 ∈ listed_inputs desc1 ∧ input_name e1 = some "ClkIn" ∧
      e2 ∈ listed_inputs desc2 ∧ input_name e2 = some "SourceADividerSelect" ∧
      control_word_of .srca_rt_desc = some reg ∧
      route_terminal_current_input_store (terminal_at .srca_rt_desc 0 .POLARITY_NORMAL)
          "ClkIn\n" 'x' 6 sync_ones = some (((6 : Nat) : Int), ra, s1) ∧
      route_terminal_current_input_store (terminal_at (.bank_rt_desc 0) 0 .POLARITY_NORMAL)
          "SourceADividerSelect" 'x' 20 s1 = some (((20 : Nat) : Int), rb, s12) ∧
      route_terminal_current_input_store (terminal_at (.bank_rt_desc 0) 0 .POLARITY_NORMAL)
          "SourceADividerSelect" 'x' 20 sync_ones = some (((20 : Nat) : Int), rb, s2) ∧
      route_terminal_current_input_store (terminal_at .srca_rt_desc 0 .POLARITY_NORMAL)
          "ClkIn\n" 'x' 6 s2 = some (((6 : Nat) : Int), ra, s21) ∧
      ra.input.bind deref_input = some e1 ∧ rb.input.bind deref_input = some e2 ∧
      ioread32 reg s12 = ioread32 reg s21 ∧
      s12.dstaractrl1 = s21.dstaractrl1 ∧ s12.dstaractrl2 = s21.dstaractrl2 ∧
      s12.triggerctrl = s21.triggerctrl ∧
      ioread32 reg s12 &&& desc1.dest_data = e1.data ∧
      ioread32 reg s12 &&& desc2.dest_data = e2.data ∧
      desc1.dest_data &&& desc2.dest_data = 0 :=
  ⟨⟨by decide, by decide, by decide, by decide, by decide, by decide⟩,
    shared_updates_commute .srca_rt_desc (.bank_rt_desc 0) (by decide) (by decide) (by decide)
      (by decide) "ClkIn" "SourceADividerSelect" (by decide) (by decide)
      "ClkIn\n" "SourceADividerSelect" (Or.inr rfl) (Or.inl rfl)
      (terminal_at .srca_rt_desc 0 .POLARITY_NORMAL)
      (terminal_at (.bank_rt_desc 0) 0 .POLARITY_NORMAL) rfl rfl 'x' 'x' 6 20 sync_ones⟩

/-! ## Terminals without a `set_input` function -/

theorem plain_select_ok_all : ∀ d ∈ dstara_ptrs, ∀ name ∈ input_names d,
    plain_select_ok d name name = true ∧ plain_select_ok d name (name ++ "\n") = true := by
  decide!

theorem plain_select_ok_sound (d : desc_ptr) (name buf : String)
    (h : plain_select_ok d name buf = true) :
    ∃ desc e j, deref_desc d = some desc ∧ desc.set_input = none ∧
      desc.available_inputs[j]? = some e ∧ e ∈ listed_inputs desc ∧
      input_name e = some name ∧
      ∀ (rt : route_terminal) (before : Char) (count : Nat) (sync : ni_sync),
        rt.rt_desc = some d →
        route_terminal_current_input_store rt buf before count sync =
          some ((count : Int), { rt with input := some ⟨d, j⟩ }, sync) := by
  unfold plain_select_ok at h
  cases hdesc : deref_desc d with
  | none => simp [hdesc] at h
  | some desc =>
    simp only [hdesc, Bool.and_eq_true, decide_eq_true_eq] at h
    obtain ⟨⟨hne, hset⟩, h⟩ := h
    cases hfm : first_match (c_str buf) (compared_len buf 'x') desc.available_inputs 0 with
    | none => simp [hfm] at h
    | some r =>
      cases r with
      | none => simp [hfm] at h
      | some j =>
        simp only [hfm] at h
        cases he : desc.available_inputs[j]? with
        | none => simp [he] at h
        | some e =>
          simp only [he, decide_eq_true_eq] at h
          have hb := first_match_bound _ _ _ _ _ hfm
          have hjl : j < (listed_inputs desc).length := by
            unfold listed_inputs; omega
          have hmem : e ∈ listed_inputs desc := by
            have h1 := takeWhile_getElem? (fun e : route_terminal_input => e.desc.isSome)
              desc.available_inputs j hjl
            rw [he] at h1
            exact List.getElem?_mem h1
          refine ⟨desc, e, j, rfl, hset, he, hmem, h, ?_⟩
          intro rt before count sync hrt
          rw [current_input_store_eq rt buf before count sync d desc hrt hdesc,
            current_input_store_loop_eq, compared_len_of_ne_zero buf before 'x' hne, hfm]
          simp only [set_input_and_update_state, hrt, Option.bind, hdesc, hset]

/-- C11: on every PXIe_DStarA terminal, whose descriptor has no `set_input`
function, a request naming a listed input (bare or followed by a newline)
succeeds, the current input becomes that entry, and the register block is
returned as it was: no register changes and no write is issued. -/
theorem select_without_commit (d : desc_ptr) (hd : d ∈ dstara_ptrs)
    (name : String) (hname : name ∈ input_names d)
    (buf : String) (hbuf : buf = name ∨ buf = name ++ "\n")
    (rt : route_terminal) (hrt : rt.rt_desc = some d)
    (before : Char) (count : Nat) (sync : ni_sync) :
    ∃ desc e rt1,
      deref_desc d = some desc ∧ desc.set_input = none ∧ e ∈ listed_inputs desc ∧
      input_name e = some name ∧
      route_terminal_current_input_store rt buf before count sync =
        some ((count : Int), rt1, sync) ∧
      rt1.input.bind deref_input = some e ∧
      rt1.rt_desc = rt.rt_desc ∧ rt1.polarity = rt.polarity := by
  have hall := plain_select_ok_all d hd name hname
  have hok : plain_select_ok d name buf = true := by
    rcases hbuf with h | h <;> subst h
    · exact hall.1
    · exact hall.2
  obtain ⟨desc, e, j, hdesc, hset, he, hmem, hn, hst⟩ := plain_select_ok_sound d name buf hok
  refine ⟨desc, e, _, hdesc, hset, hmem, hn, hst rt before count sync hrt, ?_, rfl, rfl⟩
  simp [deref_input, hdesc, he]

theorem select_without_commit_witness :
    (desc_ptr.dstara_rt_desc 5 ∈ dstara_ptrs ∧ "Bank1" ∈ input_names (.dstara_rt_desc 5)) ∧
    ∃ desc e rt1,
      deref_desc (.dstara_rt_desc 5) = some desc ∧ desc.set_input = none ∧
      e ∈ listed_inputs desc ∧ input_name e = some "Bank1" ∧
      route_terminal_current_input_store (terminal_at (.dstara_rt_desc 5) 0 .POLARITY_NORMAL)
          "Bank1\n" 'x' 6 sync_ones = some (((6 : Nat) : Int), rt1, sync_ones) ∧
      rt1.input.bind deref_input = some e ∧
      rt1.rt_desc = (terminal_at (.dstara_rt_desc 5) 0 .POLARITY_NORMAL).rt_desc ∧
      rt1.polarity = (terminal_at (.dstara_rt_desc 5) 0 .POLARITY_NORMAL).polarity :=
  ⟨⟨by decide, by decide⟩,
    select_without_commit (.dstara_rt_desc 5) (by decide) "Bank1" (by decide) "Bank1\n"
      (Or.inr rfl) (terminal_at (.dstara_rt_desc 5) 0 .POLARITY_NORMAL) rfl 'x' 6 sync_ones⟩

/-! ## Listing the inputs -/

set_option maxRecDepth 100000 in
theorem listing_ok_all : ∀ d ∈ bringup_terminals, listing_ok d = true := by
  decide!

theorem available_inputs_show_of_desc (rt : route_terminal) (d : desc_ptr)
    (hrt : rt.rt_desc = some d) :
    route_terminal_available_inputs_show rt =
      route_terminal_available_inputs_show (terminal_at d 0 .POLARITY_NORMAL) := by
  simp only [route_terminal_available_inputs_show, hrt, terminal_at]

/-- C12: for every terminal created at bring-up, `available_inputs` produces
the names of the entries of the descriptor's input list in front of the
terminating entry, each once and in declared order, separated by single spaces
and ended by one newline, and returns the length of that text. -/
theorem available_inputs_listing (d : desc_ptr) (hd : d ∈ bringup_terminals)
    (rt : route_terminal) (hrt : rt.rt_desc = some d) :
    ∃ desc, deref_desc d = some desc ∧
      (listed_inputs desc).map input_name = (input_names d).map some ∧
      (input_names d).length = (listed_inputs desc).length ∧
      route_terminal_available_inputs_show rt =
        some ((((" ".intercalate (input_names d)) ++ "\n").length : Int),
          (" ".intercalate (input_names d)) ++ "\n") := by
  have hok := listing_ok_all d hd
  unfold listing_ok at hok
  cases hdesc : deref_desc d with
  | none => simp [hdesc] at hok
  | some desc =>
    simp only [hdesc, Bool.and_eq_true, decide_eq_true_eq] at hok
    refine ⟨desc, rfl, hok.2, ?_, ?_⟩
    · have := congrArg List.length hok.2
      simpa using this.symm
    · rw [available_inputs_show_of_desc rt d hrt]
      exact hok.1

theorem available_inputs_listing_witness :
    desc_ptr.bank_rt_desc 1 ∈ bringup_terminals ∧
    route_terminal_available_inputs_show (terminal_at (.bank_rt_desc 1) 2 .POLARITY_NORMAL) =
      some (51, "floating SourceADividerSelect SourceBDividerSelect\n") ∧
    ∃ desc, deref_desc (.bank_rt_desc 1) = some desc ∧
      (listed_inputs desc).map input_name = (input_names (.bank_rt_desc 1)).map some ∧
      (input_names (.bank_rt_desc 1)).length = (listed_inputs desc).length ∧
      route_terminal_available_inputs_show (terminal_at (.bank_rt_desc 1) 2 .POLARITY_NORMAL) =
        some ((((" ".intercalate (input_names (.bank_rt_desc 1))) ++ "\n").length : Int),
          (" ".intercalate (input_names (.bank_rt_desc 1))) ++ "\n") :=
  ⟨by decide, by decide!,
    available_inputs_listing (.bank_rt_desc 1) (by decide)
      (terminal_at (.bank_rt_desc 1) 2 .POLARITY_NORMAL) rfl⟩

/-! ## Reading the line state -/

theorem and_two_pow_eq_zero_iff (x k : Nat) : x &&& 2 ^ k = 0 ↔ x.testBit k = false := by
  constructor
  · intro h
    have := congrArg (fun y => Nat.testBit y k) h
    simpa [Nat.testBit_and, Nat.testBit_two_pow_self] using this
  · intro h
    apply Nat.eq_of_testBit_eq
    intro i
    rw [Nat.testBit_and, Nat.testBit_two_pow, Nat.zero_testBit]
    by_cases hki : k = i
    · subst hki; simp [h]
    · simp [hki]

theorem u32_two_pow (k : Nat) (hk : k < 32) : u32 (1 <<< k) = 2 ^ k := by
  rw [Nat.one_shiftLeft]
  apply u32_of_lt
  exact Nat.pow_lt_pow_right (by decide) hk

theorem u32_testBit (w k : Nat) (hk : k < 32) : (u32 w).testBit k = w.testBit k := by
  unfold u32
  rw [Nat.testBit_mod_two_pow]
  simp [hk]

theorem snprintf_line_bit :
    snprintf_line PAGE_SIZE (Nat.repr 1) = (2, "1\n") ∧
    snprintf_line PAGE_SIZE (Nat.repr 0) = (2, "0\n") := by
  decide!

/-- The line state shown is bit `lsb % 32` of status word `lsb / 32`, for the
`line_state_bit` member `lsb` of the terminal's descriptor. -/
theorem line_state_show_bit (rt : route_terminal) (sync : ni_sync)
    (desc : route_terminal_desc) (w : Nat)
    (hdesc : rt.rt_desc.bind deref_desc = some desc)
    (hidx : desc.line_state_bit / 32 < 3)
    (hw : sync.trigread[desc.line_state_bit / 32]? = some w) :
    route_terminal_line_state_show rt sync =
      some (2, if w.testBit (desc.line_state_bit % 32) then "1\n" else "0\n") := by
  have hk : desc.line_state_bit % 32 < 32 := Nat.mod_lt _ (by decide)
  unfold route_terminal_line_state_show
  simp only [hdesc, ioread32_trigread, hidx, if_true, hw, Option.map_some', u32_two_pow _ hk]
  cases hb : w.testBit (desc.line_state_bit % 32)
  · have h0 : u32 w &&& 2 ^ (desc.line_state_bit % 32) = 0 := by
      rw [and_two_pow_eq_zero_iff, u32_testBit _ _ hk]; exact hb
    simp [h0, snprintf_line_bit.2]
  · have h1 : u32 w &&& 2 ^ (desc.line_state_bit % 32) ≠ 0 := by
      rw [Ne, and_two_pow_eq_zero_iff, u32_testBit _ _ hk, hb]; simp
    simp [h1, snprintf_line_bit.1]

theorem line_state_bit_ok_all : ∀ d ∈ trigger_terminals, line_state_bit_ok d = true := by
  decide!

/-- C13: for every value of the three status words the line state of a
dedicated-register terminal is shown as "0" or "1" (a return value of 2) and
it is the bit of the first status word that the specification names: bit n
for PXI_Star n, bit 18 + n for PXI_Trig n, bit 26 + n for PFI n; that bit is
bit `b % 32` of word `b / 32` for the descriptor's `line_state_bit` b. -/
theorem line_state_reads_status_bit (d : desc_ptr) (hd : d ∈ trigger_terminals)
    (rt : route_terminal) (hrt : rt.rt_desc = some d) (sync : ni_sync) (w0 w1 w2 : Nat)
    (hw : sync.trigread = [w0, w1, w2]) :
    ∃ desc b, deref_desc d = some desc ∧ line_state_bit_spec d = some b ∧
      desc.line_state_bit = b ∧ b / 32 = 0 ∧ b % 32 = b ∧
      route_terminal_line_state_show rt sync =
        some (2, if w0.testBit b then "1\n" else "0\n") ∧
      (route_terminal_line_state_show rt sync = some (2, "0\n") ∨
        route_terminal_line_state_show rt sync = some (2, "1\n")) := by
  have hok := line_state_bit_ok_all d hd
  unfold line_state_bit_ok at hok
  cases hdesc : deref_desc d with
  | none => simp [hdesc] at hok
  | some desc =>
    cases hb : line_state_bit_spec d with
    | none => simp [hdesc, hb] at hok
    | some b =>
      simp only [hdesc, hb, Bool.and_eq_true, decide_eq_true_eq] at hok
      obtain ⟨hlsb, hlt⟩ := hok
      have hdiv : b / 32 = 0 := Nat.div_eq_of_lt hlt
      have hmod : b % 32 = b := Nat.mod_eq_of_lt hlt
      have hbind : rt.rt_desc.bind deref_desc = some desc := by
        rw [hrt]; exact hdesc
      have hshow := line_state_show_bit rt sync desc w0 hbind
        (by rw [hlsb, hdiv]; decide) (by rw [hlsb, hdiv, hw]; rfl)
      rw [hlsb, hmod] at hshow
      refine ⟨desc, b, rfl, rfl, hlsb, hdiv, hmod, hshow, ?_⟩
      rw [hshow]
      cases w0.testBit b
      · exact Or.inl rfl
      · exact Or.inr rfl

theorem line_state_reads_status_bit_witness :
    desc_ptr.pfi_rt_desc 0 ∈ trigger_terminals ∧
    ∃ desc b, deref_desc (.pfi_rt_desc 0) = some desc ∧
      line_state_bit_spec (.pfi_rt_desc 0) = some b ∧
      desc.line_state_bit = b ∧ b / 32 = 0 ∧ b % 32 = b ∧
      route_terminal_line_state_show (terminal_at (.pfi_rt_desc 0) 0 .POLARITY_NORMAL)
          { sync_zero with trigread := [0x04000000, 0, 0] } =
        some (2, if (0x04000000 : Nat).testBit b then "1\n" else "0\n") ∧
      (route_terminal_line_state_show (terminal_at (.pfi_rt_desc 0) 0 .POLARITY_NORMAL)
          { sync_zero with trigread := [0x04000000, 0, 0] } = some (2, "0\n") ∨
        route_terminal_line_state_show (terminal_at (.pfi_rt_desc 0) 0 .POLARITY_NORMAL)
          { sync_zero with trigread := [0x04000000, 0, 0] } = some (2, "1\n")) :=
  ⟨by decide,
    line_state_reads_status_bit (.pfi_rt_desc 0) (by decide)
      (terminal_at (.pfi_rt_desc 0) 0 .POLARITY_NORMAL) rfl
      { sync_zero with trigread := [0x04000000, 0, 0] } 0x04000000 0 0 rfl⟩

/-! ## Attribute files -/

theorem attrs_ok_all : ∀ d ∈ bringup_terminals, attrs_ok d = true := by
  decide!

theorem not_trigger_of_basic : ∀ d ∈ shared_terminals ++ dstara_ptrs,
    d ∈ bringup_terminals ∧ d ∉ trigger_terminals := by
  decide!

/-- C14: among the terminals created at bring-up the polarity and line-state
attributes exist exactly for the dedicated-register terminals (PXI_Trig, PFI,
PXI_Star).  For a shared-register or PXIe_DStarA terminal a read or a write of
the polarity (or a read of the line state) finds no attribute: no driver
function runs, and terminal and register block stay as they were.  For a
dedicated-register terminal the access reaches the driver's polarity
functions. -/
theorem polarity_only_on_dedicated (d : desc_ptr) (hd : d ∈ bringup_terminals) :
    ∃ kt, bringup_ktype d = some kt ∧
      (route_terminal_attr.polarity ∈ default_attrs kt ↔ d ∈ trigger_terminals) ∧
      (route_terminal_attr.line_state ∈ default_attrs kt ↔ d ∈ trigger_terminals) ∧
      (d ∈ shared_terminals ++ dstara_ptrs →
        ∀ (rt : route_terminal) (buf : String) (before : Char) (count : Nat) (sync : ni_sync),
          sysfs_write kt rt .polarity buf before count sync = .no_such_file rt sync ∧
          sysfs_read kt rt .polarity sync = .no_such_file rt sync ∧
          sysfs_read kt rt .line_state sync = .no_such_file rt sync) ∧
      (d ∈ trigger_terminals →
        ∀ (rt : route_terminal) (buf : String) (before : Char) (count : Nat) (sync : ni_sync),
          sysfs_write kt rt .polarity buf before count sync =
            (match route_terminal_polarity_store rt buf count sync with
              | none => .fault
              | some (r, rt1, sync1) => .performed r rt1 sync1) ∧
          sysfs_read kt rt .polarity sync =
            (match route_terminal_polarity_show rt with
              | none => .fault
              | some r => .performed r rt sync)) := by
  have hok := attrs_ok_all d hd
  unfold attrs_ok at hok
  cases hkt : bringup_ktype d with
  | none => simp [hkt] at hok
  | some kt =>
    simp only [hkt, Bool.and_eq_true, decide_eq_true_eq] at hok
    obtain ⟨⟨⟨hpol, hls⟩, _⟩, _⟩ := hok
    refine ⟨kt, rfl, hpol, hls, ?_, ?_⟩
    · intro hb rt buf before count sync
      have hnt := (not_trigger_of_basic d hb).2
      have h1 : route_terminal_attr.polarity ∉ default_attrs kt := fun h => hnt (hpol.1 h)
      have h2 : route_terminal_attr.line_state ∉ default_attrs kt := fun h => hnt (hls.1 h)
      simp [sysfs_write, sysfs_read, h1, h2]
    · intro ht rt buf before count sync
      have h1 : route_terminal_attr.polarity ∈ default_attrs kt := hpol.2 ht
      simp [sysfs_write, sysfs_read, h1, route_terminal_store, route_terminal_show]

theorem polarity_only_on_dedicated_witness :
    desc_ptr.srca_rt_desc ∈ bringup_terminals ∧
    ∃ kt, bringup_ktype .srca_rt_desc = some kt ∧
      (route_terminal_attr.polarity ∈ default_attrs kt ↔
        desc_ptr.srca_rt_desc ∈ trigger_terminals) ∧
      (route_terminal_attr.line_state ∈ default_attrs kt ↔
        desc_ptr.srca_rt_desc ∈ trigger_terminals) ∧
      (desc_ptr.srca_rt_desc ∈ shared_terminals ++ dstara_ptrs →
        ∀ (rt : route_terminal) (buf : String) (before : Char) (count : Nat) (sync : ni_sync),
          sysfs_write kt rt .polarity buf before count sync = .no_such_file rt sync ∧
          sysfs_read kt rt .polarity sync = .no_such_file rt sync ∧
          sysfs_read kt rt .line_state sync = .no_such_file rt sync) ∧
      (desc_ptr.srca_rt_desc ∈ trigger_terminals →
        ∀ (rt : route_terminal) (buf : String) (before : Char) (count : Nat) (sync : ni_sync),
          sysfs_write kt rt .polarity buf before count sync =
            (match route_terminal_polarity_store rt buf count sync with
              | none => .fault
              | some (r, rt1, sync1) => .performed r rt1 sync1) ∧
          sysfs_read kt rt .polarity sync =
            (match route_terminal_polarity_show rt with
              | none => .fault
              | some r => .performed r rt sync)) :=
  ⟨by decide, polarity_only_on_dedicated .srca_rt_desc (by decide)⟩

/-! ## Configuration load -/

theorem and_flag_eq_zero_iff (s k : Nat) : s &&& (1 <<< k) = 0 ↔ s.testBit k = false := by
  rw [Nat.one_shiftLeft]
  exact and_two_pow_eq_zero_iff s k

theorem ready_iff (s : Nat) :
    s &&& (CE_STATUS_IN_RESET ||| CE_STATUS_IN_WAIT_START) = CE_STATUS_IN_WAIT_START ↔
      (s.testBit 31 = false ∧ s.testBit 24 = true) := by
  have h31 : CE_STATUS_IN_RESET = 2 ^ 31 := by decide
  have h24 : CE_STATUS_IN_WAIT_START = 2 ^ 24 := by decide
  rw [h31, h24]
  constructor
  · intro h
    have a := congrArg (fun y => Nat.testBit y 31) h
    have b := congrArg (fun y => Nat.testBit y 24) h
    simp only [Nat.testBit_and, Nat.testBit_or, Nat.testBit_two_pow] at a b
    simp at a b
    exact ⟨a, b⟩
  · rintro ⟨a, b⟩
    apply Nat.eq_of_testBit_eq
    intro i
    simp only [Nat.testBit_and, Nat.testBit_or, Nat.testBit_two_pow]
    by_cases h1 : 31 = i
    · subst h1; simp [a]
    · by_cases h2 : 24 = i
      · subst h2; simp [b]
      · simp [h1, h2]

theorem await_gen_data_extends (env : load_env) (t n : Nat) (tr : List io_event) :
    ∃ rest, (await_gen_data env t n tr).2.2 = tr ++ rest := by
  induction t generalizing n tr with
  | zero =>
    simp only [await_gen_data]
    split <;> exact ⟨_, rfl⟩
  | succ t ih =>
    simp only [await_gen_data]
    split
    · exact ⟨_, rfl⟩
    · obtain ⟨rest, h⟩ := ih (n + 1) (tr ++ [.ce_read .status (read_status env n)])
      exact ⟨_, by rw [h, List.append_assoc]⟩

theorem stream_words_extends (env : load_env) (r i tmp n : Nat) (tr : List io_event) :
    ∃ rest, (stream_words env r i tmp n tr).2.2.2 = tr ++ rest := by
  induction r generalizing i tmp n tr with
  | zero => exact ⟨[], by simp [stream_words]⟩
  | succ r ih =>
    simp only [stream_words]
    split
    · exact ⟨_, by rw [List.append_assoc]⟩
    · obtain ⟨rest, h⟩ := ih (i + 1) (read_status env n) (n + 1)
        (tr ++ [.ce_write .fifo (cpu_to_be32 (load_u32 env (4 * i)))] ++
          [.ce_read .status (read_status env n)])
      exact ⟨_, by rw [h, List.append_assoc, List.append_assoc]⟩

theorem tail_pad_extends (env : load_env) (i tmp n : Nat) (tr : List io_event) :
    ∃ rest, (tail_pad env i tmp n tr).2.2 = tr ++ rest := by
  unfold tail_pad
  simp only []
  split
  · exact ⟨_, by rw [List.append_assoc]⟩
  · exact ⟨[], by simp⟩

theorem dummy_flush_loop_extends (env : load_env) (t tmp n : Nat) (tr : List io_event) :
    ∃ rest, (dummy_flush_loop env t tmp n tr).2.2.2 = tr ++ rest := by
  induction t generalizing tmp n tr with
  | zero => exact ⟨[], by simp [dummy_flush_loop]⟩
  | succ t ih =>
    simp only [dummy_flush_loop]
    split
    · exact ⟨_, by rw [List.append_assoc]⟩
    · obtain ⟨rest, h⟩ := ih (read_status env n) (n + 1)
        (tr ++ [.ce_write .fifo 0xFFFFFFFF] ++ [.ce_read .status (read_status env n)])
      exact ⟨_, by rw [h, List.append_assoc, List.append_assoc]⟩

theorem download_extends (env : load_env) (timeout n : Nat) (tr : List io_event) :
    ∃ rest, (download env timeout n tr).2.2.2 = tr ++ rest := by
  unfold download
  obtain ⟨r1, h1⟩ := stream_words_extends env (env.image.length / 4) 0 0 n tr
  rcases hs : stream_words env (env.image.length / 4) 0 0 n tr with ⟨i, tmp, n1, tr1⟩
  rw [hs] at h1
  simp only at h1 ⊢
  obtain ⟨r2, h2⟩ := tail_pad_extends env i tmp n1 tr1
  rcases ht : tail_pad env i tmp n1 tr1 with ⟨tmp2, n2, tr2⟩
  rw [ht] at h2
  simp only at h2 ⊢
  unfold dummy_flush
  split
  · obtain ⟨r3, h3⟩ := dummy_flush_loop_extends env 1099 tmp2 n2 tr2
    exact ⟨_, by rw [h3, h2, h1, List.append_assoc, List.append_assoc]⟩
  · exact ⟨_, by simp only []; rw [h2, h1, List.append_assoc]⟩

theorem load_fpga_extends_config (env : load_env) (hfw : env.request_firmware = 0)
    (hmap : env.ioremap_ok = true)
    (hready : read_status env 0 &&& (CE_STATUS_IN_RESET ||| CE_STATUS_IN_WAIT_START) =
      CE_STATUS_IN_WAIT_START) :
    ∃ rest, (ni6674t_load_fpga env).2 = config_trace env (read_status env 0) ++ rest := by
  unfold ni6674t_load_fpga
  simp only [hfw, hmap, ne_eq, not_true_eq_false, if_false, hready, Bool.true_eq_false]
  obtain ⟨r1, h1⟩ := await_gen_data_extends env 99 1 (config_trace env (read_status env 0))
  rcases ha : await_gen_data env 99 1 (config_trace env (read_status env 0)) with ⟨t, n, tr⟩
  rw [ha] at h1
  simp only at h1 ⊢
  by_cases ht : t = 0
  · simp only [ht, if_true]
    exact ⟨r1, h1⟩
  · simp only [ht, if_false]
    obtain ⟨r2, h2⟩ := download_extends env t n tr
    rcases hd : download env t n tr with ⟨t2, tmp, n2, tr2⟩
    rw [hd] at h2
    simp only at h2 ⊢
    split
    · exact ⟨_, by simp only []; rw [h2, h1, List.append_assoc]⟩
    · exact ⟨_, by simp only []; rw [h2, h1, List.append_assoc, List.append_assoc]⟩

/-- C15: with the firmware obtained and the engine registers mapped, the load
goes on to the engine configuration (its trace continues with the FIFO reset
and the other configuration writes) iff the first status read has the
in-reset bit (31) clear and the in-wait-start bit (24) set.  Otherwise it
returns `-EIO` at once: its only accesses are the bridge-window write and
that status read, so no engine register and no FIFO word is written. -/
theorem check_ready_gate (env : load_env) (hfw : env.request_firmware = 0)
    (hmap : env.ioremap_ok = true) :
    (((env.status 0).testBit 31 = false ∧ (env.status 0).testBit 24 = true) →
      ∃ rest, (ni6674t_load_fpga env).2 = config_trace env (read_status env 0) ++ rest) ∧
    (¬((env.status 0).testBit 31 = false ∧ (env.status 0).testBit 24 = true) →
      ni6674t_load_fpga env =
        (- EIO, [.mite_write .iodwbsr (u32 env.bar1 ||| MITE_IODWBSR_WENAB),
          .ce_read .status (read_status env 0)])) ∧
    ((∃ r v, io_event.ce_write r v ∈ (ni6674t_load_fpga env).2) ↔
      ((env.status 0).testBit 31 = false ∧ (env.status 0).testBit 24 = true)) := by
  have hbits : read_status env 0 &&& (CE_STATUS_IN_RESET ||| CE_STATUS_IN_WAIT_START) =
      CE_STATUS_IN_WAIT_START ↔
      ((env.status 0).testBit 31 = false ∧ (env.status 0).testBit 24 = true) := by
    rw [ready_iff, read_status, u32_testBit _ _ (by decide), u32_testBit _ _ (by decide)]
  have hyes : ((env.status 0).testBit 31 = false ∧ (env.status 0).testBit 24 = true) →
      ∃ rest, (ni6674t_load_fpga env).2 = config_trace env (read_status env 0) ++ rest :=
    fun h => load_fpga_extends_config env hfw hmap (hbits.2 h)
  have hno : ¬((env.status 0).testBit 31 = false ∧ (env.status 0).testBit 24 = true) →
      ni6674t_load_fpga env =
        (- EIO, [.mite_write .iodwbsr (u32 env.bar1 ||| MITE_IODWBSR_WENAB),
          .ce_read .status (read_status env 0)]) := by
    intro h
    have hne : ¬(read_status env 0 &&& (CE_STATUS_IN_RESET ||| CE_STATUS_IN_WAIT_START) =
        CE_STATUS_IN_WAIT_START) := fun h2 => h (hbits.1 h2)
    unfold ni6674t_load_fpga
    simp only [hfw, hmap, ne_eq, not_true_eq_false, if_false, hne, not_false_eq_true,
      if_true, Bool.true_eq_false]
  refine ⟨hyes, hno, ?_⟩
  constructor
  · rintro ⟨r, v, hmem⟩
    by_contra hnot
    rw [hno hnot] at hmem
    simp at hmem
  · intro h
    obtain ⟨rest, hrest⟩ := hyes h
    refine ⟨.command, CE_COMMAND_RESET_FIFO, ?_⟩
    rw [hrest]
    simp [config_trace]

theorem check_ready_gate_witness :
    (env_in_reset.request_firmware = 0 ∧ env_in_reset.ioremap_ok = true) ∧
    ni6674t_load_fpga env_in_reset =
      (- EIO, [.mite_write .iodwbsr 0xF0000080, .ce_read .status 0x81000000]) ∧
    (((env_in_reset.status 0).testBit 31 = false ∧
        (env_in_reset.status 0).testBit 24 = true) →
      ∃ rest, (ni6674t_load_fpga env_in_reset).2 =
        config_trace env_in_reset (read_status env_in_reset 0) ++ rest) ∧
    (¬((env_in_reset.status 0).testBit 31 = false ∧
        (env_in_reset.status 0).testBit 24 = true) →
      ni6674t_load_fpga env_in_reset =
        (- EIO, [.mite_write .iodwbsr (u32 env_in_reset.bar1 ||| MITE_IODWBSR_WENAB),
          .ce_read .status (read_status env_in_reset 0)])) ∧
    ((∃ r v, io_event.ce_write r v ∈ (ni6674t_load_fpga env_in_reset).2) ↔
      ((env_in_reset.status 0).testBit 31 = false ∧
        (env_in_reset.status 0).testBit 24 = true)) :=
  ⟨⟨rfl, rfl⟩, by decide!, check_ready_gate env_in_reset rfl rfl⟩

theorem await_gen_data_never (env : load_env) (t n : Nat) (tr : List io_event)
    (h : ∀ k, k ≤ t → read_status env (n + k) &&& CE_STATUS_IN_GEN_DATA = 0) :
    await_gen_data env t n tr =
      (0, n + t + 1,
        tr ++ (List.range (t + 1)).map
          (fun k => io_event.ce_read .status (read_status env (n + k)))) := by
  induction t generalizing n tr with
  | zero =>
    have h0 := h 0 (Nat.le_refl 0)
    simp only [Nat.add_zero] at h0
    simp [await_gen_data, h0, List.range_succ]
  | succ t ih =>
    have h0 := h 0 (Nat.zero_le _)
    simp only [Nat.add_zero] at h0
    have hrest : ∀ k, k ≤ t → read_status env (n + 1 + k) &&& CE_STATUS_IN_GEN_DATA = 0 := by
      intro k hk
      have := h (k + 1) (by omega)
      rw [show n + (k + 1) = n + 1 + k by omega] at this
      exact this
    simp only [await_gen_data, h0, ne_eq, not_true_eq_false, if_false]
    rw [ih (n + 1) _ hrest]
    refine Prod.ext ?_ (Prod.ext ?_ ?_)
    · rfl
    · simp only []; omega
    · simp only [List.append_assoc]
      congr 1
      rw [List.range_succ_eq_map (t + 1)]
      simp only [List.map_cons, List.map_map, Nat.add_zero, List.singleton_append]
      congr 1
      apply List.map_congr_left
      intro k _
      simp only [Function.comp, Nat.succ_eq_add_one]
      rw [show n + 1 + k = n + (k + 1) by omega]

/-- C16 as stated fails: when the engine never reports generating-data the
load returns `-EIO`, the very value it returns for an engine in a wrong state
(the IOError of the state check), not a value of its own. -/
theorem gen_data_timeout_returns_eio :
    (ni6674t_load_fpga env_never_gen).1 = - EIO ∧
    (ni6674t_load_fpga env_never_gen).1 = (ni6674t_load_fpga env_in_reset).1 ∧
    ¬((ni6674t_load_fpga env_never_gen).1 ≠ - EIO ∧ (ni6674t_load_fpga env_never_gen).1 ≠ 0) := by
  refine ⟨by decide!, by decide!, ?_⟩
  intro h
  exact h.1 (by decide!)

/-- C16 amended: if the engine passes the state check and none of the next 100
status reads shows generating-data, the load returns `-EIO` (the code of its
other failures) after exactly those 100 polls; its accesses are the engine
configuration followed by the 100 status reads, so no word is written to the
data FIFO. -/
theorem gen_data_timeout (env : load_env) (hfw : env.request_firmware = 0)
    (hmap : env.ioremap_ok = true)
    (hready : (env.status 0).testBit 31 = false ∧ (env.status 0).testBit 24 = true)
    (hnever : ∀ n, 1 ≤ n → n ≤ 100 → (env.status n).testBit 12 = false) :
    ni6674t_load_fpga env =
      (- EIO, config_trace env (read_status env 0) ++
        (List.range 100).map (fun k => io_event.ce_read .status (read_status env (1 + k)))) ∧
    (∀ v, io_event.ce_write .fifo v ∉ (ni6674t_load_fpga env).2) ∧
    ((ni6674t_load_fpga env).2.filter
      (fun e => match e with | .ce_read .status _ => true | _ => false)).length = 101 := by
  have hbits : read_status env 0 &&& (CE_STATUS_IN_RESET ||| CE_STATUS_IN_WAIT_START) =
      CE_STATUS_IN_WAIT_START := by
    rw [ready_iff, read_status, u32_testBit _ _ (by decide), u32_testBit _ _ (by decide)]
    exact hready
  have hgen : ∀ k, k ≤ 99 → read_status env (1 + k) &&& CE_STATUS_IN_GEN_DATA = 0 := by
    intro k hk
    have h12 : CE_STATUS_IN_GEN_DATA = 1 <<< 12 := rfl
    rw [h12, and_flag_eq_zero_iff, read_status, u32_testBit _ _ (by decide)]
    exact hnever (1 + k) (by omega) (by omega)
  have hrun : ni6674t_load_fpga env =
      (- EIO, config_trace env (read_status env 0) ++
        (List.range 100).map (fun k => io_event.ce_read .status (read_status env (1 + k)))) := by
    unfold ni6674t_load_fpga
    simp only [hfw, hmap, ne_eq, not_true_eq_false, if_false, hbits, Bool.true_eq_false]
    rw [await_gen_data_never env 99 1 _ hgen]
    rfl
  refine ⟨hrun, ?_, ?_⟩
  · intro v hmem
    rw [hrun] at hmem
    simp [config_trace] at hmem
  · rw [hrun]
    simp [config_trace, List.filter_append, List.filter_map, Function.comp_def]

theorem gen_data_timeout_witness :
    (env_never_gen.request_firmware = 0 ∧ env_never_gen.ioremap_ok = true ∧
      ((env_never_gen.status 0).testBit 31 = false ∧
        (env_never_gen.status 0).testBit 24 = true) ∧
      ∀ n, 1 ≤ n → n ≤ 100 → (env_never_gen.status n).testBit 12 = false) ∧
    ni6674t_load_fpga env_never_gen =
      (- EIO, config_trace env_never_gen (read_status env_never_gen 0) ++
        (List.range 100).map
          (fun k => io_event.ce_read .status (read_status env_never_gen (1 + k)))) ∧
    (∀ v, io_event.ce_write .fifo v ∉ (ni6674t_load_fpga env_never_gen).2) ∧
    ((ni6674t_load_fpga env_never_gen).2.filter
      (fun e => match e with | .ce_read .status _ => true | _ => false)).length = 101 :=
  ⟨⟨rfl, rfl, ⟨by decide, by decide⟩,
      fun _ _ _ => show Nat.testBit CE_STATUS_IN_WAIT_START 12 = false from by decide⟩,
    gen_data_timeout env_never_gen rfl rfl ⟨by decide, by decide⟩
      (fun _ _ _ => show Nat.testBit CE_STATUS_IN_WAIT_START 12 = false from by decide)⟩

/-- C17 fails on the nine-byte firmware 1 2 3 4 5 0 0 0 9 when the status read
after the first word shows config-error: the streaming loop stops after word
0 (`0x01020304`), yet the next FIFO write is `0x05000000`, the big-endian
value of image bytes 4..7, that is image word 1.  The run then makes one dummy
write and returns `-EIO`. -/
theorem image_word_written_after_config_error :
    ni6674t_load_fpga env_error_nine_bytes =
      (- EIO, config_trace env_error_nine_bytes CE_STATUS_IN_WAIT_START ++
        [.ce_read .status CE_STATUS_IN_GEN_DATA,
          .ce_write .fifo 0x01020304, .ce_read .status CE_STATUS_CONFIG_ERROR,
          .ce_write .fifo 0x05000000, .ce_read .status CE_STATUS_CONFIG_ERROR,
          .ce_write .fifo 0xFFFFFFFF, .ce_read .status CE_STATUS_CONFIG_ERROR]) ∧
    fifo_writes (ni6674t_load_fpga env_error_nine_bytes).2 =
      [image_word env_error_nine_bytes.image 0, image_word env_error_nine_bytes.image 1,
        0xFFFFFFFF] ∧
    status_reads (ni6674t_load_fpga env_error_nine_bytes).2 =
      [CE_STATUS_IN_WAIT_START, CE_STATUS_IN_GEN_DATA, CE_STATUS_CONFIG_ERROR,
        CE_STATUS_CONFIG_ERROR, CE_STATUS_CONFIG_ERROR] ∧
    CE_STATUS_CONFIG_ERROR &&& CE_STATUS_STOP_DOWNLOAD ≠ 0 := by
  refine ⟨by decide!, by decide!, by decide!, by decide⟩

/-- C19 fails when the status read after the first word shows config-error.
On the six-byte firmware 11 22 33 44 55 66 streaming ends on stop-download,
yet the tail word `0x55660000` is written to the FIFO.  On the ten-byte
firmware 11 .. AA streaming stops early, after word 0 of 2, and the tail-pad
write still happens (with `0x55660000`, cut from word 1).  Either run then
makes one dummy write and returns `-EIO`. -/
theorem tail_word_written_after_config_error :
    ni6674t_load_fpga env_error_six_bytes =
      (- EIO, config_trace env_error_six_bytes CE_STATUS_IN_WAIT_START ++
        [.ce_read .status CE_STATUS_IN_GEN_DATA,
          .ce_write .fifo 0x11223344, .ce_read .status CE_STATUS_CONFIG_ERROR,
          .ce_write .fifo 0x55660000, .ce_read .status CE_STATUS_CONFIG_ERROR,
          .ce_write .fifo 0xFFFFFFFF, .ce_read .status CE_STATUS_CONFIG_ERROR]) ∧
    CE_STATUS_CONFIG_ERROR &&& CE_STATUS_STOP_DOWNLOAD ≠ 0 ∧
    fifo_writes (ni6674t_load_fpga env_error_six_bytes).2 =
      [0x11223344, tail_word env_error_six_bytes.image, 0xFFFFFFFF] ∧
    ni6674t_load_fpga env_error_ten_bytes =
      (- EIO, config_trace env_error_ten_bytes CE_STATUS_IN_WAIT_START ++
        [.ce_read .status CE_STATUS_IN_GEN_DATA,
          .ce_write .fifo 0x11223344, .ce_read .status CE_STATUS_CONFIG_ERROR,
          .ce_write .fifo 0x55660000, .ce_read .status CE_STATUS_CONFIG_ERROR,
          .ce_write .fifo 0xFFFFFFFF, .ce_read .status CE_STATUS_CONFIG_ERROR]) := by
  refine ⟨by decide!, by decide, by decide!, by decide!⟩

theorem or_eq_add_of_dvd (hi lo k : Nat) (hlo : lo < 2 ^ k) (hdvd : 2 ^ k ∣ hi) :
    hi ||| lo = hi + lo := by
  obtain ⟨a, rfl⟩ := hdvd
  exact (Nat.mul_add_lt_is_or hlo a).symm

theorem and_shifted_mask (x m k : Nat) : x &&& (m <<< k) = ((x >>> k) &&& m) <<< k := by
  apply Nat.eq_of_testBit_eq
  intro j
  simp only [Nat.testBit_and, Nat.testBit_shiftLeft, Nat.testBit_shiftRight]
  by_cases h : j ≥ k
  · have : k + (j - k) = j := by omega
    simp [h, this]
  · simp [h]

theorem mask_byte (y : Nat) : y &&& 0xff = y % 256 := by
  have : (0xff : Nat) = 2 ^ 8 - 1 := by decide
  rw [this, Nat.and_pow_two_sub_one_eq_mod]

theorem cpu_to_be32_eq (x : Nat) (hx : x < 4294967296) :
    cpu_to_be32 x =
      (x % 256) * 16777216 + (x / 256 % 256) * 65536 + (x / 65536 % 256) * 256 +
        x / 16777216 := by
  unfold cpu_to_be32
  have m1 : (0x0000ff00 : Nat) = 0xff <<< 8 := by decide
  have m2 : (0x00ff0000 : Nat) = 0xff <<< 16 := by decide
  have m3 : (0xff000000 : Nat) = 0xff <<< 24 := by decide
  rw [m1, m2, m3, and_shifted_mask, and_shifted_mask, and_shifted_mask, mask_byte, mask_byte,
    mask_byte, mask_byte]
  simp only [Nat.shiftLeft_eq, Nat.shiftRight_eq_div_pow]
  norm_num
  have e1 : x / 256 % 256 * 256 * 256 = x / 256 % 256 * 65536 := by omega
  have e2 : x / 65536 % 256 * 65536 / 256 = x / 65536 % 256 * 256 := by omega
  have e3 : x / 16777216 % 256 = x / 16777216 := by omega
  rw [e1, e2, e3]
  have o1 : x % 256 * 16777216 ||| x / 256 % 256 * 65536 =
      x % 256 * 16777216 + x / 256 % 256 * 65536 :=
    or_eq_add_of_dvd _ _ 24 (by omega) (by omega)
  rw [o1]
  have o2 : (x % 256 * 16777216 + x / 256 % 256 * 65536) ||| x / 65536 % 256 * 256 =
      x % 256 * 16777216 + x / 256 % 256 * 65536 + x / 65536 % 256 * 256 :=
    or_eq_add_of_dvd _ _ 16 (by omega) (by omega)
  rw [o2]
  exact or_eq_add_of_dvd _ _ 8 (by omega) (by omega)

theorem be32_eq (a b c d : Nat) (hb : b < 256) (hc : c < 256) (hd : d < 256) :
    be32 a b c d = a * 16777216 + b * 65536 + c * 256 + d := by
  unfold be32
  simp only [Nat.shiftLeft_eq]
  norm_num
  have o1 : a * 16777216 ||| b * 65536 = a * 16777216 + b * 65536 :=
    or_eq_add_of_dvd _ _ 24 (by omega) (by omega)
  rw [o1]
  have o2 : (a * 16777216 + b * 65536) ||| c * 256 = a * 16777216 + b * 65536 + c * 256 :=
    or_eq_add_of_dvd _ _ 16 (by omega) (by omega)
  rw [o2]
  exact or_eq_add_of_dvd _ _ 8 (by omega) (by omega)

theorem byte_at_lt (env : load_env) (k : Nat) : byte_at env k < 256 := by
  unfold byte_at
  split <;> exact Nat.mod_lt _ (by decide)

theorem load_u32_eq (env : load_env) (off : Nat) :
    load_u32 env off =
      byte_at env off + byte_at env (off + 1) * 256 + byte_at env (off + 2) * 65536 +
        byte_at env (off + 3) * 16777216 := by
  have h0 := byte_at_lt env off
  have h1 := byte_at_lt env (off + 1)
  have h2 := byte_at_lt env (off + 2)
  have h3 := byte_at_lt env (off + 3)
  unfold load_u32
  simp only [Nat.shiftLeft_eq]
  norm_num
  have o1 : byte_at env off ||| byte_at env (off + 1) * 256 =
      byte_at env off + byte_at env (off + 1) * 256 := by
    rw [Nat.lor_comm, or_eq_add_of_dvd _ _ 8 (by omega) (by omega)]
    omega
  rw [o1]
  have o2 : (byte_at env off + byte_at env (off + 1) * 256) ||| byte_at env (off + 2) * 65536 =
      byte_at env off + byte_at env (off + 1) * 256 + byte_at env (off + 2) * 65536 := by
    rw [Nat.lor_comm, or_eq_add_of_dvd _ _ 16 (by omega) (by omega)]
    omega
  rw [o2]
  rw [Nat.lor_comm, or_eq_add_of_dvd _ _ 24 (by omega) (by omega)]
  omega

theorem byte_at_image (env : load_env) (k : Nat) (hk : k < env.image.length)
    (hbytes : ∀ b ∈ env.image, b < 256) : byte_at env k = env.image.getD k 0 := by
  unfold byte_at
  rw [if_pos hk]
  apply Nat.mod_eq_of_lt
  rw [List.getD_eq_getElem _ _ hk]
  exact hbytes _ (List.getElem_mem _)

theorem streamed_word_eq (env : load_env) (k : Nat) (hk : 4 * k + 3 < env.image.length)
    (hbytes : ∀ b ∈ env.image, b < 256) :
    cpu_to_be32 (load_u32 env (4 * k)) = image_word env.image k := by
  have h0 := byte_at_lt env (4 * k)
  have h1 := byte_at_lt env (4 * k + 1)
  have h2 := byte_at_lt env (4 * k + 2)
  have h3 := byte_at_lt env (4 * k + 3)
  have e0 := byte_at_image env (4 * k) (by omega) hbytes
  have e1 := byte_at_image env (4 * k + 1) (by omega) hbytes
  have e2 := byte_at_image env (4 * k + 2) (by omega) hbytes
  have e3 := byte_at_image env (4 * k + 3) (by omega) hbytes
  unfold image_word
  rw [← e0, ← e1, ← e2, ← e3, be32_eq _ _ _ _ h1 h2 h3, load_u32_eq,
    cpu_to_be32_eq _ (by omega)]
  omega
theorem tail_bytes_getD (image : List Nat) (q r j : Nat) (hlen : image.length = 4 * q + r) :
    (image.drop (4 * q) ++ List.replicate (4 - r) 0).getD j 0 =
      if j < r then image.getD (4 * q + j) 0 else 0 := by
  have hdrop : (image.drop (4 * q)).length = r := by
    rw [List.length_drop]; omega
  rw [List.getD_eq_getElem?_getD, List.getD_eq_getElem?_getD]
  by_cases hj : j < r
  · rw [if_pos hj, List.getElem?_append_left (by omega), List.getElem?_drop]
  · rw [if_neg hj, List.getElem?_append_right (by omega), List.getElem?_replicate]
    split <;> rfl

theorem tail_word_eq (env : load_env) (q r : Nat) (hlen : env.image.length = 4 * q + r)
    (hr : 1 ≤ r ∧ r ≤ 3) (hbytes : ∀ b ∈ env.image, b < 256) :
    cpu_to_be32 (load_u32 env (4 * q) &&&
        u32 ((1 <<< ((env.image.length &&& 3) * 8)) - 1)) =
      tail_word env.image := by
  have h0 := byte_at_lt env (4 * q)
  have h1 := byte_at_lt env (4 * q + 1)
  have h2 := byte_at_lt env (4 * q + 2)
  have h3 := byte_at_lt env (4 * q + 3)
  have hrem : env.image.length &&& 3 = r := by
    have : (3 : Nat) = 2 ^ 2 - 1 := by decide
    rw [this, Nat.and_pow_two_sub_one_eq_mod]
    omega
  have hmod : env.image.length % 4 = r := by omega
  have hsub : env.image.length - r = 4 * q := by omega
  unfold tail_word
  simp only [hmod, hsub]
  rw [tail_bytes_getD _ q r 0 hlen, tail_bytes_getD _ q r 1 hlen, tail_bytes_getD _ q r 2 hlen,
    tail_bytes_getD _ q r 3 hlen, hrem, load_u32_eq]
  have hcases : r = 1 ∨ r = 2 ∨ r = 3 := by omega
  rcases hcases with h | h | h
  · subst h
    have e0 := byte_at_image env (4 * q) (by omega) hbytes
    have hm : u32 ((1 <<< (1 * 8)) - 1) = 2 ^ 8 - 1 := by decide
    rw [hm, Nat.and_pow_two_sub_one_eq_mod]
    simp only [Nat.add_zero, Nat.lt_irrefl, if_false, Nat.zero_lt_one, if_true,
      show ¬ (2 < 1) by decide, show ¬ (3 < 1) by decide]
    rw [← e0, be32_eq _ _ _ _ (by decide) (by decide) (by decide),
      cpu_to_be32_eq _ (by omega)]
    omega
  · subst h
    have e0 := byte_at_image env (4 * q) (by omega) hbytes
    have e1 := byte_at_image env (4 * q + 1) (by omega) hbytes
    have hm : u32 ((1 <<< (2 * 8)) - 1) = 2 ^ 16 - 1 := by decide
    rw [hm, Nat.and_pow_two_sub_one_eq_mod]
    simp only [Nat.add_zero, Nat.lt_irrefl, if_false, show (0 < 2) by decide,
      show (1 < 2) by decide, if_true, show ¬ (3 < 2) by decide]
    rw [← e0, ← e1, be32_eq _ _ _ _ h1 (by decide) (by decide),
      cpu_to_be32_eq _ (by omega)]
    omega
  · subst h
    have e0 := byte_at_image env (4 * q) (by omega) hbytes
    have e1 := byte_at_image env (4 * q + 1) (by omega) hbytes
    have e2 := byte_at_image env (4 * q + 2) (by omega) hbytes
    have hm : u32 ((1 <<< (3 * 8)) - 1) = 2 ^ 24 - 1 := by decide
    rw [hm, Nat.and_pow_two_sub_one_eq_mod]
    simp only [Nat.add_zero, Nat.lt_irrefl, if_false, show (0 < 3) by decide,
      show (1 < 3) by decide, show (2 < 3) by decide, if_true]
    rw [← e0, ← e1, ← e2, be32_eq _ _ _ _ h1 h2 (by decide),
      cpu_to_be32_eq _ (by omega)]
    omega
theorem await_gen_data_found (env : load_env) (m t n : Nat) (tr : List io_event)
    (hm : m ≤ t)
    (hfirst : ∀ k, k < m → read_status env (n + k) &&& CE_STATUS_IN_GEN_DATA = 0)
    (hgen : read_status env (n + m) &&& CE_STATUS_IN_GEN_DATA ≠ 0) :
    await_gen_data env t n tr =
      (t + 1 - m, n + m + 1,
        tr ++ (List.range (m + 1)).map
          (fun k => io_event.ce_read .status (read_status env (n + k)))) := by
  induction m generalizing t n tr with
  | zero =>
    simp only [Nat.add_zero] at hgen
    cases t with
    | zero => simp [await_gen_data, hgen, List.range_succ]
    | succ t => simp [await_gen_data, hgen, List.range_succ]
  | succ m ih =>
    cases t with
    | zero => omega
    | succ t =>
      have h0 := hfirst 0 (Nat.succ_pos m)
      simp only [Nat.add_zero] at h0
      have hrest : ∀ k, k < m →
          read_status env (n + 1 + k) &&& CE_STATUS_IN_GEN_DATA = 0 := by
        intro k hk
        have := hfirst (k + 1) (by omega)
        rw [show n + (k + 1) = n + 1 + k by omega] at this
        exact this
      have hgen2 : read_status env (n + 1 + m) &&& CE_STATUS_IN_GEN_DATA ≠ 0 := by
        rw [show n + 1 + m = n + (m + 1) by omega]
        exact hgen
      simp only [await_gen_data, h0, ne_eq, not_true_eq_false, if_false]
      rw [ih t (n + 1) _ (by omega) hrest hgen2]
      refine Prod.ext ?_ (Prod.ext ?_ ?_)
      · simp only []; omega
      · simp only []; omega
      · simp only [List.append_assoc]
        congr 1
        rw [List.range_succ_eq_map (m + 1)]
        simp only [List.map_cons, List.map_map, Nat.add_zero, List.singleton_append]
        congr 1
        apply List.map_congr_left
        intro k _
        simp only [Function.comp, Nat.succ_eq_add_one]
        rw [show n + 1 + k = n + (k + 1) by omega]

theorem fifo_writes_append (a b : List io_event) :
    fifo_writes (a ++ b) = fifo_writes a ++ fifo_writes b := by
  simp [fifo_writes, List.filterMap_append]

theorem status_reads_append (a b : List io_event) :
    status_reads (a ++ b) = status_reads a ++ status_reads b := by
  simp [status_reads, List.filterMap_append]

theorem fifo_writes_gen_data_trace (env : load_env) (m : Nat) :
    fifo_writes (gen_data_trace env m) = [] := by
  unfold gen_data_trace
  rw [fifo_writes_append]
  have h1 : fifo_writes (config_trace env (read_status env 0)) = [] := by
    simp [fifo_writes, config_trace, fifo_value]
  have h2 : fifo_writes ((List.range (m + 1)).map
      (fun k => io_event.ce_read .status (read_status env (1 + k)))) = [] := by
    simp [fifo_writes, List.filterMap_map, Function.comp_def, fifo_value]
  rw [h1, h2]
  rfl

theorem fifo_writes_fifo (v : Nat) : fifo_writes [.ce_write .fifo v] = [v] := rfl

theorem fifo_writes_status (s : Nat) : fifo_writes [.ce_read .status s] = [] := rfl

theorem stream_words_no_stop (env : load_env) (r i tmp n : Nat) (tr : List io_event)
    (h : ∀ k, k < r → read_status env (n + k) &&& CE_STATUS_STOP_DOWNLOAD = 0) :
    ∃ tmp1 tr1,
      stream_words env r i tmp n tr = (i + r, tmp1, n + r, tr1) ∧
      (tmp1 &&& CE_STATUS_STOP_DOWNLOAD = 0 ∨ tmp1 = tmp) ∧
      fifo_writes tr1 = fifo_writes tr ++
        (List.range r).map (fun k => cpu_to_be32 (load_u32 env (4 * (i + k)))) := by
  induction r generalizing i tmp n tr with
  | zero => exact ⟨tmp, tr, rfl, Or.inr rfl, by simp⟩
  | succ r ih =>
    have h0 := h 0 (Nat.succ_pos r)
    simp only [Nat.add_zero] at h0
    have hrest : ∀ k, k < r →
        read_status env (n + 1 + k) &&& CE_STATUS_STOP_DOWNLOAD = 0 := by
      intro k hk
      have := h (k + 1) (by omega)
      rw [show n + (k + 1) = n + 1 + k by omega] at this
      exact this
    obtain ⟨tmp1, tr1, hrun, htmp, hfifo⟩ := ih (i + 1) (read_status env n) (n + 1)
      (tr ++ [.ce_write .fifo (cpu_to_be32 (load_u32 env (4 * i)))] ++
        [.ce_read .status (read_status env n)]) hrest
    refine ⟨tmp1, tr1, ?_, ?_, ?_⟩
    · simp only [stream_words, h0, ne_eq, not_true_eq_false, if_false]
      rw [hrun]
      refine Prod.ext ?_ (Prod.ext rfl (Prod.ext ?_ rfl))
      · simp only []; omega
      · simp only []; omega
    · rcases htmp with h1 | h1
      · exact Or.inl h1
      · exact Or.inl (h1 ▸ h0)
    · have hmap : (List.range r).map
          (fun k => cpu_to_be32 (load_u32 env (4 * (i + 1 + k)))) =
          (List.range r).map
            ((fun k => cpu_to_be32 (load_u32 env (4 * (i + k)))) ∘ Nat.succ) := by
        apply List.map_congr_left
        intro k _
        simp only [Function.comp, Nat.succ_eq_add_one]
        rw [show i + 1 + k = i + (k + 1) by omega]
      rw [hfifo, hmap, fifo_writes_append, fifo_writes_append, fifo_writes_fifo,
        fifo_writes_status, List.range_succ_eq_map, List.map_cons, List.map_map,
        List.append_nil, List.append_assoc, Nat.add_zero]
      rfl
theorem dummy_flush_extends (env : load_env) (t tmp n : Nat) (tr : List io_event) :
    ∃ rest, (dummy_flush env t tmp n tr).2.2.2 = tr ++ rest := by
  unfold dummy_flush
  split
  · exact dummy_flush_loop_extends env 1099 tmp n tr
  · exact ⟨[], by simp⟩
theorem lor_eq_zero_iff (x y : Nat) : x ||| y = 0 ↔ x = 0 ∧ y = 0 := by
  constructor
  · intro h
    have hb : ∀ i, (x.testBit i || y.testBit i) = false := by
      intro i
      rw [← Nat.testBit_or, h, Nat.zero_testBit]
    constructor
    · apply Nat.eq_of_testBit_eq
      intro i
      have := hb i
      rw [Nat.zero_testBit]
      cases hx : x.testBit i
      · rfl
      · rw [hx] at this; simp at this
    · apply Nat.eq_of_testBit_eq
      intro i
      have := hb i
      rw [Nat.zero_testBit]
      cases hy : y.testBit i
      · rfl
      · rw [hy] at this; simp at this
  · rintro ⟨rfl, rfl⟩
    rfl

theorem stop_download_eq_zero_iff (s : Nat) :
    s &&& CE_STATUS_STOP_DOWNLOAD = 0 ↔ s.testBit 6 = false ∧ s.testBit 4 = false := by
  have h : CE_STATUS_STOP_DOWNLOAD = (1 <<< 4) ||| (1 <<< 6) := rfl
  rw [h, Nat.and_or_distrib_left, lor_eq_zero_iff, and_flag_eq_zero_iff,
    and_flag_eq_zero_iff]
  exact And.comm

theorem flag_ne_zero_iff (s k : Nat) : s &&& (1 <<< k) ≠ 0 ↔ s.testBit k = true := by
  rw [ne_eq, and_flag_eq_zero_iff]
  cases s.testBit k <;> simp

/-- The run of `ni6674t_load_fpga` once generating-data is seen at poll `m`:
the download starts with `timeout = 100 - m` after `m + 2` status reads, and
the result is decided by the final `timeout` and `tmp`. -/
theorem load_fpga_after_gen_data (env : load_env) (hfw : env.request_firmware = 0)
    (hmap : env.ioremap_ok = true)
    (hready : (env.status 0).testBit 31 = false ∧ (env.status 0).testBit 24 = true)
    (m : Nat) (hm : m < 100)
    (hfirst : ∀ k, k < m → (env.status (1 + k)).testBit 12 = false)
    (hgen : (env.status (1 + m)).testBit 12 = true) :
    ni6674t_load_fpga env =
      if (download env (100 - m) (m + 2) (gen_data_trace env m)).1 = 0 ∨
          (download env (100 - m) (m + 2) (gen_data_trace env m)).2.1 &&&
            CE_STATUS_CONFIG_ERROR ≠ 0 then
        (- EIO, (download env (100 - m) (m + 2) (gen_data_trace env m)).2.2.2)
      else
        (0, (download env (100 - m) (m + 2) (gen_data_trace env m)).2.2.2 ++
          window_trace env) := by
  have hbits : read_status env 0 &&& (CE_STATUS_IN_RESET ||| CE_STATUS_IN_WAIT_START) =
      CE_STATUS_IN_WAIT_START := by
    rw [ready_iff, read_status, u32_testBit _ _ (by decide), u32_testBit _ _ (by decide)]
    exact hready
  have h12 : CE_STATUS_IN_GEN_DATA = 1 <<< 12 := rfl
  have hfirst2 : ∀ k, k < m → read_status env (1 + k) &&& CE_STATUS_IN_GEN_DATA = 0 := by
    intro k hk
    rw [h12, and_flag_eq_zero_iff, read_status, u32_testBit _ _ (by decide)]
    exact hfirst k hk
  have hgen2 : read_status env (1 + m) &&& CE_STATUS_IN_GEN_DATA ≠ 0 := by
    rw [h12, flag_ne_zero_iff, read_status, u32_testBit _ _ (by decide)]
    exact hgen
  have ht : ¬(99 + 1 - m = 0) := by omega
  unfold ni6674t_load_fpga
  simp only [hfw, hmap, ne_eq, not_true_eq_false, if_false, hbits, Bool.true_eq_false]
  rw [await_gen_data_found env m 99 1 _ (by omega) hfirst2 hgen2]
  simp only [ht, if_false]
  rw [show 99 + 1 - m = 100 - m by omega, show 1 + m + 1 = m + 2 by omega]
  rfl

theorem download_full_stream (env : load_env) (t n : Nat) (tr : List io_event)
    (q r : Nat) (hlen : env.image.length = 4 * q + r) (hr : 1 ≤ r ∧ r ≤ 3)
    (hbytes : ∀ b ∈ env.image, b < 256)
    (hnostop : ∀ k, k < q → read_status env (n + k) &&& CE_STATUS_STOP_DOWNLOAD = 0) :
    ∃ rest, fifo_writes (download env t n tr).2.2.2 =
      fifo_writes tr ++ (List.range q).map (image_word env.image) ++
        tail_word env.image :: rest := by
  have hq : env.image.length / 4 = q := by omega
  obtain ⟨tmp1, tr1, hrun, htmp, hfifo⟩ := stream_words_no_stop env q 0 0 n tr hnostop
  have hdone : tmp1 &&& CE_STATUS_CONFIG_DONE = 0 := by
    have h6 : CE_STATUS_CONFIG_DONE = 1 <<< 6 := rfl
    rcases htmp with h | h
    · rw [h6, and_flag_eq_zero_iff]
      exact ((stop_download_eq_zero_iff tmp1).1 h).1
    · rw [h]; rfl
  have hrem : env.image.length &&& 3 ≠ 0 := by
    have : (3 : Nat) = 2 ^ 2 - 1 := by decide
    rw [this, Nat.and_pow_two_sub_one_eq_mod]
    omega
  have hwords : (List.range q).map (fun k => cpu_to_be32 (load_u32 env (4 * (0 + k)))) =
      (List.range q).map (image_word env.image) := by
    apply List.map_congr_left
    intro k hk
    rw [Nat.zero_add]
    exact streamed_word_eq env k (by have := List.mem_range.1 hk; omega) hbytes
  rw [hwords] at hfifo
  unfold download
  rw [hq, hrun]
  simp only [Nat.zero_add]
  unfold tail_pad
  simp only [hdone, hrem, ne_eq, not_false_eq_true, and_self, if_true]
  obtain ⟨rest, hrest⟩ := dummy_flush_extends env t (read_status env (n + q)) (n + q + 1)
    (tr1 ++ [.ce_write .fifo (cpu_to_be32 (load_u32 env (4 * q) &&&
      u32 ((1 <<< ((env.image.length &&& 3) * 8)) - 1)))] ++
      [.ce_read .status (read_status env (n + q))])
  refine ⟨fifo_writes rest, ?_⟩
  rw [hrest, fifo_writes_append, fifo_writes_append, fifo_writes_append, hfifo,
    fifo_writes_fifo, fifo_writes_status, tail_word_eq env q r hlen hr hbytes]
  simp only [List.append_assoc, List.append_nil, List.singleton_append, List.nil_append]
theorem fifo_writes_window_trace (env : load_env) : fifo_writes (window_trace env) = [] := rfl

/-- C18: let the engine pass the state check and show generating-data at poll
`m`, and let the image (of bytes) have length `4q + r` with `r` in 1..3.  If
none of the `q` status reads of the streaming loop shows config-done or
config-error, the FIFO receives the `q` big-endian image words and next the
tail word: the last `r` image bytes followed by `4 - r` zero bytes, read
big-endian.  For a six-byte image that is `b[4] << 24 | b[5] << 16`. -/
theorem tail_word_after_full_stream (env : load_env) (hfw : env.request_firmware = 0)
    (hmap : env.ioremap_ok = true)
    (hready : (env.status 0).testBit 31 = false ∧ (env.status 0).testBit 24 = true)
    (m : Nat) (hm : m < 100)
    (hfirst : ∀ k, k < m → (env.status (1 + k)).testBit 12 = false)
    (hgen : (env.status (1 + m)).testBit 12 = true)
    (q r : Nat) (hlen : env.image.length = 4 * q + r) (hr : 1 ≤ r ∧ r ≤ 3)
    (hbytes : ∀ b ∈ env.image, b < 256)
    (hnostop : ∀ k, k < q →
      (env.status (m + 2 + k)).testBit 6 = false ∧
        (env.status (m + 2 + k)).testBit 4 = false) :
    (∃ rest, fifo_writes (ni6674t_load_fpga env).2 =
      (List.range q).map (image_word env.image) ++ tail_word env.image :: rest) ∧
    (∀ b0 b1 b2 b3 b4 b5, env.image = [b0, b1, b2, b3, b4, b5] →
      tail_word env.image = b4 <<< 24 ||| b5 <<< 16) := by
  constructor
  · have hns : ∀ k, k < q →
        read_status env (m + 2 + k) &&& CE_STATUS_STOP_DOWNLOAD = 0 := by
      intro k hk
      rw [stop_download_eq_zero_iff, read_status, u32_testBit _ _ (by decide),
        u32_testBit _ _ (by decide)]
      exact hnostop k hk
    obtain ⟨rest, hrest⟩ := download_full_stream env (100 - m) (m + 2)
      (gen_data_trace env m) q r hlen hr hbytes hns
    rw [fifo_writes_gen_data_trace, List.nil_append] at hrest
    rw [load_fpga_after_gen_data env hfw hmap hready m hm hfirst hgen]
    split
    · exact ⟨rest, hrest⟩
    · refine ⟨rest, ?_⟩
      simp only []
      rw [fifo_writes_append, fifo_writes_window_trace, List.append_nil]
      exact hrest
  · intro b0 b1 b2 b3 b4 b5 h
    rw [h]
    simp [tail_word, be32]

theorem tail_word_after_full_stream_witness :
    (env_done_after_tail.request_firmware = 0 ∧ env_done_after_tail.ioremap_ok = true ∧
      ((env_done_after_tail.status 0).testBit 31 = false ∧
        (env_done_after_tail.status 0).testBit 24 = true) ∧
      (env_done_after_tail.status (1 + 0)).testBit 12 = true ∧
      env_done_after_tail.image.length = 4 * 1 + 2 ∧
      (∀ b ∈ env_done_after_tail.image, b < 256) ∧
      (env_done_after_tail.status (0 + 2 + 0)).testBit 6 = false ∧
      (env_done_after_tail.status (0 + 2 + 0)).testBit 4 = false) ∧
    ni6674t_load_fpga env_done_after_tail =
      (0, config_trace env_done_after_tail CE_STATUS_IN_WAIT_START ++
        [.ce_read .status CE_STATUS_IN_GEN_DATA,
          .ce_write .fifo 0x11223344, .ce_read .status 0,
          .ce_write .fifo 0x55660000, .ce_read .status CE_STATUS_CONFIG_DONE] ++
        window_trace env_done_after_tail) ∧
    ((∃ rest, fifo_writes (ni6674t_load_fpga env_done_after_tail).2 =
      (List.range 1).map (image_word env_done_after_tail.image) ++
        tail_word env_done_after_tail.image :: rest) ∧
    (∀ b0 b1 b2 b3 b4 b5, env_done_after_tail.image = [b0, b1, b2, b3, b4, b5] →
      tail_word env_done_after_tail.image = b4 <<< 24 ||| b5 <<< 16)) :=
  ⟨⟨rfl, rfl, ⟨by decide, by decide⟩, by decide, rfl, by decide, by decide, by decide⟩,
    by decide!,
    tail_word_after_full_stream env_done_after_tail rfl rfl ⟨by decide, by decide⟩ 0
      (by decide) (fun _ hk => absurd hk (Nat.not_lt_zero _)) (by decide) 1 2 rfl
      ⟨by decide, by decide⟩ (by decide)
      (fun k hk => by
        have hk0 : k = 0 := by omega
        subst hk0
        exact ⟨by decide, by decide⟩)⟩

theorem status_reads_write_read (tr : List io_event) (v s : Nat) :
    (status_reads (tr ++ [.ce_write .fifo v] ++ [.ce_read .status s])).getLast? = some s := by
  rw [status_reads_append, status_reads_append]
  have h1 : status_reads [.ce_write .fifo v] = [] := rfl
  have h2 : status_reads [.ce_read .status s] = [s] := rfl
  rw [h1, h2, List.append_nil, List.getLast?_concat]

theorem stream_words_last (env : load_env) (r i tmp n : Nat) (tr : List io_event) :
    ((stream_words env r i tmp n tr).2.1 = tmp ∧
      (stream_words env r i tmp n tr).2.2.2 = tr) ∨
    (status_reads (stream_words env r i tmp n tr).2.2.2).getLast? =
      some (stream_words env r i tmp n tr).2.1 := by
  induction r generalizing i tmp n tr with
  | zero => exact Or.inl ⟨rfl, rfl⟩
  | succ r ih =>
    right
    simp only [stream_words]
    split
    · exact status_reads_write_read _ _ _
    · rcases ih (i + 1) (read_status env n) (n + 1)
        (tr ++ [.ce_write .fifo (cpu_to_be32 (load_u32 env (4 * i)))] ++
          [.ce_read .status (read_status env n)]) with h | h
      · rw [h.1, h.2]
        exact status_reads_write_read _ _ _
      · exact h

theorem tail_pad_last (env : load_env) (i tmp n : Nat) (tr : List io_event) :
    ((tail_pad env i tmp n tr).1 = tmp ∧ (tail_pad env i tmp n tr).2.2 = tr) ∨
    (status_reads (tail_pad env i tmp n tr).2.2).getLast? =
      some (tail_pad env i tmp n tr).1 := by
  unfold tail_pad
  simp only []
  split
  · right
    exact status_reads_write_read _ _ _
  · exact Or.inl ⟨rfl, rfl⟩

theorem dummy_flush_loop_final (env : load_env) (t tmp n : Nat) (tr : List io_event) :
    (status_reads (dummy_flush_loop env (t + 1) tmp n tr).2.2.2).getLast? =
      some (dummy_flush_loop env (t + 1) tmp n tr).2.1 ∧
    ((dummy_flush_loop env (t + 1) tmp n tr).1 ≠ 0 →
      (dummy_flush_loop env (t + 1) tmp n tr).2.1 &&& CE_STATUS_STOP_DOWNLOAD ≠ 0) ∧
    ((dummy_flush_loop env (t + 1) tmp n tr).1 = 0 →
      (dummy_flush_loop env (t + 1) tmp n tr).2.1 &&& CE_STATUS_STOP_DOWNLOAD = 0) := by
  induction t generalizing tmp n tr with
  | zero =>
    simp only [dummy_flush_loop]
    split
    · rename_i h
      exact ⟨status_reads_write_read _ _ _, fun _ => h, fun h0 => absurd h0 (Nat.succ_ne_zero 0)⟩
    · rename_i h
      exact ⟨status_reads_write_read _ _ _, fun h0 => absurd rfl h0,
        fun _ => Decidable.of_not_not h⟩
  | succ t ih =>
    rw [dummy_flush_loop]
    split
    · rename_i h
      exact ⟨status_reads_write_read _ _ _, fun _ => h,
        fun h0 => absurd h0 (Nat.succ_ne_zero _)⟩
    · exact ih _ _ _

theorem done_imp_stop (s : Nat) (h : s &&& CE_STATUS_CONFIG_DONE ≠ 0) :
    s &&& CE_STATUS_STOP_DOWNLOAD ≠ 0 := by
  have h6 : CE_STATUS_CONFIG_DONE = 1 <<< 6 := rfl
  rw [h6, flag_ne_zero_iff] at h
  intro h0
  rw [stop_download_eq_zero_iff] at h0
  rw [h0.1] at h
  exact Bool.noConfusion h

/-- At the end of the download the variable `tmp` holds the last status value
read, and `timeout` is non-zero exactly when that value shows config-done or
config-error. -/
theorem download_final (env : load_env) (timeout n : Nat) (tr : List io_event)
    (ht : timeout ≠ 0) :
    (status_reads (download env timeout n tr).2.2.2).getLast? =
      some (download env timeout n tr).2.1 ∧
    ((download env timeout n tr).1 ≠ 0 →
      (download env timeout n tr).2.1 &&& CE_STATUS_STOP_DOWNLOAD ≠ 0) ∧
    ((download env timeout n tr).1 = 0 →
      (download env timeout n tr).2.1 &&& CE_STATUS_STOP_DOWNLOAD = 0) := by
  unfold download
  have hs := stream_words_last env (env.image.length / 4) 0 0 n tr
  rcases hrun : stream_words env (env.image.length / 4) 0 0 n tr with ⟨i, tmp, n1, tr1⟩
  rw [hrun] at hs
  simp only at hs ⊢
  have hp := tail_pad_last env i tmp n1 tr1
  rcases hpad : tail_pad env i tmp n1 tr1 with ⟨tmp2, n2, tr2⟩
  rw [hpad] at hp
  simp only at hp ⊢
  unfold dummy_flush
  split
  · exact dummy_flush_loop_final env 1098 tmp2 n2 tr2
  · rename_i hdone
    simp only []
    refine ⟨?_, fun _ => done_imp_stop tmp2 hdone, fun h0 => absurd h0 ht⟩
    rcases hp with ⟨hp1, hp2⟩ | hp
    · rcases hs with ⟨hs1, _⟩ | hs
      · exfalso
        apply hdone
        rw [hp1, hs1]
        rfl
      · rw [hp1, hp2]
        exact hs
    · exact hp
theorem status_reads_window_trace (env : load_env) : status_reads (window_trace env) = [] := rfl

/-- C20: for a run that passes the state check and sees generating-data at
poll `m`, the load returns 0 iff the last status value it read has config-done
(bit 6) set and config-error (bit 4) clear and the counter of the dummy-write
loop was not used up; every other run returns `-EIO`.  A used-up counter
leaves a last status value with neither bit set. -/
theorem load_success_iff (env : load_env) (hfw : env.request_firmware = 0)
    (hmap : env.ioremap_ok = true)
    (hready : (env.status 0).testBit 31 = false ∧ (env.status 0).testBit 24 = true)
    (m : Nat) (hm : m < 100)
    (hfirst : ∀ k, k < m → (env.status (1 + k)).testBit 12 = false)
    (hgen : (env.status (1 + m)).testBit 12 = true) :
    ((ni6674t_load_fpga env).1 = 0 ↔
      (∃ s, (status_reads (ni6674t_load_fpga env).2).getLast? = some s ∧
        s.testBit 6 = true ∧ s.testBit 4 = false) ∧ final_timeout env m ≠ 0) ∧
    ((ni6674t_load_fpga env).1 ≠ 0 → (ni6674t_load_fpga env).1 = - EIO) ∧
    (final_timeout env m = 0 →
      ∃ s, (status_reads (ni6674t_load_fpga env).2).getLast? = some s ∧
        s.testBit 6 = false ∧ s.testBit 4 = false) := by
  have hrun := load_fpga_after_gen_data env hfw hmap hready m hm hfirst hgen
  obtain ⟨hlast, hstop, hnostop⟩ :=
    download_final env (100 - m) (m + 2) (gen_data_trace env m) (by omega)
  have h4 : CE_STATUS_CONFIG_ERROR = 1 <<< 4 := rfl
  unfold final_timeout
  by_cases hc : (download env (100 - m) (m + 2) (gen_data_trace env m)).1 = 0 ∨
      (download env (100 - m) (m + 2) (gen_data_trace env m)).2.1 &&&
        CE_STATUS_CONFIG_ERROR ≠ 0
  · rw [if_pos hc] at hrun
    rw [hrun]
    have hne : ¬((- EIO : Int) = 0) := by decide
    refine ⟨⟨fun h => absurd h hne, ?_⟩, fun _ => rfl, ?_⟩
    · rintro ⟨⟨s, hs, _, hs4⟩, ht⟩
      exfalso
      simp only [] at hs
      rw [hlast] at hs
      have hs2 := Option.some.inj hs
      rcases hc with h | h
      · exact ht h
      · rw [h4, flag_ne_zero_iff, hs2, hs4] at h
        exact Bool.noConfusion h
    · intro ht
      have h0 := (stop_download_eq_zero_iff _).1 (hnostop ht)
      exact ⟨_, hlast, h0.1, h0.2⟩
  · rw [if_neg hc] at hrun
    rw [hrun]
    have ht : (download env (100 - m) (m + 2) (gen_data_trace env m)).1 ≠ 0 :=
      fun h => hc (Or.inl h)
    have herr : ((download env (100 - m) (m + 2) (gen_data_trace env m)).2.1).testBit 4 =
        false := by
      rw [← and_flag_eq_zero_iff, ← h4]
      exact Decidable.of_not_not (fun h => hc (Or.inr h))
    have hdone : ((download env (100 - m) (m + 2) (gen_data_trace env m)).2.1).testBit 6 =
        true := by
      cases h6 : ((download env (100 - m) (m + 2) (gen_data_trace env m)).2.1).testBit 6
      · exact absurd ((stop_download_eq_zero_iff _).2 ⟨h6, herr⟩) (hstop ht)
      · rfl
    have hlast2 : (status_reads ((download env (100 - m) (m + 2)
        (gen_data_trace env m)).2.2.2 ++ window_trace env)).getLast? =
        some (download env (100 - m) (m + 2) (gen_data_trace env m)).2.1 := by
      rw [status_reads_append, status_reads_window_trace, List.append_nil]
      exact hlast
    refine ⟨⟨fun _ => ⟨⟨_, hlast2, hdone, herr⟩, ht⟩, fun _ => rfl⟩,
      fun h => absurd rfl h, fun h => absurd h ht⟩

theorem load_success_iff_witness :
    (env_done_after_tail.request_firmware = 0 ∧ env_done_after_tail.ioremap_ok = true ∧
      ((env_done_after_tail.status 0).testBit 31 = false ∧
        (env_done_after_tail.status 0).testBit 24 = true) ∧
      (env_done_after_tail.status (1 + 0)).testBit 12 = true) ∧
    (ni6674t_load_fpga env_done_after_tail).1 = 0 ∧
    status_reads (ni6674t_load_fpga env_done_after_tail).2 =
      [CE_STATUS_IN_WAIT_START, CE_STATUS_IN_GEN_DATA, 0, CE_STATUS_CONFIG_DONE] ∧
    (((ni6674t_load_fpga env_done_after_tail).1 = 0 ↔
      (∃ s, (status_reads (ni6674t_load_fpga env_done_after_tail).2).getLast? = some s ∧
        s.testBit 6 = true ∧ s.testBit 4 = false) ∧
        final_timeout env_done_after_tail 0 ≠ 0) ∧
    ((ni6674t_load_fpga env_done_after_tail).1 ≠ 0 →
      (ni6674t_load_fpga env_done_after_tail).1 = - EIO) ∧
    (final_timeout env_done_after_tail 0 = 0 →
      ∃ s, (status_reads (ni6674t_load_fpga env_done_after_tail).2).getLast? = some s ∧
        s.testBit 6 = false ∧ s.testBit 4 = false)) :=
  ⟨⟨rfl, rfl, ⟨by decide, by decide⟩, by decide⟩, by decide!, by decide!,
    load_success_iff env_done_after_tail rfl rfl ⟨by decide, by decide⟩ 0 (by decide)
      (fun _ hk => absurd hk (Nat.not_lt_zero _)) (by decide)⟩

theorem await_gen_data_polls (env : load_env) (t n : Nat) (tr : List io_event) :
    ∃ k, 1 ≤ k ∧ k ≤ t + 1 ∧
      (await_gen_data env t n tr).2.1 = n + k ∧
      (await_gen_data env t n tr).2.2 = tr ++ poll_events env k n ∧
      ((∀ j, j < t + 1 → read_status env (n + j) &&& CE_STATUS_IN_GEN_DATA = 0) →
        (await_gen_data env t n tr).1 = 0) := by
  induction t generalizing n tr with
  | zero =>
    refine ⟨1, Nat.le_refl 1, Nat.le_refl 1, ?_, ?_, ?_⟩
    · simp only [await_gen_data]
      split <;> rfl
    · simp only [await_gen_data]
      split <;> rfl
    · intro h
      have h0 := h 0 (Nat.zero_lt_one)
      simp only [Nat.add_zero] at h0
      simp only [await_gen_data, h0, ne_eq, not_true_eq_false, if_false]
  | succ t ih =>
    by_cases hg : read_status env n &&& CE_STATUS_IN_GEN_DATA ≠ 0
    · refine ⟨1, Nat.le_refl 1, by omega, ?_, ?_, ?_⟩
      · simp only [await_gen_data]
        rw [if_pos hg]
      · simp only [await_gen_data]
        rw [if_pos hg]
        rfl
      · intro h
        have h0 := h 0 (Nat.succ_pos _)
        simp only [Nat.add_zero] at h0
        exact absurd h0 hg
    · obtain ⟨k, hk1, hk2, hn, htr, hex⟩ := ih (n + 1)
        (tr ++ [.ce_read .status (read_status env n)])
      refine ⟨k + 1, by omega, by omega, ?_, ?_, ?_⟩
      · simp only [await_gen_data]
        rw [if_neg hg]
        rw [hn]
        omega
      · simp only [await_gen_data]
        rw [if_neg hg]
        rw [htr]
        simp only [poll_events, List.append_assoc, List.singleton_append]
      · intro h
        simp only [await_gen_data]
        rw [if_neg hg]
        apply hex
        intro j hj
        have := h (j + 1) (by omega)
        rw [show n + (j + 1) = n + 1 + j by omega] at this
        exact this

theorem stream_words_rounds (env : load_env) (r i tmp n : Nat) (tr : List io_event) :
    ∃ k, k ≤ r ∧
      (stream_words env r i tmp n tr).1 = i + k ∧
      (stream_words env r i tmp n tr).2.2.1 = n + k ∧
      (stream_words env r i tmp n tr).2.2.2 = tr ++ word_events env k i n ∧
      (∀ j, j + 1 < k → read_status env (n + j) &&& CE_STATUS_STOP_DOWNLOAD = 0) ∧
      (k = 0 → (stream_words env r i tmp n tr).2.1 = tmp) ∧
      (0 < k → (stream_words env r i tmp n tr).2.1 = read_status env (n + k - 1)) := by
  induction r generalizing i tmp n tr with
  | zero =>
    exact ⟨0, Nat.le_refl 0, rfl, rfl, by simp [stream_words, word_events],
      fun j hj => absurd hj (Nat.not_lt_zero _), fun _ => rfl,
      fun h => absurd h (Nat.lt_irrefl 0)⟩
  | succ r ih =>
    by_cases hs : read_status env n &&& CE_STATUS_STOP_DOWNLOAD ≠ 0
    · refine ⟨1, by omega, ?_, ?_, ?_, ?_, ?_, ?_⟩
      · simp only [stream_words]
        rw [if_pos hs]
      · simp only [stream_words]
        rw [if_pos hs]
      · simp only [stream_words]
        rw [if_pos hs]
        simp only [word_events, List.append_assoc, List.singleton_append, List.cons_append,
          List.nil_append]
      · intro j hj
        omega
      · intro h
        omega
      · intro _
        simp only [stream_words]
        rw [if_pos hs]
        rfl
    · have hs0 : read_status env n &&& CE_STATUS_STOP_DOWNLOAD = 0 := Decidable.of_not_not hs
      obtain ⟨k, hk, hi, hn, htr, hno, hz, hpos⟩ := ih (i + 1) (read_status env n) (n + 1)
        (tr ++ [.ce_write .fifo (cpu_to_be32 (load_u32 env (4 * i)))] ++
          [.ce_read .status (read_status env n)])
      refine ⟨k + 1, by omega, ?_, ?_, ?_, ?_, ?_, ?_⟩
      · simp only [stream_words]
        rw [if_neg hs]
        rw [hi]
        omega
      · simp only [stream_words]
        rw [if_neg hs]
        rw [hn]
        omega
      · simp only [stream_words]
        rw [if_neg hs]
        rw [htr]
        simp only [word_events, List.append_assoc, List.singleton_append, List.cons_append,
          List.nil_append]
      · intro j hj
        cases j with
        | zero => exact hs0
        | succ j =>
          have := hno j (by omega)
          rw [show n + (j + 1) = n + 1 + j by omega]
          exact this
      · intro h
        omega
      · intro _
        simp only [stream_words]
        rw [if_neg hs]
        cases k with
        | zero =>
          rw [hz rfl, show n + (0 + 1) - 1 = n by omega]
        | succ k =>
          rw [hpos (Nat.succ_pos k)]
          congr 1
          omega

theorem tail_pad_rounds (env : load_env) (i tmp n : Nat) (tr : List io_event) :
    ∃ k, k ≤ 1 ∧
      (tail_pad env i tmp n tr).2.1 = n + k ∧
      (tail_pad env i tmp n tr).2.2 = tr ++ tail_events env i n k ∧
      (k = 0 → (tail_pad env i tmp n tr).1 = tmp) ∧
      (0 < k → (tail_pad env i tmp n tr).1 = read_status env n ∧
        tmp &&& CE_STATUS_CONFIG_DONE = 0) := by
  by_cases hc : tmp &&& CE_STATUS_CONFIG_DONE = 0 ∧ env.image.length &&& 3 ≠ 0
  · refine ⟨1, Nat.le_refl 1, ?_, ?_, fun h => absurd h (by decide), fun _ => ⟨?_, hc.1⟩⟩
    · unfold tail_pad
      simp only []
      rw [if_pos hc]
    · unfold tail_pad
      simp only []
      rw [if_pos hc]
      simp only [tail_events, List.append_assoc, List.singleton_append]
    · unfold tail_pad
      simp only []
      rw [if_pos hc]
  · refine ⟨0, Nat.zero_le 1, ?_, ?_, fun _ => ?_, fun h => absurd h (Nat.lt_irrefl 0)⟩
    · unfold tail_pad
      simp only []
      rw [if_neg hc]
      rfl
    · unfold tail_pad
      simp only []
      rw [if_neg hc]
      simp only [tail_events, List.append_nil]
    · unfold tail_pad
      simp only []
      rw [if_neg hc]

theorem dummy_flush_loop_rounds (env : load_env) (t tmp n : Nat) (tr : List io_event) :
    ∃ k, k ≤ t ∧
      (dummy_flush_loop env t tmp n tr).2.2.1 = n + k ∧
      (dummy_flush_loop env t tmp n tr).2.2.2 = tr ++ filler_events env k n ∧
      (∀ j, j + 1 < k → read_status env (n + j) &&& CE_STATUS_STOP_DOWNLOAD = 0) ∧
      ((dummy_flush_loop env t tmp n tr).1 ≠ 0 →
        0 < k ∧ read_status env (n + k - 1) &&& CE_STATUS_STOP_DOWNLOAD ≠ 0) ∧
      ((dummy_flush_loop env t tmp n tr).1 = 0 → k = t) := by
  induction t generalizing tmp n tr with
  | zero =>
    exact ⟨0, Nat.le_refl 0, rfl, by simp [dummy_flush_loop, filler_events],
      fun j hj => absurd hj (Nat.not_lt_zero _), fun h => absurd rfl h, fun _ => rfl⟩
  | succ t ih =>
    by_cases hs : read_status env n &&& CE_STATUS_STOP_DOWNLOAD ≠ 0
    · refine ⟨1, by omega, ?_, ?_, ?_, ?_, ?_⟩
      · simp only [dummy_flush_loop]
        rw [if_pos hs]
      · simp only [dummy_flush_loop]
        rw [if_pos hs]
        simp only [filler_events, List.append_assoc, List.singleton_append, List.cons_append,
          List.nil_append]
      · intro j hj
        omega
      · intro _
        exact ⟨Nat.zero_lt_one, by rw [show n + 1 - 1 = n by omega]; exact hs⟩
      · intro h
        simp only [dummy_flush_loop] at h
        rw [if_pos hs] at h
        exact absurd h (Nat.succ_ne_zero t)
    · have hs0 : read_status env n &&& CE_STATUS_STOP_DOWNLOAD = 0 := Decidable.of_not_not hs
      obtain ⟨k, hk, hn, htr, hno, hpos, hz⟩ := ih (read_status env n) (n + 1)
        (tr ++ [.ce_write .fifo 0xFFFFFFFF] ++ [.ce_read .status (read_status env n)])
      refine ⟨k + 1, by omega, ?_, ?_, ?_, ?_, ?_⟩
      · simp only [dummy_flush_loop]
        rw [if_neg hs, hn]
        omega
      · simp only [dummy_flush_loop]
        rw [if_neg hs, htr]
        simp only [filler_events, List.append_assoc, List.singleton_append, List.cons_append,
          List.nil_append]
      · intro j hj
        cases j with
        | zero => exact hs0
        | succ j =>
          have := hno j (by omega)
          rw [show n + (j + 1) = n + 1 + j by omega]
          exact this
      · intro h
        simp only [dummy_flush_loop] at h
        rw [if_neg hs] at h
        obtain ⟨h1, h2⟩ := hpos h
        refine ⟨Nat.succ_pos k, ?_⟩
        rw [show n + (k + 1) - 1 = n + 1 + k - 1 by omega]
        exact h2
      · intro h
        simp only [dummy_flush_loop] at h
        rw [if_neg hs] at h
        rw [hz h]

theorem stop_clear_done_clear (s : Nat) (h : s &&& CE_STATUS_STOP_DOWNLOAD = 0) :
    s &&& CE_STATUS_CONFIG_DONE = 0 := by
  have h6 : CE_STATUS_CONFIG_DONE = 1 <<< 6 := rfl
  rw [h6, and_flag_eq_zero_iff]
  exact ((stop_download_eq_zero_iff s).1 h).1

theorem fifo_writes_poll_events (env : load_env) (k n : Nat) :
    fifo_writes (poll_events env k n) = [] := by
  induction k generalizing n with
  | zero => rfl
  | succ k ih =>
    simp only [poll_events]
    exact ih (n + 1)

theorem status_reads_poll_events (env : load_env) (k n : Nat) :
    (status_reads (poll_events env k n)).length = k := by
  induction k generalizing n with
  | zero => rfl
  | succ k ih =>
    simp only [poll_events]
    exact congrArg Nat.succ (ih (n + 1))

theorem fifo_writes_word_events (env : load_env) (k i n : Nat) :
    (fifo_writes (word_events env k i n)).length = k := by
  induction k generalizing i n with
  | zero => rfl
  | succ k ih =>
    simp only [word_events]
    exact congrArg Nat.succ (ih (i + 1) (n + 1))

theorem status_reads_word_events (env : load_env) (k i n : Nat) :
    (status_reads (word_events env k i n)).length = k := by
  induction k generalizing i n with
  | zero => rfl
  | succ k ih =>
    simp only [word_events]
    exact congrArg Nat.succ (ih (i + 1) (n + 1))

theorem fifo_writes_tail_events (env : load_env) (i n k : Nat) (hk : k ≤ 1) :
    (fifo_writes (tail_events env i n k)).length = k := by
  cases k with
  | zero => rfl
  | succ k =>
    have : k = 0 := by omega
    subst this
    rfl

theorem status_reads_tail_events (env : load_env) (i n k : Nat) (hk : k ≤ 1) :
    (status_reads (tail_events env i n k)).length = k := by
  cases k with
  | zero => rfl
  | succ k =>
    have : k = 0 := by omega
    subst this
    rfl

theorem fifo_writes_filler_events (env : load_env) (k n : Nat) :
    fifo_writes (filler_events env k n) = List.replicate k 0xFFFFFFFF := by
  induction k generalizing n with
  | zero => rfl
  | succ k ih =>
    simp only [filler_events, List.replicate_succ]
    exact congrArg (List.cons 0xFFFFFFFF) (ih (n + 1))

theorem status_reads_filler_events (env : load_env) (k n : Nat) :
    (status_reads (filler_events env k n)).length = k := by
  induction k generalizing n with
  | zero => rfl
  | succ k ih =>
    simp only [filler_events]
    exact congrArg Nat.succ (ih (n + 1))

theorem bounded_run_of_early_exit (env : load_env) (r : Int) (pre : List io_event)
    (hr : r ≠ 0) (hf : fifo_writes pre = []) (hs : (status_reads pre).length ≤ 1) :
    bounded_run env r pre :=
  ⟨pre, [], 0, 0, 0, 0, by simp [poll_events, word_events, tail_events, filler_events],
    Nat.zero_le _, Nat.zero_le _, Nat.zero_le _, Nat.zero_le _, hf, hs, rfl, rfl,
    fun j hj => absurd hj (Nat.not_lt_zero _), fun h => absurd h (Nat.lt_irrefl 0),
    fun _ => hr, fun h => absurd h (by decide)⟩

theorem status_reads_config_trace (env : load_env) (s : Nat) :
    (status_reads (config_trace env s)).length ≤ 1 := by
  simp [status_reads, config_trace, status_value]

theorem fifo_writes_config_trace (env : load_env) (s : Nat) :
    fifo_writes (config_trace env s) = [] := by
  simp [fifo_writes, config_trace, fifo_value]

theorem load_fpga_bounded_run (env : load_env) :
    bounded_run env (ni6674t_load_fpga env).1 (ni6674t_load_fpga env).2 := by
  have hne : (- EIO : Int) ≠ 0 := by decide
  unfold ni6674t_load_fpga
  by_cases hfw : env.request_firmware = 0
  swap
  · simp only [ne_eq, hfw, not_false_eq_true, if_true]
    exact bounded_run_of_early_exit env _ [] hfw rfl (Nat.zero_le _)
  simp only [ne_eq, hfw, not_true_eq_false, if_false]
  by_cases hmap : env.ioremap_ok = true
  swap
  · have hm : env.ioremap_ok = false := by
      cases h : env.ioremap_ok
      · rfl
      · exact absurd h hmap
    simp only [hm, if_true]
    exact bounded_run_of_early_exit env _ [] hne rfl (Nat.zero_le _)
  simp only [hmap, Bool.true_eq_false, if_false]
  split
  · exact bounded_run_of_early_exit env _ _ hne rfl (Nat.le_refl 1)
  · obtain ⟨k1, hk1a, hk1b, hn1, htr1, hex1⟩ :=
      await_gen_data_polls env 99 1 (config_trace env (read_status env 0))
    rcases hawait : await_gen_data env 99 1 (config_trace env (read_status env 0)) with
      ⟨t, n, tr⟩
    rw [hawait] at hn1 htr1 hex1
    simp only at hn1 htr1 hex1 ⊢
    subst hn1 htr1
    by_cases ht : t = 0
    · simp only [ht, if_true]
      refine ⟨config_trace env (read_status env 0), [], k1, 0, 0, 0, ?_, hk1b,
        Nat.zero_le _, Nat.zero_le _, Nat.zero_le _, fifo_writes_config_trace _ _,
        status_reads_config_trace _ _, rfl, rfl,
        fun j hj => absurd hj (Nat.not_lt_zero _), fun h => absurd h (Nat.lt_irrefl 0),
        fun _ => hne, fun h => absurd h (by decide)⟩
      simp [word_events, tail_events, filler_events]
    · simp only [ht, if_false]
      have hgen : ¬(∀ j, j < 100 →
          read_status env (1 + j) &&& CE_STATUS_IN_GEN_DATA = 0) := fun h => ht (hex1 h)
      unfold download
      obtain ⟨k2, hk2, hi2, hn2, htr2, hno2, hz2, hp2⟩ :=
        stream_words_rounds env (env.image.length / 4) 0 0 (1 + k1)
          (config_trace env (read_status env 0) ++ poll_events env k1 1)
      rcases hs : stream_words env (env.image.length / 4) 0 0 (1 + k1)
          (config_trace env (read_status env 0) ++ poll_events env k1 1) with
        ⟨i, tmp, n1, tr1⟩
      rw [hs] at hi2 hn2 htr2 hz2 hp2
      simp only at hi2 hn2 htr2 hz2 hp2 ⊢
      rw [Nat.zero_add] at hi2
      have hi2s := hi2.symm
      subst hi2s
      subst hn2 htr2
      obtain ⟨k3, hk3, hn3, htr3, hz3, hp3⟩ := tail_pad_rounds env k2 tmp (1 + k1 + k2)
        (config_trace env (read_status env 0) ++ poll_events env k1 1 ++
          word_events env k2 0 (1 + k1))
      rcases hpad : tail_pad env k2 tmp (1 + k1 + k2)
          (config_trace env (read_status env 0) ++ poll_events env k1 1 ++
            word_events env k2 0 (1 + k1)) with ⟨tmp2, n2, tr2⟩
      rw [hpad] at hn3 htr3 hz3 hp3
      simp only at hn3 htr3 hz3 hp3 ⊢
      subst hn3 htr3
      have hbefore : tmp2 &&& CE_STATUS_CONFIG_DONE = 0 → ∀ j, j < k2 + k3 →
          read_status env (1 + k1 + j) &&& CE_STATUS_CONFIG_DONE = 0 := by
        intro hd j hj
        by_cases hj1 : j + 1 < k2
        · exact stop_clear_done_clear _ (hno2 j hj1)
        · by_cases hj2 : j + 1 = k2
          · have htmp := hp2 (by omega)
            rw [show 1 + k1 + k2 - 1 = 1 + k1 + j by omega] at htmp
            rw [← htmp]
            by_cases hk30 : k3 = 0
            · rw [← hz3 hk30]
              exact hd
            · exact (hp3 (by omega)).2
          · have hjk : j = k2 := by omega
            have hk31 : 0 < k3 := by omega
            rw [hjk, ← (hp3 hk31).1]
            exact hd
      unfold dummy_flush
      by_cases hd : tmp2 &&& CE_STATUS_CONFIG_DONE = 0
      · rw [if_pos hd]
        obtain ⟨k4, hk4, hn4, htr4, hno4, hp4, hz4⟩ :=
          dummy_flush_loop_rounds env 1099 tmp2 (1 + k1 + k2 + k3)
            (config_trace env (read_status env 0) ++ poll_events env k1 1 ++
              word_events env k2 0 (1 + k1) ++ tail_events env k2 (1 + k1 + k2) k3)
        rcases hl : dummy_flush_loop env 1099 tmp2 (1 + k1 + k2 + k3)
            (config_trace env (read_status env 0) ++ poll_events env k1 1 ++
              word_events env k2 0 (1 + k1) ++ tail_events env k2 (1 + k1 + k2) k3) with
          ⟨t3, tmp3, n3, tr3⟩
        rw [hl] at hn4 htr4 hp4 hz4
        simp only at hn4 htr4 hp4 hz4 ⊢
        subst htr4
        have hexh : k4 = 1099 →
            read_status env (1 + k1 + k2 + k3 + 1098) &&& CE_STATUS_STOP_DOWNLOAD = 0 →
            t3 = 0 := by
          intro hk hstop
          by_contra h3
          have := (hp4 h3).2
          rw [hk] at this
          exact this hstop
        split
        · rename_i hfail
          exact ⟨config_trace env (read_status env 0), [], k1, k2, k3, k4,
            by rw [List.append_nil], hk1b, hk2, hk3, hk4, fifo_writes_config_trace _ _,
            status_reads_config_trace _ _, rfl, rfl, hno4, fun _ => hbefore hd,
            fun _ => hne, fun _ _ => hne⟩
        · rename_i hok
          refine ⟨config_trace env (read_status env 0), window_trace env, k1, k2, k3, k4,
            rfl, hk1b, hk2, hk3, hk4, fifo_writes_config_trace _ _,
            status_reads_config_trace _ _, rfl, rfl, hno4, fun _ => hbefore hd,
            fun h => absurd h hgen, ?_⟩
          intro hk hstop
          exact absurd (Or.inl (hexh hk hstop)) hok
      · rw [if_neg hd]
        simp only []
        split
        · exact ⟨config_trace env (read_status env 0), [], k1, k2, k3, 0,
            by simp [filler_events], hk1b, hk2, hk3, Nat.zero_le _,
            fifo_writes_config_trace _ _, status_reads_config_trace _ _, rfl, rfl,
            fun j hj => absurd hj (Nat.not_lt_zero _), fun h => absurd h (Nat.lt_irrefl 0),
            fun _ => hne, fun _ _ => hne⟩
        · exact ⟨config_trace env (read_status env 0), window_trace env, k1, k2, k3, 0,
            by simp [filler_events], hk1b, hk2, hk3, Nat.zero_le _,
            fifo_writes_config_trace _ _, status_reads_config_trace _ _, rfl, rfl,
            fun j hj => absurd hj (Nat.not_lt_zero _), fun h => absurd h (Nat.lt_irrefl 0),
            fun h => absurd h hgen, fun h => absurd h (by decide)⟩

theorem bounded_run_lengths (env : load_env) (r : Int) (tr : List io_event)
    (h : bounded_run env r tr) :
    (fifo_writes tr).length ≤ env.image.length / 4 + 1 + 1099 ∧
    (status_reads tr).length ≤ 1 + 100 + (env.image.length / 4 + 1) + 1099 := by
  obtain ⟨pre, post, k1, k2, k3, k4, htr, h1, h2, h3, h4, hfp, hsp, hfq, hsq, _⟩ := h
  subst htr
  have a1 := fifo_writes_poll_events env k1 1
  have a2 := fifo_writes_word_events env k2 0 (1 + k1)
  have a3 := fifo_writes_tail_events env k2 (1 + k1 + k2) k3 h3
  have a4 := fifo_writes_filler_events env k4 (1 + k1 + k2 + k3)
  have b1 := status_reads_poll_events env k1 1
  have b2 := status_reads_word_events env k2 0 (1 + k1)
  have b3 := status_reads_tail_events env k2 (1 + k1 + k2) k3 h3
  have b4 := status_reads_filler_events env k4 (1 + k1 + k2 + k3)
  constructor
  · simp only [fifo_writes_append, List.length_append, hfp, hfq, a1, a2, a3, a4,
      List.length_nil, List.length_replicate]
    omega
  · simp only [status_reads_append, List.length_append, hsq, b1, b2, b3, b4,
      List.length_nil]
    omega

/-- C21: every run of the load ends, and it has the shape `bounded_run`
describes: at most 100 polls for generating-data, at most `size / 4` rounds of
the streaming loop and one tail-pad write (so at most `size / 4 + 1` image
words), at most 1099 dummy words, each `0xFFFFFFFF`, written only while no
status read since streaming began showed config-done, the loop of dummy writes
ending at its first status read that shows config-done or config-error; a run
whose polls or whose dummy rounds are used up returns an error.  In all the
run writes at most `size / 4 + 1100` FIFO words and reads the status at most
`size / 4 + 1201` times. -/
theorem load_terminates_within_bounds (env : load_env) :
    bounded_run env (ni6674t_load_fpga env).1 (ni6674t_load_fpga env).2 ∧
    (fifo_writes (ni6674t_load_fpga env).2).length ≤ env.image.length / 4 + 1 + 1099 ∧
    (status_reads (ni6674t_load_fpga env).2).length ≤
      1 + 100 + (env.image.length / 4 + 1) + 1099 :=
  ⟨load_fpga_bounded_run env, bounded_run_lengths env _ _ (load_fpga_bounded_run env)⟩

theorem load_terminates_within_bounds_witness :
    (ni6674t_load_fpga env_never_gen).1 = - EIO ∧
    (status_reads (ni6674t_load_fpga env_never_gen).2).length = 101 ∧
    fifo_writes (ni6674t_load_fpga env_never_gen).2 = [] ∧
    (bounded_run env_never_gen (ni6674t_load_fpga env_never_gen).1
        (ni6674t_load_fpga env_never_gen).2 ∧
      (fifo_writes (ni6674t_load_fpga env_never_gen).2).length ≤
        env_never_gen.image.length / 4 + 1 + 1099 ∧
      (status_reads (ni6674t_load_fpga env_never_gen).2).length ≤
        1 + 100 + (env_never_gen.image.length / 4 + 1) + 1099) :=
  ⟨by decide!, by decide!, by decide!, load_terminates_within_bounds env_never_gen⟩

theorem window_writes_append (a b : List io_event) :
    window_writes (a ++ b) = window_writes a ++ window_writes b := by
  simp [window_writes, List.filter_append]

theorem window_writes_ce_write (tr : List io_event) (r : ce_reg) (v : Nat) :
    window_writes (tr ++ [.ce_write r v]) = window_writes tr := by
  rw [window_writes_append]
  simp [window_writes, is_window_write]

theorem window_writes_ce_read (tr : List io_event) (r : ce_reg) (v : Nat) :
    window_writes (tr ++ [.ce_read r v]) = window_writes tr := by
  rw [window_writes_append]
  simp [window_writes, is_window_write]

theorem window_writes_await_gen_data (env : load_env) (t n : Nat) (tr : List io_event) :
    window_writes (await_gen_data env t n tr).2.2 = window_writes tr := by
  induction t generalizing n tr with
  | zero =>
    simp only [await_gen_data]
    split <;> exact window_writes_ce_read _ _ _
  | succ t ih =>
    simp only [await_gen_data]
    split
    · exact window_writes_ce_read _ _ _
    · rw [ih, window_writes_ce_read]

theorem window_writes_stream_words (env : load_env) (r i tmp n : Nat) (tr : List io_event) :
    window_writes (stream_words env r i tmp n tr).2.2.2 = window_writes tr := by
  induction r generalizing i tmp n tr with
  | zero => rfl
  | succ r ih =>
    simp only [stream_words]
    split
    · rw [window_writes_ce_read, window_writes_ce_write]
    · rw [ih, window_writes_ce_read, window_writes_ce_write]

theorem window_writes_tail_pad (env : load_env) (i tmp n : Nat) (tr : List io_event) :
    window_writes (tail_pad env i tmp n tr).2.2 = window_writes tr := by
  unfold tail_pad
  simp only []
  split
  · rw [window_writes_ce_read, window_writes_ce_write]
  · rfl

theorem window_writes_dummy_flush_loop (env : load_env) (t tmp n : Nat)
    (tr : List io_event) :
    window_writes (dummy_flush_loop env t tmp n tr).2.2.2 = window_writes tr := by
  induction t generalizing tmp n tr with
  | zero => rfl
  | succ t ih =>
    simp only [dummy_flush_loop]
    split
    · rw [window_writes_ce_read, window_writes_ce_write]
    · rw [ih, window_writes_ce_read, window_writes_ce_write]

theorem window_writes_download (env : load_env) (timeout n : Nat) (tr : List io_event) :
    window_writes (download env timeout n tr).2.2.2 = window_writes tr := by
  unfold download
  have h1 := window_writes_stream_words env (env.image.length / 4) 0 0 n tr
  rcases hs : stream_words env (env.image.length / 4) 0 0 n tr with ⟨i, tmp, n1, tr1⟩
  rw [hs] at h1
  simp only at h1 ⊢
  have h2 := window_writes_tail_pad env i tmp n1 tr1
  rcases ht : tail_pad env i tmp n1 tr1 with ⟨tmp2, n2, tr2⟩
  rw [ht] at h2
  simp only at h2 ⊢
  unfold dummy_flush
  split
  · rw [window_writes_dummy_flush_loop, h2, h1]
  · simp only []
    rw [h2, h1]

theorem wenab_set (x : Nat) : (x ||| MITE_IODWBSR_WENAB).testBit 7 = true := by
  rw [Nat.testBit_or]
  have : Nat.testBit MITE_IODWBSR_WENAB 7 = true := by decide
  rw [this, Bool.or_true]

theorem wenab_cleared (x : Nat) : (x &&& not32 MITE_IODWBSR_WENAB).testBit 7 = false := by
  rw [Nat.testBit_and, not32_testBit _ _ (by decide)]
  have : Nat.testBit MITE_IODWBSR_WENAB 7 = true := by decide
  rw [this]
  simp

theorem window_writes_config_trace (env : load_env) (status : Nat) :
    window_writes (config_trace env status) = [] := by
  simp only [window_writes, config_trace, List.filter, is_window_write, wenab_set, Bool.not_true]

theorem window_writes_window_trace (env : load_env) :
    window_writes (window_trace env) =
      [.mite_write .iodwbsr (u32 env.iodwbsr &&& not32 MITE_IODWBSR_WENAB),
        .mite_write .iowbsr1 (u32 env.bar1 ||| MITE_IOWBSR1_WENAB ||| MITE_IOWBSR1_WSIZE4)] := by
  simp only [window_writes, window_trace, List.filter, is_window_write, wenab_cleared,
    Bool.not_false]

/-- C22: for every run of the load, the writes that reprogram the bridge
windows (a write of `iodwbsr` with the window-enable bit clear, a write of
`iowbsr1`) are, when the load returns 0, exactly one write of `iodwbsr` with
the value read from it and bit 7 cleared followed by one write of `iowbsr1`
with region base | window-enable | 4-size; when the load returns an error
there is none. -/
theorem windows_reprogrammed_iff_done (env : load_env) :
    window_writes (ni6674t_load_fpga env).2 =
      (if (ni6674t_load_fpga env).1 = 0 then
        [.mite_write .iodwbsr (u32 env.iodwbsr &&& not32 MITE_IODWBSR_WENAB),
          .mite_write .iowbsr1
            (u32 env.bar1 ||| MITE_IOWBSR1_WENAB ||| MITE_IOWBSR1_WSIZE4)]
      else []) ∧
    (u32 env.iodwbsr &&& not32 MITE_IODWBSR_WENAB).testBit 7 = false ∧
    (∀ i, i ≠ 7 → (u32 env.iodwbsr &&& not32 MITE_IODWBSR_WENAB).testBit i =
      (u32 env.iodwbsr).testBit i) := by
  have hne : ¬((- EIO : Int) = 0) := by decide
  refine ⟨?_, wenab_cleared _, ?_⟩
  · unfold ni6674t_load_fpga
    by_cases hfw : env.request_firmware = 0
    swap
    · simp only [ne_eq, hfw, not_false_eq_true, if_true, if_false]
      rfl
    simp only [ne_eq, hfw, not_true_eq_false, if_false]
    by_cases hmap : env.ioremap_ok = true
    swap
    · have hm : env.ioremap_ok = false := by
        cases h : env.ioremap_ok
        · rfl
        · exact absurd h hmap
      simp only [hm, if_true, hne, if_false]
      rfl
    simp only [hmap, Bool.true_eq_false, if_false]
    split
    · simp only [hne, if_false]
      simp only [window_writes, List.filter, is_window_write, wenab_set, Bool.not_true]
    · have ha := window_writes_await_gen_data env 99 1 (config_trace env (read_status env 0))
      rcases hawait : await_gen_data env 99 1 (config_trace env (read_status env 0)) with
        ⟨t, n, tr⟩
      rw [hawait] at ha
      simp only at ha ⊢
      rw [window_writes_config_trace] at ha
      by_cases ht : t = 0
      · simp only [ht, if_true, hne, if_false]
        exact ha
      · simp only [ht, if_false]
        have hd := window_writes_download env t n tr
        rcases hdl : download env t n tr with ⟨t2, tmp, n2, tr2⟩
        rw [hdl] at hd
        simp only at hd ⊢
        rw [ha] at hd
        split
        · simp only [hne, if_false]
          exact hd
        · simp only [if_true]
          rw [window_writes_append, hd, window_writes_window_trace, List.nil_append]
  · intro i hi
    rw [Nat.testBit_and, not32_testBit _ _ (by decide)]
    have h1 : Nat.testBit MITE_IODWBSR_WENAB i = false := by
      have : MITE_IODWBSR_WENAB = 2 ^ 7 := by decide
      rw [this, Nat.testBit_two_pow]
      simp only [decide_eq_false_iff_not]
      omega
    rw [h1]
    by_cases h32 : i < 32
    · simp [h32]
    · have := testBit_of_lt_two_pow_32 (u32 env.iodwbsr) i (Nat.mod_lt _ (by decide)) (by omega)
      simp [this]

theorem windows_reprogrammed_iff_done_witness :
    (ni6674t_load_fpga env_done_after_tail).1 = 0 ∧
    window_writes (ni6674t_load_fpga env_done_after_tail).2 =
      [.mite_write .iodwbsr 0xF0000000, .mite_write .iowbsr1 0xF0000090] ∧
    (ni6674t_load_fpga env_error_six_bytes).1 = - EIO ∧
    window_writes (ni6674t_load_fpga env_error_six_bytes).2 = [] ∧
    (window_writes (ni6674t_load_fpga env_done_after_tail).2 =
      (if (ni6674t_load_fpga env_done_after_tail).1 = 0 then
        [.mite_write .iodwbsr
            (u32 env_done_after_tail.iodwbsr &&& not32 MITE_IODWBSR_WENAB),
          .mite_write .iowbsr1
            (u32 env_done_after_tail.bar1 ||| MITE_IOWBSR1_WENAB ||| MITE_IOWBSR1_WSIZE4)]
      else []) ∧
    (u32 env_done_after_tail.iodwbsr &&& not32 MITE_IODWBSR_WENAB).testBit 7 = false ∧
    (∀ i, i ≠ 7 →
      (u32 env_done_after_tail.iodwbsr &&& not32 MITE_IODWBSR_WENAB).testBit i =
        (u32 env_done_after_tail.iodwbsr).testBit i)) :=
  ⟨by decide!, by decide!, by decide!, by decide!,
    windows_reprogrammed_iff_done env_done_after_tail⟩

/-- C28 fails on the six-byte firmware 11 22 33 44 55 66 when the status read
after the first word shows config-error and the next one shows config-done
alone: the streaming loop stops on the error, the tail word is still written,
the status read after it replaces `tmp`, and the load returns 0 and reprograms
the bridge windows.  The config-error read during streaming is forgotten. -/
theorem config_error_forgotten :
    ni6674t_load_fpga env_error_then_done =
      (0, config_trace env_error_then_done CE_STATUS_IN_WAIT_START ++
        [.ce_read .status CE_STATUS_IN_GEN_DATA,
          .ce_write .fifo 0x11223344, .ce_read .status CE_STATUS_CONFIG_ERROR,
          .ce_write .fifo 0x55660000, .ce_read .status CE_STATUS_CONFIG_DONE] ++
        window_trace env_error_then_done) ∧
    status_reads (ni6674t_load_fpga env_error_then_done).2 =
      [CE_STATUS_IN_WAIT_START, CE_STATUS_IN_GEN_DATA, CE_STATUS_CONFIG_ERROR,
        CE_STATUS_CONFIG_DONE] ∧
    Nat.testBit CE_STATUS_CONFIG_ERROR 4 = true ∧
    (ni6674t_load_fpga env_error_then_done).1 = 0 ∧
    (ni6674t_load_fpga env_error_then_done).1 ≠ - EIO := by
  refine ⟨by decide!, by decide!, by decide, by decide!, by decide!⟩

/-! ## Field definitions -/

theorem field_definition_ok_all : ∀ d ∈ shared_terminals, field_definition_ok d = true := by
  decide!

/-- C26: for each shared-register terminal (SourceA, SourceB, the two divider
selects, Bank0-3) the descriptor's mask is the field of the specification
(`width` bits at offset `off` of the stated control word), and the encoded
value of every listed input is its source code shifted to that offset, the
code fitting the field.  In numbers: SourceA `0x70`, SourceB `0x7000`, Bank n
`3 << (16 + 4n)`, the divider selects bit 20 and bit 21 of control word 2. -/
theorem shared_field_definitions (d : desc_ptr) (hd : d ∈ shared_terminals) :
    (∃ desc word off width,
      deref_desc d = some desc ∧ field_spec d = some (word, off, width) ∧
      desc.dest_data = (2 ^ width - 1) <<< off ∧ control_word_of d = some word ∧
      ∀ e ∈ listed_inputs desc, ∃ code,
        e.desc.bind (source_code_spec d) = some code ∧ e.data = code <<< off ∧
          code < 2 ^ width) ∧
    mask_of .srca_rt_desc = 0x00000070 ∧ mask_of .srcb_rt_desc = 0x00007000 ∧
    (bank_ptrs.map mask_of = (List.range 4).map (fun n => 3 <<< (16 + 4 * n))) ∧
    mask_of .srca_div_sel_rt_desc = 1 <<< 20 ∧ mask_of .srcb_div_sel_rt_desc = 1 <<< 21 ∧
    control_word_of .srca_div_sel_rt_desc = some .dstaractrl2 ∧
    control_word_of .srcb_div_sel_rt_desc = some .dstaractrl2 := by
  refine ⟨?_, by decide, by decide, by decide, by decide, by decide, by decide, by decide⟩
  have hok := field_definition_ok_all d hd
  unfold field_definition_ok at hok
  cases hdesc : deref_desc d with
  | none => simp [hdesc] at hok
  | some desc =>
    cases hf : field_spec d with
    | none => simp [hdesc, hf] at hok
    | some f =>
      obtain ⟨word, off, width⟩ := f
      simp only [hdesc, hf, Bool.and_eq_true, decide_eq_true_eq, List.all_eq_true] at hok
      obtain ⟨⟨hmask, hword⟩, hall⟩ := hok
      refine ⟨desc, word, off, width, rfl, rfl, hmask, hword, ?_⟩
      intro e he
      have := hall e he
      cases hc : e.desc.bind (source_code_spec d) with
      | none => simp [hc] at this
      | some code =>
        simp only [hc, Bool.and_eq_true, decide_eq_true_eq] at this
        exact ⟨code, rfl, this.1, this.2⟩

theorem shared_field_definitions_witness :
    desc_ptr.bank_rt_desc 2 ∈ shared_terminals ∧
    ((∃ desc word off width,
      deref_desc (.bank_rt_desc 2) = some desc ∧
      field_spec (.bank_rt_desc 2) = some (word, off, width) ∧
      desc.dest_data = (2 ^ width - 1) <<< off ∧
      control_word_of (.bank_rt_desc 2) = some word ∧
      ∀ e ∈ listed_inputs desc, ∃ code,
        e.desc.bind (source_code_spec (.bank_rt_desc 2)) = some code ∧
          e.data = code <<< off ∧ code < 2 ^ width) ∧
    mask_of .srca_rt_desc = 0x00000070 ∧ mask_of .srcb_rt_desc = 0x00007000 ∧
    (bank_ptrs.map mask_of = (List.range 4).map (fun n => 3 <<< (16 + 4 * n))) ∧
    mask_of .srca_div_sel_rt_desc = 1 <<< 20 ∧ mask_of .srcb_div_sel_rt_desc = 1 <<< 21 ∧
    control_word_of .srca_div_sel_rt_desc = some .dstaractrl2 ∧
    control_word_of .srcb_div_sel_rt_desc = some .dstaractrl2) :=
  ⟨by decide, shared_field_definitions (.bank_rt_desc 2) (by decide)⟩

set_option maxRecDepth 100000 in
theorem trigger_fields_ok_all : ∀ d ∈ trigger_terminals, ∀ j ∈ List.range (listed_count d),
    ∀ p ∈ [terminal_polarity.POLARITY_NORMAL, .POLARITY_INVERTED],
      trigger_fields_ok d j p = true := by
  decide!

/-- C27: the seven fields of the trigger-control word (DEST bits 31..24, SRC
23..16, SYNC_CLOCK 15..14, EDGE_FALLING 13, ASYNCHRONOUS 12, INVERTED 11,
ENABLED 10) are pairwise disjoint.  For a dedicated-register terminal with a
listed current input, the destination code and the source code are below 256,
and the word `triggerctrl_flush_terminal_attrs` writes has the destination
code in bits 31..24 and the source code of the current input in bits 23..16,
with SYNC_CLOCK, EDGE_FALLING and bits 9..0 zero. -/
theorem trigger_word_fields (d : desc_ptr) (hd : d ∈ trigger_terminals)
    (rt : route_terminal) (hrt : rt.rt_desc = some d) (hl : input_listed rt = true)
    (sync : ni_sync) :
    trig_ctrl_fields.Pairwise (fun a b => a &&& b = 0) ∧
    trig_ctrl_fields =
      [0xFF000000, 0x00FF0000, 0x0000C000, 0x00002000, 0x00001000, 0x00000800, 0x00000400] ∧
    ∃ desc e w, deref_desc d = some desc ∧ rt.input.bind deref_input = some e ∧
      triggerctrl_flush_terminal_attrs rt sync = some (iowrite32 w .triggerctrl sync) ∧
      desc.dest_data < 256 ∧ e.data < 256 ∧
      dest_field w = desc.dest_data ∧ src_field w = e.data ∧
      w &&& TRIG_CTRL_SYNC_CLOCK 3 = 0 ∧ w &&& TRIG_CTRL_EDGE_FALLING = 0 ∧
      w % 2 ^ 10 = 0 ∧ w < 2 ^ 32 := by
  refine ⟨by decide, by decide, ?_⟩
  obtain ⟨d1, j, desc, hrt1, hin, hdesc, hj⟩ := (input_listed_iff rt).1 hl
  have hdd : d1 = d := by
    rw [hrt] at hrt1
    exact (Option.some.inj hrt1).symm
  subst hdd
  have hjr : j ∈ List.range (listed_count d1) := by
    simp [listed_count, hdesc, hj]
  have hok := trigger_fields_ok_all d1 hd j hjr rt.polarity (terminal_polarity_mem _)
  unfold trigger_fields_ok at hok
  simp only [hdesc] at hok
  have hrteq : rt = terminal_at d1 j rt.polarity := by
    cases rt
    simp only [terminal_at] at hrt hin ⊢
    simp [hrt, hin]
  cases he : (listed_inputs desc)[j]? with
  | none => simp [he] at hok
  | some e =>
    cases hw : trigctrl_of (terminal_at d1 j rt.polarity) with
    | none => simp [he, hw] at hok
    | some w =>
      simp only [he, hw, Bool.and_eq_true, decide_eq_true_eq] at hok
      obtain ⟨⟨⟨⟨⟨⟨⟨⟨hav, h1⟩, h2⟩, h3⟩, h4⟩, h5⟩, h6⟩, h7⟩, h8⟩ := hok
      refine ⟨desc, e, w, hdesc, ?_, ?_, h1, h2, h3, h4, h5, h6, h7, h8⟩
      · simp [hin, deref_input, hdesc, hav]
      · rw [triggerctrl_flush_eq, hrteq, hw]
        rfl

theorem trigger_word_fields_witness :
    (desc_ptr.pfi_rt_desc 0 ∈ trigger_terminals ∧
      input_listed (terminal_at (.pfi_rt_desc 0) 4 .POLARITY_INVERTED) = true) ∧
    triggerctrl_flush_terminal_attrs (terminal_at (.pfi_rt_desc 0) 4 .POLARITY_INVERTED)
      sync_zero = some (iowrite32 0x2B2D1C00 .triggerctrl sync_zero) ∧
    (trig_ctrl_fields.Pairwise (fun a b => a &&& b = 0) ∧
    trig_ctrl_fields =
      [0xFF000000, 0x00FF0000, 0x0000C000, 0x00002000, 0x00001000, 0x00000800, 0x00000400] ∧
    ∃ desc e w, deref_desc (.pfi_rt_desc 0) = some desc ∧
      (terminal_at (.pfi_rt_desc 0) 4 .POLARITY_INVERTED).input.bind deref_input = some e ∧
      triggerctrl_flush_terminal_attrs (terminal_at (.pfi_rt_desc 0) 4 .POLARITY_INVERTED)
        sync_zero = some (iowrite32 w .triggerctrl sync_zero) ∧
      desc.dest_data < 256 ∧ e.data < 256 ∧
      dest_field w = desc.dest_data ∧ src_field w = e.data ∧
      w &&& TRIG_CTRL_SYNC_CLOCK 3 = 0 ∧ w &&& TRIG_CTRL_EDGE_FALLING = 0 ∧
      w % 2 ^ 10 = 0 ∧ w < 2 ^ 32) :=
  ⟨⟨by decide, by decide!⟩, by decide!,
    trigger_word_fields (.pfi_rt_desc 0) (by decide)
      (terminal_at (.pfi_rt_desc 0) 4 .POLARITY_INVERTED) rfl (by decide!) sync_zero⟩

/-! ## Setting and reading the polarity -/

theorem strncmp_zero_begins (a b : List Char) (ha : ∀ c ∈ a, c.toNat ≠ 0)
    (h : strncmp a b a.length = 0) : a <+: b := by
  induction a generalizing b with
  | nil => exact List.nil_prefix
  | cons x as ih =>
    have hx : x.toNat ≠ 0 := ha x (List.mem_cons_self x as)
    cases b with
    | nil =>
      simp only [List.length_cons, strncmp] at h
      exact absurd (Int.ofNat_eq_zero.1 h) hx
    | cons y bs =>
      simp only [List.length_cons, strncmp] at h
      by_cases hxy : x = y
      · subst hxy
        simp only [if_true] at h
        have := ih bs (fun c hc => ha c (List.mem_cons_of_mem x hc)) h
        exact (List.cons_prefix_cons).2 ⟨rfl, this⟩
      · simp only [hxy, if_false] at h
        exfalso
        apply hxy
        have hn : x.toNat = y.toNat := by omega
        exact Char.ext (UInt32.ext hn)

theorem polarity_match_none (buf : String) (h1 : ¬begins_with buf "normal")
    (h2 : ¬begins_with buf "inverted") :
    polarity_match (c_str buf) terminal_polarity_strs 0 = none := by
  have n1 : ¬(strncmp (c_str "normal") (c_str buf) (strlen "normal") = 0) := fun h =>
    h1 (strncmp_zero_begins _ _ (by decide) h)
  have n2 : ¬(strncmp (c_str "inverted") (c_str buf) (strlen "inverted") = 0) := fun h =>
    h2 (strncmp_zero_begins _ _ (by decide) h)
  simp only [terminal_polarity_strs, polarity_match, n1, n2, if_false]

theorem polarity_show_normal (r : route_terminal) (hr : r.polarity = .POLARITY_NORMAL) :
    route_terminal_polarity_show r = some (7, "normal\n") := by
  unfold route_terminal_polarity_show
  rw [hr]
  decide

theorem polarity_show_inverted (r : route_terminal) (hr : r.polarity = .POLARITY_INVERTED) :
    route_terminal_polarity_show r = some (9, "inverted\n") := by
  unfold route_terminal_polarity_show
  rw [hr]
  decide

theorem polarity_show_of_polarity (rt : route_terminal) (p : terminal_polarity) :
    route_terminal_polarity_show { rt with polarity := p } =
      some (((polarity_name p).length : Int) + 1, polarity_name p ++ "\n") := by
  cases p
  · rw [polarity_show_normal _ rfl]
    decide
  · rw [polarity_show_inverted _ rfl]
    decide

/-- C30: on a dedicated-register terminal with a listed current input, a
polarity store of the name of `p` (bare or followed by a newline) returns
`count` and sets the polarity to `p`, and the polarity then reads back as that
name; a terminal as allocated and as bring-up leaves it has polarity normal;
and a request that begins with neither "normal" nor "inverted" returns
`-EINVAL` with the terminal and the register block as they were. -/
theorem polarity_store_then_show (d : desc_ptr) (hd : d ∈ trigger_terminals)
    (rt : route_terminal) (hrt : rt.rt_desc = some d) (hl : input_listed rt = true)
    (p : terminal_polarity) (buf : String)
    (hbuf : buf = polarity_name p ∨ buf = polarity_name p ++ "\n")
    (count : Nat) (sync : ni_sync) :
    (∃ w, route_terminal_polarity_store rt buf count sync =
      some ((count : Int), { rt with polarity := p }, iowrite32 w .triggerctrl sync)) ∧
    route_terminal_polarity_show { rt with polarity := p } =
      some (((polarity_name p).length : Int) + 1, polarity_name p ++ "\n") ∧
    kzalloc_route_terminal.polarity = .POLARITY_NORMAL ∧
    (∀ (env : kernel_env) (sync2 sync3 : ni_sync) (rt2 : route_terminal),
      init_and_add_route_terminal env kzalloc_route_terminal d sync2 = some (0, rt2, sync3) →
        rt2.polarity = .POLARITY_NORMAL ∧
          route_terminal_polarity_show rt2 = some (7, "normal\n")) ∧
    (∀ bad : String, ¬begins_with bad "normal" → ¬begins_with bad "inverted" →
      route_terminal_polarity_store rt bad count sync = some (-EINVAL, rt, sync)) := by
  obtain ⟨d1, j, desc, hrt1, hin, hdesc, hj⟩ := (input_listed_iff rt).1 hl
  have hdd : d1 = d := by
    rw [hrt] at hrt1
    exact (Option.some.inj hrt1).symm
  subst hdd
  have hjr : j ∈ List.range (listed_count d1) := by
    simp [listed_count, hdesc, hj]
  refine ⟨?_, polarity_show_of_polarity rt p, rfl, ?_, ?_⟩
  · have hok := trigger_entry_ok_all d1 hd j hjr p (terminal_polarity_mem _)
    unfold trigger_entry_ok at hok
    simp only [hdesc, Bool.and_eq_true, decide_eq_true_eq] at hok
    cases he : (listed_inputs desc)[j]? with
    | none => simp [he] at hok
    | some e =>
      simp only [he, Bool.and_eq_true, decide_eq_true_eq] at hok
      obtain ⟨_, _, hw⟩ := hok
      cases p with
      | POLARITY_NORMAL =>
        have hm : polarity_match (c_str buf) terminal_polarity_strs 0 = some 0 := by
          rcases hbuf with h | h <;> subst h
          · exact polarity_match_names.1
          · exact polarity_match_names.2.1
        exact ⟨_, polarity_store_named rt d1 j 0 buf count sync _ hrt hin hm hw⟩
      | POLARITY_INVERTED =>
        have hm : polarity_match (c_str buf) terminal_polarity_strs 0 = some 1 := by
          rcases hbuf with h | h <;> subst h
          · exact polarity_match_names.2.2.1
          · exact polarity_match_names.2.2.2
        exact ⟨_, polarity_store_named rt d1 j 1 buf count sync _ hrt hin hm hw⟩
  · intro env sync2 sync3 rt2 hinit
    have := init_and_add_route_terminal_ok env d1 sync2 rt2 sync3 hinit
    subst this
    exact ⟨rfl, polarity_show_normal _ rfl⟩
  · intro bad h1 h2
    unfold route_terminal_polarity_store
    rw [polarity_store_loop_eq, polarity_match_none bad h1 h2]

theorem polarity_store_then_show_witness :
    (desc_ptr.pxi_star_rt_desc 3 ∈ trigger_terminals ∧
      input_listed (terminal_at (.pxi_star_rt_desc 3) 1 .POLARITY_NORMAL) = true ∧
      "inverted\n" = polarity_name .POLARITY_INVERTED ++ "\n") ∧
    route_terminal_polarity_store (terminal_at (.pxi_star_rt_desc 3) 1 .POLARITY_NORMAL)
      "upside-down" 11 sync_zero =
        some (-EINVAL, terminal_at (.pxi_star_rt_desc 3) 1 .POLARITY_NORMAL, sync_zero) ∧
    ((∃ w, route_terminal_polarity_store (terminal_at (.pxi_star_rt_desc 3) 1 .POLARITY_NORMAL)
        "inverted\n" 9 sync_zero =
      some (((9 : Nat) : Int),
        { terminal_at (.pxi_star_rt_desc 3) 1 .POLARITY_NORMAL with
          polarity := .POLARITY_INVERTED },
        iowrite32 w .triggerctrl sync_zero)) ∧
    route_terminal_polarity_show
        { terminal_at (.pxi_star_rt_desc 3) 1 .POLARITY_NORMAL with
          polarity := .POLARITY_INVERTED } =
      some (((polarity_name .POLARITY_INVERTED).length : Int) + 1,
        polarity_name .POLARITY_INVERTED ++ "\n") ∧
    kzalloc_route_terminal.polarity = .POLARITY_NORMAL ∧
    (∀ (env : kernel_env) (sync2 sync3 : ni_sync) (rt2 : route_terminal),
      init_and_add_route_terminal env kzalloc_route_terminal (.pxi_star_rt_desc 3) sync2 =
          some (0, rt2, sync3) →
        rt2.polarity = .POLARITY_NORMAL ∧
          route_terminal_polarity_show rt2 = some (7, "normal\n")) ∧
    (∀ bad : String, ¬begins_with bad "normal" → ¬begins_with bad "inverted" →
      route_terminal_polarity_store (terminal_at (.pxi_star_rt_desc 3) 1 .POLARITY_NORMAL)
        bad 9 sync_zero =
          some (-EINVAL, terminal_at (.pxi_star_rt_desc 3) 1 .POLARITY_NORMAL, sync_zero))) :=
  ⟨⟨by decide, by decide!, by decide⟩, by decide!,
    polarity_store_then_show (.pxi_star_rt_desc 3) (by decide)
      (terminal_at (.pxi_star_rt_desc 3) 1 .POLARITY_NORMAL) rfl (by decide!)
      .POLARITY_INVERTED "inverted\n" (Or.inr (by decide)) 9 sync_zero⟩

/-! ## Removal -/

theorem foldl_release_released (l : List desc_ptr) (dev : ni6674t) :
    (l.foldl release_route_terminal dev).released = dev.released ++ l := by
  induction l generalizing dev with
  | nil => simp
  | cons d l ih =>
    rw [List.foldl_cons, ih]
    simp [release_route_terminal]

theorem foldl_release_sync (l : List desc_ptr) (dev : ni6674t) :
    (l.foldl release_route_terminal dev).sync = dev.sync := by
  induction l generalizing dev with
  | nil => rfl
  | cons d l ih =>
    rw [List.foldl_cons, ih]
    rfl

theorem foldl_release_terminals (l : List desc_ptr) (dev : ni6674t) (rt : route_terminal)
    (h : rt ∈ (l.foldl release_route_terminal dev).terminals) :
    rt ∈ dev.terminals ∧ ∀ d ∈ l, rt.rt_desc ≠ some d := by
  induction l generalizing dev with
  | nil => exact ⟨h, fun d hd => absurd hd (List.not_mem_nil d)⟩
  | cons d l ih =>
    rw [List.foldl_cons] at h
    obtain ⟨h1, h2⟩ := ih _ h
    simp only [release_route_terminal, List.mem_filter, decide_eq_true_eq] at h1
    refine ⟨h1.1, ?_⟩
    intro x hx
    rcases List.mem_cons.1 hx with rfl | hx
    · exact h1.2
    · exact h2 x hx

theorem release_created_released (dev : ni6674t) (l : List desc_ptr) :
    (release_created dev l).released = dev.released ++ l.reverse :=
  foldl_release_released l.reverse dev

theorem release_created_sync (dev : ni6674t) (l : List desc_ptr) :
    (release_created dev l).sync = dev.sync :=
  foldl_release_sync l.reverse dev

theorem release_created_terminals (dev : ni6674t) (l : List desc_ptr) (rt : route_terminal)
    (h : rt ∈ (release_created dev l).terminals) :
    rt ∈ dev.terminals ∧ ∀ d ∈ l, rt.rt_desc ≠ some d := by
  obtain ⟨h1, h2⟩ := foldl_release_terminals l.reverse dev rt h
  exact ⟨h1, fun d hd => h2 d (List.mem_reverse.2 hd)⟩

theorem ni6674t_remove_eq (dev : ni6674t) :
    ni6674t_remove dev = release_created dev bringup_terminals := by
  simp only [ni6674t_remove, release_other_terminals, release_pxi_trig_terminals,
    release_pfi_terminals, release_pxi_star_terminals, release_created, bringup_terminals,
    List.reverse_append, List.foldl_append, List.reverse_cons, List.reverse_nil,
    List.nil_append, List.foldl_cons, List.foldl_nil, List.append_assoc]

/-- C25: after a successful `ni6674t_init_sysfs`, whose terminals were created
in the order PXI_Trig0-7, PFI0-5, PXI_Star0-16, SourceA, SourceB, the two
divider selects, Bank0-3, PXIe_DStarA0-16, `ni6674t_remove` releases the 56
terminals in exactly the reverse order, each once, leaves none registered, and
returns the register block as it was: no register is written. -/
theorem remove_releases_in_reverse (env : kernel_env) (sync : ni_sync) (dev : ni6674t)
    (h : ni6674t_init_sysfs env (fresh_device sync) = some (0, dev)) :
    dev.terminals.map route_terminal.rt_desc = bringup_terminals.map some ∧
    (ni6674t_remove dev).released = bringup_terminals.reverse ∧
    bringup_terminals.Nodup ∧ bringup_terminals.length = 56 ∧
    (ni6674t_remove dev).terminals = [] ∧
    (ni6674t_remove dev).sync = dev.sync ∧
    (ni6674t_remove dev).sync.iowrites = dev.sync.iowrites := by
  obtain ⟨hterm, hrel⟩ := ni6674t_init_sysfs_ok env _ _ h
  simp only [fresh_device, List.nil_append] at hterm hrel
  have hsync : (ni6674t_remove dev).sync = dev.sync := by
    rw [ni6674t_remove_eq, release_created_sync]
  refine ⟨?_, ?_, by decide, by decide, ?_, hsync, by rw [hsync]⟩
  · rw [hterm, List.map_map]
    rfl
  · rw [ni6674t_remove_eq, release_created_released, hrel, List.nil_append]
  · apply List.eq_nil_iff_forall_not_mem.2
    intro rt hrt
    rw [ni6674t_remove_eq] at hrt
    obtain ⟨h1, h2⟩ := release_created_terminals dev bringup_terminals rt hrt
    rw [hterm, List.mem_map] at h1
    obtain ⟨d, hd, rfl⟩ := h1
    exact h2 d hd rfl

theorem remove_releases_in_reverse_witness :
    ni6674t_init_sysfs env_ok (fresh_device sync_zero) = some (0, device_after_bringup) ∧
    (ni6674t_remove device_after_bringup).released.take 3 =
      [.dstara_rt_desc 16, .dstara_rt_desc 15, .dstara_rt_desc 14] ∧
    (ni6674t_remove device_after_bringup).released.drop 53 =
      [.pxi_trig_rt_desc 2, .pxi_trig_rt_desc 1, .pxi_trig_rt_desc 0] ∧
    (device_after_bringup.terminals.map route_terminal.rt_desc = bringup_terminals.map some ∧
    (ni6674t_remove device_after_bringup).released = bringup_terminals.reverse ∧
    bringup_terminals.Nodup ∧ bringup_terminals.length = 56 ∧
    (ni6674t_remove device_after_bringup).terminals = [] ∧
    (ni6674t_remove device_after_bringup).sync = device_after_bringup.sync ∧
    (ni6674t_remove device_after_bringup).sync.iowrites =
      device_after_bringup.sync.iowrites) :=
  ⟨by decide!, by decide!, by decide!,
    remove_releases_in_reverse env_ok sync_zero device_after_bringup (by decide!)⟩

/-! ## Failure during bring-up -/

theorem init_and_add_route_terminal_total (env : kernel_env) (d : desc_ptr) (sync : ni_sync)
    (hd : d ∈ bringup_terminals) (h0 : env.kobject_init_and_add d = 0) :
    ∃ sync1, init_and_add_route_terminal env kzalloc_route_terminal d sync =
      some (0, terminal_at d 0 .POLARITY_NORMAL, sync1) := by
  obtain ⟨desc, first, name, hdesc, hhead, _, _, _⟩ :=
    shows_first_input_sound d (shows_first_input_all d hd)
  have he : desc.available_inputs[0]? = some first := by
    cases hl : desc.available_inputs with
    | nil => simp [hl] at hhead
    | cons a as =>
      simp only [hl, List.head?_cons, Option.some.injEq] at hhead
      simp [hhead]
  obtain ⟨sync1, hs⟩ := set_input_and_update_state_ok
    { kzalloc_route_terminal with rt_desc := some d } d desc 0 first sync rfl hdesc he
  refine ⟨sync1, ?_⟩
  unfold init_and_add_route_terminal
  simp only [h0, if_true, hs]
  rfl

theorem init_and_add_route_terminal_fails (env : kernel_env) (d : desc_ptr) (sync : ni_sync)
    (h0 : env.kobject_init_and_add d ≠ 0) :
    init_and_add_route_terminal env kzalloc_route_terminal d sync =
      some (env.kobject_init_and_add d, { kzalloc_route_terminal with rt_desc := some d },
        sync) := by
  unfold init_and_add_route_terminal
  simp only [h0, if_false]

theorem enomem_ne_zero : (-ENOMEM : Int) ≠ 0 := by decide

theorem init_route_terminals_loop_all (env : kernel_env) (rtt created : List desc_ptr)
    (dev : ni6674t) (hl : ∀ x ∈ rtt, x ∈ bringup_terminals)
    (hs : ∀ x ∈ rtt, creation_succeeds env x) :
    ∃ dev1, init_route_terminals_loop env rtt created dev = some (0, dev1) ∧
      dev1.released = dev.released := by
  induction rtt generalizing created dev with
  | nil => exact ⟨dev, rfl, rfl⟩
  | cons d rtt ih =>
    obtain ⟨hk, h0⟩ := hs d (List.mem_cons_self d rtt)
    obtain ⟨sync1, hi⟩ := init_and_add_route_terminal_total env d dev.sync
      (hl d (List.mem_cons_self d rtt)) h0
    obtain ⟨dev1, h1, h2⟩ := ih (created ++ [d])
      (ni6674t.mk (dev.terminals ++ [terminal_at d 0 .POLARITY_NORMAL]) dev.released sync1)
      (fun x hx => hl x (List.mem_cons_of_mem d hx))
      (fun x hx => hs x (List.mem_cons_of_mem d hx))
    refine ⟨dev1, ?_, h2⟩
    simp only [init_route_terminals_loop, hk, if_true, hi]
    exact h1

theorem init_route_terminals_loop_fails (env : kernel_env) (pre : List desc_ptr)
    (d : desc_ptr) (post created : List desc_ptr) (dev : ni6674t)
    (hl : ∀ x ∈ pre, x ∈ bringup_terminals)
    (hs : ∀ x ∈ pre, creation_succeeds env x) (hf : creation_fails env d) :
    ∃ err dev1, init_route_terminals_loop env (pre ++ d :: post) created dev =
        some (err, dev1) ∧ err ≠ 0 ∧
      dev1.released = dev.released ++ (created ++ pre).reverse := by
  induction pre generalizing created dev with
  | nil =>
    simp only [List.nil_append, List.append_nil]
    by_cases hk : env.kzalloc d = true
    · have h0 : env.kobject_init_and_add d ≠ 0 := by
        rcases hf with h | h
        · rw [hk] at h
          exact absurd h (by decide)
        · exact h
      refine ⟨env.kobject_init_and_add d, release_created dev created, ?_, h0,
        release_created_released _ _⟩
      simp only [init_route_terminals_loop, hk, if_true,
        init_and_add_route_terminal_fails env d dev.sync h0, h0, if_false]
    · refine ⟨-ENOMEM, release_created dev created, ?_, enomem_ne_zero,
        release_created_released _ _⟩
      simp only [init_route_terminals_loop, hk, Bool.false_eq_true, if_false]
  | cons x pre ih =>
    obtain ⟨hk, h0⟩ := hs x (List.mem_cons_self x pre)
    obtain ⟨sync1, hi⟩ := init_and_add_route_terminal_total env x dev.sync
      (hl x (List.mem_cons_self x pre)) h0
    obtain ⟨err, dev1, h1, h2, h3⟩ := ih (created ++ [x])
      (ni6674t.mk (dev.terminals ++ [terminal_at x 0 .POLARITY_NORMAL]) dev.released sync1)
      (fun y hy => hl y (List.mem_cons_of_mem x hy))
      (fun y hy => hs y (List.mem_cons_of_mem x hy))
    refine ⟨err, dev1, ?_, h2, ?_⟩
    · simp only [List.cons_append, init_route_terminals_loop, hk, if_true, hi]
      exact h1
    · rw [h3]
      simp only [List.append_assoc, List.singleton_append]

theorem init_route_terminals_unwinds (env : kernel_env) (l : List desc_ptr)
    (hl : ∀ x ∈ l, x ∈ bringup_terminals) :
    phase_unwinds env (fun dev => init_route_terminals_loop env l [] dev) l := by
  constructor
  · intro dev hs
    exact init_route_terminals_loop_all env l [] dev hl hs
  · intro dev pre d post hsplit hs hf
    subst hsplit
    obtain ⟨err, dev1, h1, h2, h3⟩ := init_route_terminals_loop_fails env pre d post [] dev
      (fun x hx => hl x (List.mem_append_left _ hx)) hs hf
    exact ⟨err, dev1, h1, h2, by rw [h3, List.nil_append]⟩

theorem init_basic_terminal_succeeds (env : kernel_env) (dev : ni6674t) (d : desc_ptr)
    (hd : d ∈ bringup_terminals) (hs : creation_succeeds env d) :
    ∃ dev1, init_basic_terminal env dev d = some (0, dev1) ∧ dev1.released = dev.released := by
  obtain ⟨hk, h0⟩ := hs
  obtain ⟨sync1, hi⟩ := init_and_add_route_terminal_total env d dev.sync hd h0
  refine ⟨ni6674t.mk (dev.terminals ++ [terminal_at d 0 .POLARITY_NORMAL]) dev.released sync1,
    ?_, rfl⟩
  simp only [init_basic_terminal, hk, if_true, hi]

theorem init_basic_terminal_fails (env : kernel_env) (dev : ni6674t) (d : desc_ptr)
    (hf : creation_fails env d) :
    ∃ err dev1, init_basic_terminal env dev d = some (err, dev1) ∧ err ≠ 0 ∧
      dev1.released = dev.released := by
  by_cases hk : env.kzalloc d = true
  · have h0 : env.kobject_init_and_add d ≠ 0 := by
      rcases hf with h | h
      · rw [hk] at h
        exact absurd h (by decide)
      · exact h
    refine ⟨env.kobject_init_and_add d, ni6674t.mk dev.terminals dev.released dev.sync,
      ?_, h0, rfl⟩
    simp only [init_basic_terminal, hk, if_true,
      init_and_add_route_terminal_fails env d dev.sync h0, h0, if_false]
  · refine ⟨-ENOMEM, dev, ?_, enomem_ne_zero, rfl⟩
    simp only [init_basic_terminal, hk, Bool.false_eq_true, if_false]

theorem init_basic_terminals_loop_all (env : kernel_env) (ds created : List desc_ptr)
    (dev : ni6674t) (hl : ∀ x ∈ ds, x ∈ bringup_terminals)
    (hs : ∀ x ∈ ds, creation_succeeds env x) :
    ∃ dev1, init_basic_terminals_loop env ds created dev = some (0, dev1, created ++ ds) ∧
      dev1.released = dev.released := by
  induction ds generalizing created dev with
  | nil => exact ⟨dev, by simp [init_basic_terminals_loop], rfl⟩
  | cons d ds ih =>
    obtain ⟨dev1, h1, h2⟩ := init_basic_terminal_succeeds env dev d
      (hl d (List.mem_cons_self d ds)) (hs d (List.mem_cons_self d ds))
    obtain ⟨dev2, h3, h4⟩ := ih (created ++ [d]) dev1
      (fun x hx => hl x (List.mem_cons_of_mem d hx))
      (fun x hx => hs x (List.mem_cons_of_mem d hx))
    refine ⟨dev2, ?_, h4.trans h2⟩
    simp only [init_basic_terminals_loop, h1, if_true, h3, List.append_assoc,
      List.singleton_append]

theorem init_basic_terminals_loop_fails (env : kernel_env) (pre : List desc_ptr)
    (d : desc_ptr) (post created : List desc_ptr) (dev : ni6674t)
    (hl : ∀ x ∈ pre, x ∈ bringup_terminals)
    (hs : ∀ x ∈ pre, creation_succeeds env x) (hf : creation_fails env d) :
    ∃ err dev1, init_basic_terminals_loop env (pre ++ d :: post) created dev =
        some (err, dev1, created ++ pre) ∧ err ≠ 0 ∧ dev1.released = dev.released := by
  induction pre generalizing created dev with
  | nil =>
    obtain ⟨err, dev1, h1, h2, h3⟩ := init_basic_terminal_fails env dev d hf
    refine ⟨err, dev1, ?_, h2, h3⟩
    simp only [List.nil_append, List.append_nil, init_basic_terminals_loop, h1, h2, if_false]
  | cons x pre ih =>
    obtain ⟨dev1, h1, h2⟩ := init_basic_terminal_succeeds env dev x
      (hl x (List.mem_cons_self x pre)) (hs x (List.mem_cons_self x pre))
    obtain ⟨err, dev2, h3, h4, h5⟩ := ih (created ++ [x]) dev1
      (fun y hy => hl y (List.mem_cons_of_mem x hy))
      (fun y hy => hs y (List.mem_cons_of_mem x hy))
    refine ⟨err, dev2, ?_, h4, h5.trans h2⟩
    show init_basic_terminals_loop env (x :: (pre ++ d :: post)) created dev = _
    simp only [init_basic_terminals_loop, h1, if_true]
    rw [h3]
    simp only [List.append_assoc, List.singleton_append]

theorem init_basic_terminals_loop_append (env : kernel_env) (l1 l2 created : List desc_ptr)
    (dev : ni6674t) :
    init_basic_terminals_loop env (l1 ++ l2) created dev =
      match init_basic_terminals_loop env l1 created dev with
      | none => none
      | some (err, dev1, c1) =>
        if err = 0 then init_basic_terminals_loop env l2 c1 dev1 else some (err, dev1, c1) := by
  induction l1 generalizing created dev with
  | nil => simp [init_basic_terminals_loop]
  | cons d l1 ih =>
    simp only [List.cons_append, init_basic_terminals_loop]
    cases h : init_basic_terminal env dev d with
    | none => rfl
    | some p =>
      obtain ⟨err, dev1⟩ := p
      by_cases he : err = 0
      · simp only [he, if_true]
        exact ih _ _
      · simp only [he, if_false]

theorem init_basic_terminals_loop_created (env : kernel_env) (l created : List desc_ptr)
    (dev : ni6674t) :
    init_basic_terminals_loop env l created dev =
      (init_basic_terminals_loop env l [] dev).map
        (fun r => (r.1, r.2.1, created ++ r.2.2)) := by
  induction l generalizing created dev with
  | nil => simp [init_basic_terminals_loop]
  | cons d l ih =>
    simp only [init_basic_terminals_loop]
    cases h : init_basic_terminal env dev d with
    | none => rfl
    | some p =>
      obtain ⟨err, dev1⟩ := p
      by_cases he : err = 0
      · simp only [he, if_true]
        rw [ih (created ++ [d]) dev1, ih ([] ++ [d]) dev1]
        cases init_basic_terminals_loop env l [] dev1 with
        | none => rfl
        | some r => simp
      · simp [he]

theorem append_split {α : Type} (l1 rest pre : List α) (d : α) (post : List α)
    (h : l1 ++ rest = pre ++ d :: post) :
    (∃ post1, l1 = pre ++ d :: post1) ∨ (∃ pre1, pre = l1 ++ pre1 ∧ rest = pre1 ++ d :: post) := by
  rcases List.append_eq_append_iff.1 h with ⟨a, h1, h2⟩ | ⟨c, h1, h2⟩
  · exact Or.inr ⟨a, h1, h2⟩
  · cases c with
    | nil =>
      refine Or.inr ⟨[], ?_, ?_⟩
      · simpa using h1.symm
      · simpa using h2.symm
    | cons x c =>
      simp only [List.cons_append, List.cons.injEq] at h2
      obtain ⟨rfl, _⟩ := h2
      exact Or.inl ⟨c, h1⟩

theorem release_created_append (dev : ni6674t) (l1 l2 : List desc_ptr) :
    release_created dev (l1 ++ l2) = release_created (release_created dev l2) l1 := by
  simp only [release_created, List.reverse_append, List.foldl_append]

theorem init_basic_terminals_loop_created_ok (env : kernel_env) (l created c : List desc_ptr)
    (dev dev1 : ni6674t)
    (h : init_basic_terminals_loop env l created dev = some (0, dev1, c)) :
    c = created ++ l := by
  induction l generalizing created dev with
  | nil =>
    simp only [init_basic_terminals_loop, Option.some.injEq, Prod.mk.injEq, true_and] at h
    rw [← h.2, List.append_nil]
  | cons d l ih =>
    simp only [init_basic_terminals_loop] at h
    cases hi : init_basic_terminal env dev d with
    | none => simp [hi] at h
    | some p =>
      obtain ⟨err, dev2⟩ := p
      simp only [hi] at h
      by_cases he : err = 0
      · simp only [he, if_true] at h
        rw [ih _ _ h, List.append_assoc, List.singleton_append]
      · simp only [he, if_false, Option.some.injEq, Prod.mk.injEq] at h
        exact h.1.elim

theorem init_other_terminals_eq (env : kernel_env) (dev : ni6674t) :
    init_other_terminals env dev =
      match init_basic_terminals_loop env
          ([.srca_rt_desc, .srcb_rt_desc, .srca_div_sel_rt_desc, .srcb_div_sel_rt_desc] ++
            bank_ptrs ++ dstara_ptrs) [] dev with
      | none => none
      | some (err, dev1, created) =>
        if err ≠ 0 then some (err, release_created dev1 created)
        else some (0, enable_clkin dev1) := by
  unfold init_other_terminals
  generalize bank_ptrs = B
  generalize dstara_ptrs = D
  rw [List.append_assoc, init_basic_terminals_loop_append]
  simp only [init_basic_terminals_loop, List.nil_append, List.cons_append]
  cases h1 : init_basic_terminal env dev .srca_rt_desc with
  | none => rfl
  | some p1 =>
  obtain ⟨e1, d1⟩ := p1
  by_cases he1 : e1 = 0
  swap
  · simp [he1, release_created]
  subst he1
  simp only [ne_eq, not_true_eq_false, if_false, if_true]
  cases h2 : init_basic_terminal env d1 .srcb_rt_desc with
  | none => rfl
  | some p2 =>
  obtain ⟨e2, d2⟩ := p2
  by_cases he2 : e2 = 0
  swap
  · simp [he2, release_created]
  subst he2
  simp only [not_true_eq_false, if_false, if_true]
  cases h3 : init_basic_terminal env d2 .srca_div_sel_rt_desc with
  | none => rfl
  | some p3 =>
  obtain ⟨e3, d3⟩ := p3
  by_cases he3 : e3 = 0
  swap
  · simp [he3, release_created]
  subst he3
  simp only [not_true_eq_false, if_false, if_true]
  cases h4 : init_basic_terminal env d3 .srcb_div_sel_rt_desc with
  | none => rfl
  | some p4 =>
  obtain ⟨e4, d4⟩ := p4
  by_cases he4 : e4 = 0
  swap
  · simp [he4, release_created]
  subst he4
  simp only [not_true_eq_false, if_false, if_true]
  rw [init_basic_terminals_loop_append, init_basic_terminals_loop_created env B
    [.srca_rt_desc, .srcb_rt_desc, .srca_div_sel_rt_desc, .srcb_div_sel_rt_desc]]
  cases h5 : init_basic_terminals_loop env B [] d4 with
  | none => rfl
  | some p5 =>
  obtain ⟨e5, d5, c5⟩ := p5
  by_cases he5 : e5 = 0
  swap
  · simp [he5]
  subst he5
  simp only [Option.map_some', not_true_eq_false, if_false, if_true]
  have hc5 : c5 = [] ++ B := init_basic_terminals_loop_created_ok env B [] c5 d4 d5 h5
  rw [List.nil_append] at hc5
  subst hc5
  rw [init_basic_terminals_loop_created env D
    ([desc_ptr.srca_rt_desc, .srcb_rt_desc, .srca_div_sel_rt_desc, .srcb_div_sel_rt_desc] ++
      c5)]
  cases h6 : init_basic_terminals_loop env D [] d5 with
  | none => rfl
  | some p6 =>
  obtain ⟨e6, d6, c6⟩ := p6
  by_cases he6 : e6 = 0
  · simp [he6]
  · simp [he6]

theorem init_other_terminals_unwinds (env : kernel_env) :
    phase_unwinds env (init_other_terminals env)
      ([.srca_rt_desc, .srcb_rt_desc, .srca_div_sel_rt_desc, .srcb_div_sel_rt_desc] ++
        bank_ptrs ++ dstara_ptrs) := by
  have hl : ∀ x ∈ ([desc_ptr.srca_rt_desc, .srcb_rt_desc, .srca_div_sel_rt_desc,
      .srcb_div_sel_rt_desc] ++ bank_ptrs ++ dstara_ptrs), x ∈ bringup_terminals := by
    decide
  constructor
  · intro dev hs
    obtain ⟨dev1, h1, h2⟩ := init_basic_terminals_loop_all env _ [] dev hl hs
    refine ⟨enable_clkin dev1, ?_, h2⟩
    rw [init_other_terminals_eq, h1]
    rfl
  · intro dev pre d post hsplit hs hf
    rw [init_other_terminals_eq, hsplit]
    obtain ⟨err, dev1, h1, h2, h3⟩ := init_basic_terminals_loop_fails env pre d post [] dev
      (fun x hx => hl x (by rw [hsplit]; exact List.mem_append_left _ hx)) hs hf
    refine ⟨err, release_created dev1 pre, ?_, h2, ?_⟩
    · rw [h1]
      simp only [ne_eq, h2, not_false_eq_true, if_true, List.nil_append]
    · rw [release_created_released, h3]

theorem ni6674t_init_sysfs_unwinds (env : kernel_env)
    (hkset : env.kset_create_and_add = true) :
    phase_unwinds env (ni6674t_init_sysfs env) bringup_terminals := by
  have hb : bringup_terminals = pxi_trig_ptrs ++ (pfi_ptrs ++ (pxi_star_ptrs ++
      ([desc_ptr.srca_rt_desc, .srcb_rt_desc, .srca_div_sel_rt_desc, .srcb_div_sel_rt_desc] ++
        bank_ptrs ++ dstara_ptrs))) := by
    simp only [bringup_terminals, List.append_assoc]
  have ht := init_route_terminals_unwinds env pxi_trig_ptrs (by decide)
  have hp := init_route_terminals_unwinds env pfi_ptrs (by decide)
  have hs := init_route_terminals_unwinds env pxi_star_ptrs (by decide)
  have ho := init_other_terminals_unwinds env
  constructor
  · intro dev hall
    rw [hb] at hall
    obtain ⟨d1, a1, b1⟩ := ht.1 dev (fun x hx => hall x (List.mem_append_left _ hx))
    obtain ⟨d2, a2, b2⟩ := hp.1 d1 (fun x hx => hall x
      (List.mem_append_right _ (List.mem_append_left _ hx)))
    obtain ⟨d3, a3, b3⟩ := hs.1 d2 (fun x hx => hall x
      (List.mem_append_right _ (List.mem_append_right _ (List.mem_append_left _ hx))))
    obtain ⟨d4, a4, b4⟩ := ho.1 d3 (fun x hx => hall x
      (List.mem_append_right _ (List.mem_append_right _ (List.mem_append_right _ hx))))
    refine ⟨d4, ?_, by rw [b4, b3, b2, b1]⟩
    simp only at a1 a2 a3
    simp only [ni6674t_init_sysfs, hkset, if_true, init_pxi_trig_terminals, a1,
      init_pfi_terminals, init_route_terminals, a2, init_pxi_star_terminals, a3, a4, ne_eq,
      not_true_eq_false, if_false]
  · intro dev pre d post hsplit hpre hf
    rw [hb] at hsplit
    rcases append_split _ _ _ _ _ hsplit with ⟨post1, e1⟩ | ⟨pre1, e1, r1⟩
    · obtain ⟨err, d1, a1, n1, b1⟩ := ht.2 dev pre d post1 e1 hpre hf
      simp only at a1
      refine ⟨err, d1, ?_, n1, b1⟩
      simp only [ni6674t_init_sysfs, hkset, if_true, init_pxi_trig_terminals, a1, ne_eq, n1,
        not_false_eq_true]
    · subst e1
      obtain ⟨d1, a1, b1⟩ := ht.1 dev (fun x hx => hpre x (List.mem_append_left _ hx))
      simp only at a1
      rcases append_split _ _ _ _ _ r1 with ⟨post2, e2⟩ | ⟨pre2, e2, r2⟩
      · obtain ⟨err, d2, a2, n2, b2⟩ := hp.2 d1 pre1 d post2 e2
          (fun x hx => hpre x (List.mem_append_right _ hx)) hf
        simp only at a2
        refine ⟨err, release_pxi_trig_terminals d2, ?_, n2, ?_⟩
        · simp only [ni6674t_init_sysfs, hkset, if_true, init_pxi_trig_terminals, a1, ne_eq,
            not_true_eq_false, if_false, init_pfi_terminals, init_route_terminals, a2, n2,
            not_false_eq_true]
        · simp only [release_pxi_trig_terminals, release_created_released, b2, b1,
            List.reverse_append, List.append_assoc]
      · subst e2
        obtain ⟨d2, a2, b2⟩ := hp.1 d1 (fun x hx => hpre x
          (List.mem_append_right _ (List.mem_append_left _ hx)))
        simp only at a2
        rcases append_split _ _ _ _ _ r2 with ⟨post3, e3⟩ | ⟨pre3, e3, r3⟩
        · obtain ⟨err, d3, a3, n3, b3⟩ := hs.2 d2 pre2 d post3 e3
            (fun x hx => hpre x (List.mem_append_right _ (List.mem_append_right _ hx))) hf
          simp only at a3
          refine ⟨err, release_pxi_trig_terminals (release_pfi_terminals d3), ?_, n3, ?_⟩
          · simp only [ni6674t_init_sysfs, hkset, if_true, init_pxi_trig_terminals, a1, ne_eq,
              not_true_eq_false, if_false, init_pfi_terminals, init_route_terminals, a2,
              init_pxi_star_terminals, a3, n3, not_false_eq_true]
          · simp only [release_pxi_trig_terminals, release_pfi_terminals,
              release_created_released, b3, b2, b1, List.reverse_append, List.append_assoc]
        · subst e3
          obtain ⟨d3, a3, b3⟩ := hs.1 d2 (fun x hx => hpre x
            (List.mem_append_right _ (List.mem_append_right _ (List.mem_append_left _ hx))))
          simp only at a3
          obtain ⟨err, d4, a4, n4, b4⟩ := ho.2 d3 pre3 d post r3
            (fun x hx => hpre x (List.mem_append_right _ (List.mem_append_right _
              (List.mem_append_right _ hx)))) hf
          refine ⟨err, release_pxi_trig_terminals (release_pfi_terminals
            (release_pxi_star_terminals d4)), ?_, n4, ?_⟩
          · simp only [ni6674t_init_sysfs, hkset, if_true, init_pxi_trig_terminals, a1, ne_eq,
              not_true_eq_false, if_false, init_pfi_terminals, init_route_terminals, a2,
              init_pxi_star_terminals, a3, a4, n4, not_false_eq_true]
          · simp only [release_pxi_trig_terminals, release_pfi_terminals,
              release_pxi_star_terminals, release_created_released, b4, b3, b2, b1,
              List.reverse_append, List.append_assoc]

theorem split_at_index {α : Type} (l : List α) (k : Nat) (d : α) (h : l[k]? = some d) :
    l = l.take k ++ d :: l.drop (k + 1) ∧ k < l.length := by
  obtain ⟨hk, hd⟩ := List.getElem?_eq_some.1 h
  refine ⟨?_, hk⟩
  rw [← hd, ← List.drop_eq_getElem_cons hk, List.take_append_drop]

/-- C24: let the creation of the first `k` terminals of the creation order
(PXI_Trig0-7, PFI0-5, PXI_Star0-16, SourceA, SourceB, the two divider selects,
Bank0-3, PXIe_DStarA0-16) succeed and the creation of the next one, `d`, fail,
through its `kzalloc` or its `kobject_init_and_add`.  Then `ni6674t_init_sysfs`
returns a non-zero error and has released exactly those `k` terminals, each
once, last created first. -/
theorem bringup_failure_unwinds (env : kernel_env) (sync : ni_sync) (k : Nat) (d : desc_ptr)
    (hkset : env.kset_create_and_add = true) (hd : bringup_terminals[k]? = some d)
    (hpre : ∀ x ∈ bringup_terminals.take k, creation_succeeds env x)
    (hfail : creation_fails env d) :
    ∃ err dev, ni6674t_init_sysfs env (fresh_device sync) = some (err, dev) ∧ err ≠ 0 ∧
      dev.released = (bringup_terminals.take k).reverse ∧
      dev.released.Nodup ∧ dev.released.length = k ∧ k ≤ 55 := by
  obtain ⟨hsplit, hk⟩ := split_at_index bringup_terminals k d hd
  obtain ⟨err, dev, h1, h2, h3⟩ := (ni6674t_init_sysfs_unwinds env hkset).2
    (fresh_device sync) _ d _ hsplit hpre hfail
  have hrel : dev.released = (bringup_terminals.take k).reverse := by
    rw [h3]
    rfl
  have hlen : bringup_terminals.length = 56 := by decide
  have hnd : bringup_terminals.Nodup := by decide
  refine ⟨err, dev, h1, h2, hrel, ?_, ?_, by omega⟩
  · rw [hrel, List.nodup_reverse]
    exact hnd.sublist (List.take_sublist k _)
  · rw [hrel, List.length_reverse, List.length_take]
    omega

theorem bringup_failure_unwinds_witness :
    (env_no_memory_for_pfi1.kset_create_and_add = true ∧
      bringup_terminals[9]? = some (.pfi_rt_desc 1) ∧
      (∀ x ∈ bringup_terminals.take 9, creation_succeeds env_no_memory_for_pfi1 x) ∧
      creation_fails env_no_memory_for_pfi1 (.pfi_rt_desc 1)) ∧
    (ni6674t_init_sysfs env_no_memory_for_pfi1 (fresh_device sync_zero)).map
        (fun r => (r.1, r.2.released)) =
      some (-ENOMEM, [.pfi_rt_desc 0, .pxi_trig_rt_desc 7, .pxi_trig_rt_desc 6,
        .pxi_trig_rt_desc 5, .pxi_trig_rt_desc 4, .pxi_trig_rt_desc 3, .pxi_trig_rt_desc 2,
        .pxi_trig_rt_desc 1, .pxi_trig_rt_desc 0]) ∧
    ∃ err dev, ni6674t_init_sysfs env_no_memory_for_pfi1 (fresh_device sync_zero) =
        some (err, dev) ∧ err ≠ 0 ∧
      dev.released = (bringup_terminals.take 9).reverse ∧
      dev.released.Nodup ∧ dev.released.length = 9 ∧ 9 ≤ 55 :=
  ⟨⟨rfl, by decide, by decide, by decide⟩, by decide!,
    bringup_failure_unwinds env_no_memory_for_pfi1 sync_zero 9 (.pfi_rt_desc 1) rfl
      (by decide) (by decide) (by decide)⟩

/-! ## Order of registration and initialisation -/

set_option maxRecDepth 100000 in
/-- C23 fails for every terminal, shown here for PXI_Trig0 with the registers
zero: `init_and_add_route_terminal` first registers the terminal
(`kobject_init_and_add`), at which point its current input is still the null
pointer of `kzalloc`, a read of `current_input` dereferences it, and nothing
has been written to the trigger-control register; only then does
`set_input_and_update_state` set the first input and write the word
`0x01001000`.  The same order holds for each of the 56 terminals. -/
theorem terminal_registered_before_input_set :
    init_and_add_route_terminal_steps env_ok kzalloc_route_terminal (.pxi_trig_rt_desc 0)
        sync_zero =
      [.registered
          { rt_desc := some (.pxi_trig_rt_desc 0), input := none, polarity := .POLARITY_NORMAL }
          sync_zero,
        .input_set (terminal_at (.pxi_trig_rt_desc 0) 0 .POLARITY_NORMAL)
          (iowrite32 0x01001000 .triggerctrl sync_zero)] ∧
    route_terminal_current_input_show
      { rt_desc := some (.pxi_trig_rt_desc 0), input := none, polarity := .POLARITY_NORMAL } =
        none ∧
    sync_zero.iowrites = [] ∧
    bringup_terminals.all registered_unset = true := by
  refine ⟨by decide!, by decide!, by decide, by decide!⟩

/-! ## Device attach -/

/-- C29 fails when the `ioremap` of the routing register block returns a null
pointer after a successful load: `ni6674t_probe` takes the error path (it
unmaps the bridge registers, disables the device, releases the regions and
frees the device object) but returns 0, the value `err` kept from
`ni6674t_load_fpga`.  With every step succeeding it returns 0 with no cleanup,
and with a busy DAC it returns `-EIO`. -/
theorem probe_returns_zero_when_sync_map_fails :
    env_sync_map_fails.ioremap_sync = false ∧
    ni6674t_probe env_sync_map_fails =
      some (0, [.iounmap_mite, .pci_disable_device, .pci_release_regions,
        .pci_set_drvdata_null, .kfree_dev]) ∧
    ni6674t_probe env_attach_ok = some (0, []) ∧
    ni6674t_probe env_dac_busy =
      some (- EIO, [.iounmap_sync, .iounmap_mite, .pci_disable_device, .pci_release_regions,
        .pci_set_drvdata_null, .kfree_dev]) := by
  refine ⟨rfl, by decide!, by decide!, by decide!⟩

/-- A return value of 0 from `ni6674t_probe` means that every step of the
attach succeeded, or that every step through the load succeeded and the
`ioremap` of the routing register block failed. -/
theorem probe_zero_cases (env : probe_env) (cl : List probe_cleanup)
    (h : ni6674t_probe env = some (0, cl)) :
    env.kzalloc_dev = true ∧ env.pci_request_regions = 0 ∧ env.pci_enable_device = 0 ∧
    env.ioremap_mite = true ∧ (ni6674t_load_fpga env.load).1 = 0 ∧
    (env.ioremap_sync = false ∨
      (env.ioremap_sync = true ∧ (ni6674t_init_dac env env.sync).1 = 0 ∧
        ∃ dev, ni6674t_init_sysfs env.sysfs
          (fresh_device (ni6674t_init_dac env env.sync).2.2) = some (0, dev))) := by
  have hm : (-ENOMEM : Int) ≠ 0 := by decide
  have he : (- EIO : Int) ≠ 0 := by decide
  unfold ni6674t_probe at h
  by_cases h1 : env.kzalloc_dev = true
  swap
  · have : env.kzalloc_dev = false := by
      cases hk : env.kzalloc_dev
      · rfl
      · exact absurd hk h1
    simp only [this, if_true, Option.some.injEq, Prod.mk.injEq] at h
    exact absurd h.1 hm
  simp only [h1, Bool.true_eq_false, if_false] at h
  by_cases h2 : env.pci_request_regions = 0
  swap
  · simp only [ne_eq, h2, not_false_eq_true, if_true, Option.some.injEq, Prod.mk.injEq] at h
    exact h.1.elim
  simp only [ne_eq, h2, not_true_eq_false, if_false] at h
  by_cases h3 : env.pci_enable_device = 0
  swap
  · simp only [h3, not_false_eq_true, if_true, Option.some.injEq, Prod.mk.injEq] at h
    exact h.1.elim
  simp only [h3, not_true_eq_false, if_false] at h
  by_cases h4 : env.ioremap_mite = true
  swap
  · have : env.ioremap_mite = false := by
      cases hk : env.ioremap_mite
      · rfl
      · exact absurd hk h4
    simp only [this, if_true, Option.some.injEq, Prod.mk.injEq] at h
    exact absurd h.1 he
  simp only [h4, Bool.true_eq_false, if_false] at h
  by_cases h5 : (ni6674t_load_fpga env.load).1 = 0
  swap
  · simp only [h5, not_false_eq_true, if_true, Option.some.injEq, Prod.mk.injEq] at h
    exact h.1.elim
  simp only [h5, not_true_eq_false, if_false] at h
  refine ⟨h1, h2, h3, h4, h5, ?_⟩
  by_cases h6 : env.ioremap_sync = true
  swap
  · left
    cases hk : env.ioremap_sync
    · rfl
    · exact absurd hk h6
  right
  simp only [h6, Bool.true_eq_false, if_false] at h
  rcases hd : ni6674t_init_dac env env.sync with ⟨e7, n7, s7⟩
  rw [hd] at h
  simp only at h ⊢
  by_cases h7 : e7 = 0
  swap
  · simp only [h7, not_false_eq_true, if_true, Option.some.injEq, Prod.mk.injEq] at h
    exact h.1.elim
  simp only [h7, not_true_eq_false, if_false] at h
  refine ⟨h6, h7, ?_⟩
  cases hs : ni6674t_init_sysfs env.sysfs (fresh_device s7) with
  | none => simp [hs] at h
  | some p =>
    obtain ⟨e8, dev⟩ := p
    simp only [hs] at h
    by_cases h8 : e8 = 0
    · subst h8
      exact ⟨dev, rfl⟩
    · simp only [h8, not_false_eq_true, if_true, Option.some.injEq, Prod.mk.injEq] at h
      exact h.1.elim

/-! ## Static routing tables -/

theorem routing_codes_ok_all : ∀ d ∈ trigger_terminals, routing_codes_ok d = true := by
  decide!

theorem floating_code_ok_all : ∀ d ∈ bringup_terminals, floating_code_ok d = true := by
  decide!

set_option maxRecDepth 100000 in
theorem dest_codes_differ_all :
    ∀ d1 ∈ trigger_terminals, ∀ d2 ∈ trigger_terminals, dest_codes_differ d1 d2 = true := by
  decide!

theorem input_code_ok_sound (e : route_terminal_input) (h : input_code_ok e = true)
    (x : desc_ptr) (hx : e.desc = some x) :
    (x ∈ trigger_terminals → ∃ xd, deref_desc x = some xd ∧ e.data = xd.dest_data) ∧
    (x = .rt_floating → e.data = 0) := by
  unfold input_code_ok at h
  rw [hx] at h
  simp only [Bool.and_eq_true] at h
  obtain ⟨h1, h2⟩ := h
  constructor
  · intro hmem
    rw [if_pos hmem] at h1
    cases hxd : deref_desc x with
    | none => rw [hxd] at h1; simp at h1
    | some xd =>
      rw [hxd] at h1
      exact ⟨xd, rfl, of_decide_eq_true h1⟩
  · intro hfl
    rw [if_pos hfl] at h2
    exact of_decide_eq_true h2

/-- C31: the routing codes of the descriptor tables are consistent.  For every
dedicated-register terminal (PXI_Trig0-7, PFI0-5, PXI_Star0-16; 31 in all) the
destination code is `n + 1`, `n + 9` or `n + 43` as the specification says;
every entry of its input list that refers to a dedicated-register terminal X
carries the destination code of X, and an entry that refers to the floating
pseudo-source carries 0 (this also holds in the list of every other terminal
created at bring-up); two different dedicated-register terminals have
different destination codes. -/
theorem routing_codes_consistent (d : desc_ptr) (hd : d ∈ trigger_terminals) :
    trigger_terminals.length = 31 ∧
    (∃ desc, deref_desc d = some desc ∧
      dest_code_spec d = some desc.dest_data ∧
      ∀ e ∈ listed_inputs desc, ∀ x, e.desc = some x →
        (x ∈ trigger_terminals → ∃ xd, deref_desc x = some xd ∧ e.data = xd.dest_data) ∧
        (x = .rt_floating → e.data = 0)) ∧
    (∀ t ∈ bringup_terminals, ∃ tdesc, deref_desc t = some tdesc ∧
      ∀ e ∈ listed_inputs tdesc, e.desc = some .rt_floating → e.data = 0) ∧
    (∀ d2 ∈ trigger_terminals, d ≠ d2 →
      ∃ desc desc2, deref_desc d = some desc ∧ deref_desc d2 = some desc2 ∧
        desc.dest_data ≠ desc2.dest_data) := by
  refine ⟨by decide, ?_, ?_, ?_⟩
  · have hok := routing_codes_ok_all d hd
    unfold routing_codes_ok at hok
    cases hdesc : deref_desc d with
    | none => rw [hdesc] at hok; simp at hok
    | some desc =>
      rw [hdesc] at hok
      simp only [Bool.and_eq_true, decide_eq_true_eq, List.all_eq_true] at hok
      exact ⟨desc, rfl, hok.1, fun e he x hx => input_code_ok_sound e (hok.2 e he) x hx⟩
  · intro t ht
    have hok := floating_code_ok_all t ht
    unfold floating_code_ok at hok
    cases hdesc : deref_desc t with
    | none => rw [hdesc] at hok; simp at hok
    | some tdesc =>
      rw [hdesc] at hok
      simp only [List.all_eq_true] at hok
      refine ⟨tdesc, rfl, fun e he hfl => ?_⟩
      have h := hok e he
      rw [if_pos hfl] at h
      exact of_decide_eq_true h
  · intro d2 hd2 hne
    have hok := dest_codes_differ_all d hd d2 hd2
    unfold dest_codes_differ at hok
    cases hdesc : deref_desc d with
    | none => rw [hdesc] at hok; simp at hok
    | some desc =>
      cases hdesc2 : deref_desc d2 with
      | none => rw [hdesc, hdesc2] at hok; simp at hok
      | some desc2 =>
        rw [hdesc, hdesc2] at hok
        simp only [Bool.or_eq_true, decide_eq_true_eq] at hok
        rcases hok with h | h
        · exact absurd h hne
        · exact ⟨desc, desc2, rfl, rfl, h⟩

theorem routing_codes_consistent_witness :
    desc_ptr.pfi_rt_desc 2 ∈ trigger_terminals ∧
    (trigger_terminals.length = 31 ∧
    (∃ desc, deref_desc (.pfi_rt_desc 2) = some desc ∧
      dest_code_spec (.pfi_rt_desc 2) = some desc.dest_data ∧
      ∀ e ∈ listed_inputs desc, ∀ x, e.desc = some x →
        (x ∈ trigger_terminals → ∃ xd, deref_desc x = some xd ∧ e.data = xd.dest_data) ∧
        (x = .rt_floating → e.data = 0)) ∧
    (∀ t ∈ bringup_terminals, ∃ tdesc, deref_desc t = some tdesc ∧
      ∀ e ∈ listed_inputs tdesc, e.desc = some .rt_floating → e.data = 0) ∧
    (∀ d2 ∈ trigger_terminals, desc_ptr.pfi_rt_desc 2 ≠ d2 →
      ∃ desc desc2, deref_desc (.pfi_rt_desc 2) = some desc ∧ deref_desc d2 = some desc2 ∧
        desc.dest_data ≠ desc2.dest_data)) :=
  ⟨by decide, routing_codes_consistent (.pfi_rt_desc 2) (by decide)⟩

set_option maxRecDepth 100000 in
theorem line_state_bits_differ_all :
    ∀ d1 ∈ trigger_terminals, ∀ d2 ∈ trigger_terminals,
      line_state_bits_differ d1 d2 = true := by
  decide!

theorem line_state_bit_lt (d : desc_ptr) (hd : d ∈ trigger_terminals) :
    ∃ desc, deref_desc d = some desc ∧ desc.line_state_bit < 32 := by
  have hok := line_state_bit_ok_all d hd
  unfold line_state_bit_ok at hok
  cases hdesc : deref_desc d with
  | none => simp [hdesc] at hok
  | some desc =>
    cases hb : line_state_bit_spec d with
    | none => simp [hdesc, hb] at hok
    | some b =>
      simp only [hdesc, hb, Bool.and_eq_true, decide_eq_true_eq] at hok
      exact ⟨desc, rfl, by rw [hok.1]; exact hok.2⟩

theorem line_state_show_first_word (d : desc_ptr) (desc : route_terminal_desc)
    (hdesc : deref_desc d = some desc) (hlt : desc.line_state_bit < 32)
    (rt : route_terminal) (hrt : rt.rt_desc = some d) (sync : ni_sync) (w0 w1 w2 : Nat)
    (hw : sync.trigread = [w0, w1, w2]) :
    route_terminal_line_state_show rt sync =
      some (2, if w0.testBit desc.line_state_bit then "1\n" else "0\n") := by
  have hdiv : desc.line_state_bit / 32 = 0 := Nat.div_eq_of_lt hlt
  have hmod : desc.line_state_bit % 32 = desc.line_state_bit := Nat.mod_eq_of_lt hlt
  have hbind : rt.rt_desc.bind deref_desc = some desc := by
    rw [hrt]; exact hdesc
  have hshow := line_state_show_bit rt sync desc w0 hbind
    (by rw [hdiv]; decide) (by rw [hdiv, hw]; rfl)
  rw [hmod] at hshow
  exact hshow

/-- C32: the terminals with a `line_state` file are the 31 dedicated-register
terminals.  For two different ones the `line_state_bit` members b1 and b2 are
both below 32 and differ, so each read of the line state takes status word
`b / 32 = 0`, an index inside the three-word array `trigread`, and shows bit
b of that word: the two terminals show two different bits of the first status
word (with only bit b1 set the first shows "1" and the second "0"). -/
theorem line_state_bits_distinct (d1 d2 : desc_ptr)
    (h1 : d1 ∈ trigger_terminals) (h2 : d2 ∈ trigger_terminals) (hne : d1 ≠ d2)
    (rt1 rt2 : route_terminal) (hrt1 : rt1.rt_desc = some d1) (hrt2 : rt2.rt_desc = some d2) :
    bringup_terminals.filter exposes_line_state = trigger_terminals ∧
    trigger_terminals.length = 31 ∧
    ∃ desc1 desc2, deref_desc d1 = some desc1 ∧ deref_desc d2 = some desc2 ∧
      desc1.line_state_bit < 32 ∧ desc2.line_state_bit < 32 ∧
      desc1.line_state_bit / 32 = 0 ∧ desc2.line_state_bit / 32 = 0 ∧
      desc1.line_state_bit / 32 < 3 ∧ desc2.line_state_bit / 32 < 3 ∧
      desc1.line_state_bit ≠ desc2.line_state_bit ∧
      (∀ (sync : ni_sync) (w0 w1 w2 : Nat), sync.trigread = [w0, w1, w2] →
        route_terminal_line_state_show rt1 sync =
          some (2, if w0.testBit desc1.line_state_bit then "1\n" else "0\n") ∧
        route_terminal_line_state_show rt2 sync =
          some (2, if w0.testBit desc2.line_state_bit then "1\n" else "0\n")) ∧
      (∀ (sync : ni_sync) (w1 w2 : Nat),
        sync.trigread = [2 ^ desc1.line_state_bit, w1, w2] →
        route_terminal_line_state_show rt1 sync = some (2, "1\n") ∧
        route_terminal_line_state_show rt2 sync = some (2, "0\n")) := by
  obtain ⟨desc1, hdesc1, hlt1⟩ := line_state_bit_lt d1 h1
  obtain ⟨desc2, hdesc2, hlt2⟩ := line_state_bit_lt d2 h2
  have hdiff : desc1.line_state_bit ≠ desc2.line_state_bit := by
    have hok := line_state_bits_differ_all d1 h1 d2 h2
    unfold line_state_bits_differ at hok
    rw [hdesc1, hdesc2] at hok
    simp only [Bool.or_eq_true, decide_eq_true_eq] at hok
    rcases hok with h | h
    · exact absurd h hne
    · exact h
  have hdiv1 : desc1.line_state_bit / 32 = 0 := Nat.div_eq_of_lt hlt1
  have hdiv2 : desc2.line_state_bit / 32 = 0 := Nat.div_eq_of_lt hlt2
  refine ⟨by decide!, by decide, desc1, desc2, hdesc1, hdesc2, hlt1, hlt2, hdiv1, hdiv2,
    by rw [hdiv1]; decide, by rw [hdiv2]; decide, hdiff, ?_, ?_⟩
  · intro sync w0 w1 w2 hw
    exact ⟨line_state_show_first_word d1 desc1 hdesc1 hlt1 rt1 hrt1 sync w0 w1 w2 hw,
      line_state_show_first_word d2 desc2 hdesc2 hlt2 rt2 hrt2 sync w0 w1 w2 hw⟩
  · intro sync w1 w2 hw
    have s1 := line_state_show_first_word d1 desc1 hdesc1 hlt1 rt1 hrt1 sync _ w1 w2 hw
    have s2 := line_state_show_first_word d2 desc2 hdesc2 hlt2 rt2 hrt2 sync _ w1 w2 hw
    rw [Nat.testBit_two_pow_self] at s1
    rw [Nat.testBit_two_pow_of_ne hdiff] at s2
    exact ⟨by simpa using s1, by simpa using s2⟩

theorem line_state_bits_distinct_witness :
    desc_ptr.pxi_trig_rt_desc 7 ∈ trigger_terminals ∧
    desc_ptr.pfi_rt_desc 0 ∈ trigger_terminals ∧
    desc_ptr.pxi_trig_rt_desc 7 ≠ desc_ptr.pfi_rt_desc 0 ∧
    (bringup_terminals.filter exposes_line_state = trigger_terminals ∧
    trigger_terminals.length = 31 ∧
    ∃ desc1 desc2, deref_desc (.pxi_trig_rt_desc 7) = some desc1 ∧
      deref_desc (.pfi_rt_desc 0) = some desc2 ∧
      desc1.line_state_bit < 32 ∧ desc2.line_state_bit < 32 ∧
      desc1.line_state_bit / 32 = 0 ∧ desc2.line_state_bit / 32 = 0 ∧
      desc1.line_state_bit / 32 < 3 ∧ desc2.line_state_bit / 32 < 3 ∧
      desc1.line_state_bit ≠ desc2.line_state_bit ∧
      (∀ (sync : ni_sync) (w0 w1 w2 : Nat), sync.trigread = [w0, w1, w2] →
        route_terminal_line_state_show
            (terminal_at (.pxi_trig_rt_desc 7) 0 .POLARITY_NORMAL) sync =
          some (2, if w0.testBit desc1.line_state_bit then "1\n" else "0\n") ∧
        route_terminal_line_state_show
            (terminal_at (.pfi_rt_desc 0) 0 .POLARITY_NORMAL) sync =
          some (2, if w0.testBit desc2.line_state_bit then "1\n" else "0\n")) ∧
      (∀ (sync : ni_sync) (w1 w2 : Nat),
        sync.trigread = [2 ^ desc1.line_state_bit, w1, w2] →
        route_terminal_line_state_show
            (terminal_at (.pxi_trig_rt_desc 7) 0 .POLARITY_NORMAL) sync = some (2, "1\n") ∧
        route_terminal_line_state_show
            (terminal_at (.pfi_rt_desc 0) 0 .POLARITY_NORMAL) sync = some (2, "0\n"))) :=
  ⟨by decide, by decide, by decide,
    line_state_bits_distinct (.pxi_trig_rt_desc 7) (.pfi_rt_desc 0) (by decide) (by decide)
      (by decide) (terminal_at (.pxi_trig_rt_desc 7) 0 .POLARITY_NORMAL)
      (terminal_at (.pfi_rt_desc 0) 0 .POLARITY_NORMAL) rfl rfl⟩

set_option maxRecDepth 100000 in
theorem input_list_ok_all : ∀ d ∈ bringup_terminals, input_list_ok d = true := by
  decide!

/-- C33: in the static routing graph every terminal created at bring-up has a
non-empty input list, no entry of the list refers to the terminal itself (by
address or by name), every entry has a name and the names within the list are
pairwise distinct.  PXI_Trig n lists the 3 pseudo-sources, the 6 PFI lines
and the 7 other PXI_Trig lines (16 entries); PFI n lists the 3
pseudo-sources, the 5 other PFI lines, the 8 PXI_Trig lines and the 17
PXI_Star lines (33 entries). -/
theorem input_lists_well_formed (d : desc_ptr) (hd : d ∈ bringup_terminals) :
    ∃ desc, deref_desc d = some desc ∧
      listed_inputs desc ≠ [] ∧
      (∀ e ∈ listed_inputs desc, e.desc ≠ some d) ∧
      desc.name ∉ input_names d ∧
      (input_names d).length = (listed_inputs desc).length ∧
      (input_names d).Nodup ∧
      (∀ n, d = .pxi_trig_rt_desc n →
        input_ptrs d = pseudo_sources ++ pfi_ptrs ++
          pxi_trig_ptrs.filter (fun x => decide (x ≠ .pxi_trig_rt_desc n)) ∧
        (listed_inputs desc).length = 3 + 6 + 7) ∧
      (∀ n, d = .pfi_rt_desc n →
        input_ptrs d = pseudo_sources ++
          pfi_ptrs.filter (fun x => decide (x ≠ .pfi_rt_desc n)) ++
          pxi_trig_ptrs ++ pxi_star_ptrs ∧
        (listed_inputs desc).length = 3 + 5 + 8 + 17) := by
  have hok := input_list_ok_all d hd
  unfold input_list_ok at hok
  cases hdesc : deref_desc d with
  | none => rw [hdesc] at hok; simp at hok
  | some desc =>
    rw [hdesc] at hok
    simp only [Bool.and_eq_true, decide_eq_true_eq, List.all_eq_true, Bool.not_eq_true',
      List.isEmpty_eq_false] at hok
    obtain ⟨⟨⟨⟨⟨⟨hne, hself⟩, hname⟩, hlen⟩, hnodup⟩, hspec⟩, hcount⟩ := hok
    refine ⟨desc, rfl, hne, hself, hname, hlen, hnodup, ?_, ?_⟩
    · intro n hn
      subst hn
      simp only [input_list_spec, input_count_spec, decide_eq_true_eq] at hspec hcount
      exact ⟨hspec, hcount⟩
    · intro n hn
      subst hn
      simp only [input_list_spec, input_count_spec, decide_eq_true_eq] at hspec hcount
      exact ⟨hspec, hcount⟩

theorem input_lists_well_formed_witness :
    desc_ptr.pxi_trig_rt_desc 3 ∈ bringup_terminals ∧
    ∃ desc, deref_desc (.pxi_trig_rt_desc 3) = some desc ∧
      listed_inputs desc ≠ [] ∧
      (∀ e ∈ listed_inputs desc, e.desc ≠ some (.pxi_trig_rt_desc 3)) ∧
      desc.name ∉ input_names (.pxi_trig_rt_desc 3) ∧
      (input_names (.pxi_trig_rt_desc 3)).length = (listed_inputs desc).length ∧
      (input_names (.pxi_trig_rt_desc 3)).Nodup ∧
      (∀ n, desc_ptr.pxi_trig_rt_desc 3 = .pxi_trig_rt_desc n →
        input_ptrs (.pxi_trig_rt_desc 3) = pseudo_sources ++ pfi_ptrs ++
          pxi_trig_ptrs.filter (fun x => decide (x ≠ .pxi_trig_rt_desc n)) ∧
        (listed_inputs desc).length = 3 + 6 + 7) ∧
      (∀ n, desc_ptr.pxi_trig_rt_desc 3 = .pfi_rt_desc n →
        input_ptrs (.pxi_trig_rt_desc 3) = pseudo_sources ++
          pfi_ptrs.filter (fun x => decide (x ≠ .pfi_rt_desc n)) ++
          pxi_trig_ptrs ++ pxi_star_ptrs ∧
        (listed_inputs desc).length = 3 + 5 + 8 + 17) :=
  ⟨by decide, input_lists_well_formed (.pxi_trig_rt_desc 3) (by decide)⟩

end NI6674T
